import Mathlib

attribute [local semireducible] Rat.mul Rat.add Rat.sub Rat.inv

/-!
# BPMNCode front-end: shallow embedding and verification

This file embeds the core of the BPMNCode front-end (a textual DSL for
business-process diagrams) in Lean 4 and proves properties of it:
the lexer (`src/lexer/mod.rs`), the suggestion engine
(`src/diagnostics/suggestions.rs`), the context validator
(`src/diagnostics/context_validator.rs`), the recursive-descent parser with
its error-recovery engine (`src/parser/mod.rs`, `src/parser/recovery.rs`)
and the post-parse semantic validator (`src/parser/validator.rs`).

Modelling conventions:
* Rust `usize` indices and byte offsets are `Nat`; source text is `List Char`
  (positions are character offsets; the sources under test are ASCII, where
  character and byte offsets coincide).
* `f64` scores and attribute numbers are modelled as exact rationals `Rat`;
  the numeric texts produced by the lexer denote exactly representable
  small decimals, and no claim compares inexact values.
* `HashMap<String, _>` is an association list with insert-overwrite
  semantics (`get`/`contains_key`/`insert` are the only operations used).
* `Span.file : PathBuf` is omitted: no modelled code path reads it.
* Rust loops whose progress comes from returned cursor positions are
  modelled with a structural fuel argument; the canonical fuel passed by
  each wrapper exceeds the number of iterations the Rust loop can make
  (each iteration strictly advances the cursor, which is bounded by the
  token count), and fuel exhaustion is defined to coincide with the
  loop-exit state so that over-provisioned fuel is invisible.
-/

namespace BPMNCode

/-- Token kinds, from `TokenKind` in `src/lexer/mod.rs`. -/
inductive TokenKind where
  | process | «import» | «from» | as | subprocess
  | start | «end» | task | user | service | script | call | xor | and
  | event | group | pool | lane | note
  | sequenceFlow | messageFlow | defaultFlow | association | names
  | leftBrace | rightBrace | leftParen | rightParen
  | leftBracket | rightBracket | comma | equals | at | question
  | stringLiteral | numberLiteral | identifier
  | lineComment | blockComment
  | newline | carriageReturnNewline
  | unknown
  | eof
  deriving DecidableEq, Repr

/-- Source span, from `Span` in `src/lexer/mod.rs`.  `stop` models the Rust
field `end` (a Lean keyword); the `file : PathBuf` field is omitted. -/
structure Span where
  start : Nat
  stop : Nat
  line : Nat
  column : Nat
  deriving DecidableEq, Repr

/-- A lexed token, from `Token` in `src/lexer/mod.rs`. -/
structure Token where
  kind : TokenKind
  span : Span
  text : String
  deriving DecidableEq, Repr

/-! ## Lexer (`src/lexer/mod.rs`)

The Rust lexer is generated by `logos` from per-variant regexes with
longest-match-wins semantics (priorities break ties, with explicit tokens
beating the catch-all `.` rule).  `scanTok` reproduces that maximal-munch
decision for one token at the head of the remaining input. -/

/-- The keywords of the language with their token kinds. -/
def keywordKind (s : String) : Option TokenKind :=
  match s with
  | "process" => some .process
  | "import" => some .import
  | "from" => some .from
  | "as" => some .as
  | "subprocess" => some .subprocess
  | "start" => some .start
  | "end" => some .end
  | "task" => some .task
  | "user" => some .user
  | "service" => some .service
  | "script" => some .script
  | "call" => some .call
  | "xor" => some .xor
  | "and" => some .and
  | "event" => some .event
  | "group" => some .group
  | "pool" => some .pool
  | "lane" => some .lane
  | "note" => some .note
  | _ => none

def isIdentStart (c : Char) : Bool := c.isAlpha || c = '_'

def isIdentCont (c : Char) : Bool := c.isAlphanum || c = '_'

/-- Length of the longest run of characters satisfying `p` at the head. -/
def takeLen (p : Char → Bool) : List Char → Nat
  | [] => 0
  | c :: cs => if p c then takeLen p cs + 1 else 0

/-- Longest match of the string-literal regex `"([^"\\]|\\.)*"` at the head:
number of characters consumed including both quotes, or `none`. -/
def strLitLen : List Char → Option Nat
  | [] => none
  | c :: cs => if c = '"' then (strLitBody cs).map (· + 1) else none
where
  /-- Scan the body after the opening quote; result includes the closing
  quote. -/
  strLitBody : List Char → Option Nat
    | [] => none
    | c :: cs =>
      if c = '"' then some 1
      else if c = '\\' then
        match cs with
        | [] => none
        | _ :: cs' => (strLitBody cs').map (· + 2)
      else (strLitBody cs).map (· + 1)

/-- Longest match of the number regex `[0-9]+(\.[0-9]+)?[a-zA-Z]*`. -/
def numLitLen (l : List Char) : Option Nat :=
  let d := takeLen (·.isDigit) l
  if d = 0 then none
  else
    let rest := l.drop d
    let frac :=
      match rest with
      | '.' :: cs =>
        let d2 := takeLen (·.isDigit) cs
        if d2 = 0 then 0 else d2 + 1
      | _ => 0
    let suff := takeLen (·.isAlpha) (rest.drop frac)
    some (d + frac + suff)

/-- Longest match of the line-comment regex `//[^\n]*`. -/
def lineCommentLen : List Char → Option Nat
  | '/' :: '/' :: cs => some (2 + takeLen (· ≠ '\n') cs)
  | _ => none

/-- Longest match of the block-comment regex `/\*([^*]|\*[^/])*\*/`:
scan to the first `*/`. -/
def blockCommentLen : List Char → Option Nat
  | '/' :: '*' :: cs => (blockBody cs).map (· + 2)
  | _ => none
where
  blockBody : List Char → Option Nat
    | [] => none
    | '*' :: '/' :: _ => some 2
    | _ :: cs => (blockBody cs).map (· + 1)

/-- Fixed operator / punctuation tokens, longest first where prefixes
overlap (`-->` before `->`, `..>`, `::`, `=>` before `=`). -/
def opTok : List Char → Option (TokenKind × Nat)
  | [] => none
  | c :: rest =>
    if c = '-' then
      if rest.take 2 = ['-', '>'] then some (.messageFlow, 3)
      else if rest.take 1 = ['>'] then some (.sequenceFlow, 2)
      else none
    else if c = '.' then
      if rest.take 2 = ['.', '>'] then some (.association, 3) else none
    else if c = ':' then
      if rest.take 1 = [':'] then some (.names, 2) else none
    else if c = '=' then
      if rest.take 1 = ['>'] then some (.defaultFlow, 2) else some (.equals, 1)
    else if c = '{' then some (.leftBrace, 1)
    else if c = '}' then some (.rightBrace, 1)
    else if c = '(' then some (.leftParen, 1)
    else if c = ')' then some (.rightParen, 1)
    else if c = '[' then some (.leftBracket, 1)
    else if c = ']' then some (.rightBracket, 1)
    else if c = ',' then some (.comma, 1)
    else if c = '@' then some (.at, 1)
    else if c = '?' then some (.question, 1)
    else if c = '\r' then
      if rest.take 1 = ['\n'] then some (.carriageReturnNewline, 2) else none
    else if c = '\n' then some (.newline, 1)
    else none

/-- Decide the kind and length of the token starting at the head of `l`
(`l` nonempty, not leading whitespace).  Mirrors the logos longest-match
rule: literal/regex rules beat the priority-1 catch-all `.` (`Unknown`),
and explicit keyword tokens beat the identifier regex on ties. -/
def scanTok (l : List Char) : TokenKind × Nat :=
  match strLitLen l with
  | some n => (.stringLiteral, n)
  | none =>
    match numLitLen l with
    | some n => (.numberLiteral, n)
    | none =>
      if isIdentStart (l.headD ' ') then
        let n := takeLen isIdentCont l
        match keywordKind ((l.take n).asString) with
        | some k => (k, n)
        | none => (.identifier, n)
      else
        match lineCommentLen l with
        | some n => (.lineComment, n)
        | none =>
          match blockCommentLen l with
          | some n => (.blockComment, n)
          | none =>
            match opTok l with
            | some (k, n) => (k, n)
            | none => (.unknown, 1)

/-- `calculate_position`: line and 1-based column of character offset
`pos`, by scanning the whole prefix (as the Rust code does per token). -/
def calcPos (input : List Char) (pos : Nat) : Nat × Nat :=
  go (input.take pos) 1 1
where
  go : List Char → Nat → Nat → Nat × Nat
    | [], line, col => (line, col)
    | c :: cs, line, col =>
      if c = '\n' then go cs (line + 1) 1 else go cs line (col + 1)

/-- One `logos` skip: the characters `[ \t\f]` produce no token. -/
def isSkipChar (c : Char) : Bool := c = ' ' || c = '\t' || c = '\x0c'

/-- The token-producing loop of `Lexer::tokenize`, with the incremental
`line`/`column` state the Rust lexer keeps for the final EOF token.
`i` is the absolute offset of the head of `rest`; `fuel` bounds the number
of steps (every step consumes at least one character, so
`input.length + 1` never runs out). -/
def scanAll (input : List Char) : Nat → Nat → Nat → Nat → List Char →
    List Token × Nat × Nat
  | 0, _, line, col, _ => ([], line, col)
  | _ + 1, _, line, col, [] => ([], line, col)
  | fuel + 1, i, line, col, c :: rest =>
    if isSkipChar c then scanAll input fuel (i + 1) line col rest
    else
      let sc := scanTok (c :: rest)
      let lc := calcPos input i
      let tok : Token :=
        { kind := sc.1
          span := { start := i, stop := i + sc.2, line := lc.1, column := lc.2 }
          text := ((c :: rest).take sc.2).asString }
      let st :=
        if sc.1 = .newline || sc.1 = .carriageReturnNewline then (line + 1, 1)
        else (line, col + sc.2)
      let r := scanAll input fuel (i + sc.2) st.1 st.2 ((c :: rest).drop sc.2)
      (tok :: r.1, r.2.1, r.2.2)

/-- `Lexer::tokenize`: scan the whole input, then append one synthetic EOF
token whose span collapses to the end-of-input offset. -/
def tokenize (input : List Char) : List Token :=
  let r := scanAll input (input.length + 1) 0 1 1 input
  r.1 ++ [{ kind := .eof
            span := { start := input.length, stop := input.length
                      line := r.2.1, column := r.2.2 }
            text := "" }]

/-! ## Suggestion engine (`src/diagnostics/suggestions.rs`)

The scoring primitive is `strsim::jaro_winkler` (an external crate);
`jaro` and `jaroWinkler` below translate its algorithm, with `f64`
replaced by exact `Rat` arithmetic.  All properties proved about the
suggestion functions are structural in the score, so they are insensitive
to rounding differences between `f64` and `Rat`. -/

/-- State of the matching loop of `strsim::generic_jaro`. -/
structure JaroState where
  consumed : List Bool
  matchCount : Nat
  transCount : Nat
  bMatchIndex : Nat

/-- Inner loop of `generic_jaro`: find the first index `j` of `b` with
`lo ≤ j ≤ hi`, `b[j] = aElem` and not yet consumed. -/
def jaroFind (aElem : Char) (hi : Nat) (consumed : List Bool) :
    List Char → Nat → Option Nat
  | [], _ => none
  | c :: rest, j =>
    if hi < j then none
    else if c = aElem && !(consumed.getD j false) then some j
    else jaroFind aElem hi consumed rest (j + 1)

/-- Outer loop of `generic_jaro` over the characters of `a`. -/
def jaroLoop (b : List Char) (bLen searchRange : Nat) :
    List Char → Nat → JaroState → JaroState
  | [], _, st => st
  | aElem :: aRest, i, st =>
    let minBound := if searchRange < i then i - searchRange else 0
    let maxBound := min (bLen - 1) (i + searchRange)
    let st' :=
      if maxBound < minBound then st
      else
        match jaroFind aElem maxBound st.consumed (b.drop minBound) minBound with
        | some j =>
          { consumed := st.consumed.set j true
            matchCount := st.matchCount + 1
            transCount :=
              if j < st.bMatchIndex then st.transCount + 1
              else st.transCount
            bMatchIndex := j }
        | none => st
    jaroLoop b bLen searchRange aRest (i + 1) st'

/-- `strsim::generic_jaro` over character lists, with exact rational
arithmetic in place of `f64`. -/
def jaro (a b : List Char) : Rat :=
  let aLen := a.length
  let bLen := b.length
  if aLen = 0 && bLen = 0 then 1
  else if aLen = 0 || bLen = 0 then 0
  else if aLen = 1 && bLen = 1 then (if a = b then 1 else 0)
  else
    let searchRange := max aLen bLen / 2 - 1
    let st := jaroLoop b bLen searchRange a 0
      ⟨List.replicate bLen false, 0, 0, 0⟩
    if st.matchCount = 0 then 0
    else
      let m : Rat := st.matchCount
      let t : Rat := st.transCount
      (1 / 3) * (m / aLen + m / bLen + (m - t) / m)

/-- Length of the common prefix of two character lists. -/
def commonPrefixLen : List Char → List Char → Nat
  | a :: as_, b :: bs => if a = b then commonPrefixLen as_ bs + 1 else 0
  | _, _ => 0

/-- `strsim::jaro_winkler`: Jaro score boosted by a 0.1-scaled common
prefix, clamped to 1. -/
def jaroWinkler (a b : String) : Rat :=
  let jd := jaro a.data b.data
  let prefixLength : Rat := commonPrefixLen a.data b.data
  min (jd + (1 / 10) * prefixLength * (1 - jd)) 1

/-- The descending-by-score comparison used by `suggest_similar`'s
`sort_by(|a, b| b.0.partial_cmp(&a.0))`.  Scores are never NaN, so the
`unwrap_or(Equal)` branch is dead and the comparator is the total
preorder below. -/
def scoreGe (p q : Rat × String) : Prop := q.1 ≤ p.1

instance : DecidableRel scoreGe := fun p q => inferInstanceAs (Decidable (q.1 ≤ p.1))

/-- `suggest_similar`: score all candidates, keep scores strictly above
0.6, stable-sort descending, return at most `maxSuggestions` candidate
strings.  Rust's `sort_by` is a stable sort; a stable sort under a total
preorder has a unique result, so the (stable) insertion sort used here
returns exactly what the Rust code computes. -/
def suggestSimilar (target : String) (candidates : List String)
    (maxSuggestions : Nat) : List String :=
  if candidates = [] then []
  else
    let scored := (candidates.map fun c => (jaroWinkler target c, c)).filter
      fun p => decide ((6 : Rat) / 10 < p.1)
    let sorted := scored.insertionSort scoreGe
    (sorted.take maxSuggestions).map (·.2)

/-- `BPMN_KEYWORDS`. -/
def BPMN_KEYWORDS : List String :=
  ["process", "start", "end", "task", "user", "service", "script", "call",
   "xor", "and", "event", "pool", "lane", "group", "note", "subprocess",
   "import", "from", "as"]

/-- `suggest_keywords`. -/
def suggestKeywords (target : String) : List String :=
  suggestSimilar target BPMN_KEYWORDS 3

/-- `detect_keyword_typo`: the single best keyword match, only when its
score strictly exceeds 0.75. -/
def detectKeywordTypo (target : String) : Option String :=
  match suggestKeywords target with
  | [] => none
  | k :: _ =>
    if (3 : Rat) / 4 < jaroWinkler target k then some k else none

/-! ## Context validator, gateway brace check
(`src/diagnostics/context_validator.rs`) -/

/-- Diagnostic severity, from `Severity` in `src/diagnostics/mod.rs`. -/
inductive Severity where
  | error | warning | info | hint
  deriving DecidableEq, Repr

/-- The context-validator diagnostics relevant to the brace check, from
`DiagnosticError` in `src/diagnostics/mod.rs`. -/
inductive DiagnosticError where
  | syntaxErr (message : String) (span : Span) (severity : Severity)
      (suggestions : List String)
  | unexpectedTok (found : String) (expected : String) (span : Span)
      (suggestions : List String)
  deriving DecidableEq, Repr

/-- A placeholder token for the (unreachable in the modelled call sites)
out-of-bounds index accesses. -/
def defTok : Token :=
  { kind := .eof, span := { start := 0, stop := 0, line := 1, column := 1 }
    text := "" }

/-- `find_next_significant_token`: first index `≥ start` whose token is
not a newline or comment. -/
def findNextSignificantToken (tks : List Token) (start : Nat) : Option Nat :=
  go (tks.drop start) start
where
  go : List Token → Nat → Option Nat
    | [], _ => none
    | t :: rest, i =>
      match t.kind with
      | .newline | .carriageReturnNewline | .lineComment | .blockComment =>
        go rest (i + 1)
      | _ => some i

/-- The scanning loop of `find_gateway_closing_brace`: `count` is the
current brace depth (≥ 1 while scanning), `found` records whether a `[`,
`=>` or `->` was seen at depth 1. -/
def fgcbGo : List Token → Nat → Nat → Bool → Option Nat
  | [], _, _, _ => none
  | t :: rest, i, count, found =>
    match t.kind with
    | .leftBrace => fgcbGo rest (i + 1) (count + 1) found
    | .rightBrace =>
      if count = 1 then (if found then some i else none)
      else fgcbGo rest (i + 1) (count - 1) found
    | .leftBracket | .defaultFlow | .sequenceFlow =>
      fgcbGo rest (i + 1) count (if count = 1 then true else found)
    | .xor | .and | .task | .user | .service | .script | .«end» =>
      if count = 1 then none else fgcbGo rest (i + 1) count found
    | _ => fgcbGo rest (i + 1) count found

/-- `find_gateway_closing_brace`: index of the matching `\x7d` of the
`\x7b` at `openIdx`, but only when gateway-shaped content (`[`, `=>` or
`->` at depth 1) was seen before it; `none` when the stream is exhausted,
when depth 0 is reached without such content, or when an element keyword
occurs at depth 1. -/
def findGatewayClosingBrace (tks : List Token) (openIdx : Nat) : Option Nat :=
  match tks.get? openIdx with
  | some t =>
    if t.kind = .leftBrace then fgcbGo (tks.drop (openIdx + 1)) (openIdx + 1) 1 false
    else none
  | none => none

/-- `has_gateway_conditions_ahead`: scan at most 10 tokens from `start`;
`[` or `=>` means conditions follow, `\x7d` means nothing gateway-like
follows. -/
def hasGatewayConditionsAhead (tks : List Token) (start : Nat) : Bool :=
  go ((tks.drop start).take 10)
where
  go : List Token → Bool
    | [] => false
    | t :: rest =>
      match t.kind with
      | .leftBracket | .defaultFlow => true
      | .rightBrace => false
      | _ => go rest

/-- The header scan of `check_gateway_braces`: starting after the XOR/AND
token, skip an optional identifier and an optional `?`, tracking the end
offset of the gateway name.  Returns `(gateway_name_end, j)`. -/
def gatewayHeader (tks : List Token) (gatewayIndex : Nat) : Nat × Nat :=
  let token := tks.getD gatewayIndex defTok
  let j0 := gatewayIndex + 1
  let p1 :=
    match tks.get? j0 with
    | some next =>
      if next.kind = TokenKind.identifier then (next.span.stop, j0 + 1)
      else (token.span.stop, j0)
    | none => (token.span.stop, j0)
  match tks.get? p1.2 with
  | some next =>
    if next.kind = TokenKind.question then (next.span.stop, p1.2 + 1) else p1
  | none => p1

/-- The `gateway_span` reported by `check_gateway_braces`. -/
def gatewaySpanOf (tks : List Token) (gatewayIndex : Nat) : Span :=
  let token := tks.getD gatewayIndex defTok
  { start := token.span.start, stop := (gatewayHeader tks gatewayIndex).1
    line := token.span.line, column := token.span.column }

/-- The `"XOR"`/`"AND"` label used in `check_gateway_braces` messages. -/
def gatewayTypeStr (tks : List Token) (gatewayIndex : Nat) : String :=
  if (tks.getD gatewayIndex defTok).kind = TokenKind.xor then "XOR" else "AND"

/-- `check_gateway_braces`, returning the list of diagnostics it pushes
for the XOR/AND token at `gatewayIndex`. -/
def checkGatewayBraces (tks : List Token) (gatewayIndex : Nat) :
    List DiagnosticError :=
  let gatewayType := gatewayTypeStr tks gatewayIndex
  let j2 := (gatewayHeader tks gatewayIndex).2
  let gatewaySpan := gatewaySpanOf tks gatewayIndex
  let hasOpeningBrace :=
    match findNextSignificantToken tks j2 with
    | some idx => decide ((tks.getD idx defTok).kind = TokenKind.leftBrace)
    | none => false
  if hasOpeningBrace then
    match findNextSignificantToken tks j2 with
    | some openIdx =>
      match findGatewayClosingBrace tks openIdx with
      | some _ => []
      | none =>
        [DiagnosticError.syntaxErr
          (gatewayType ++ " gateway missing closing brace '\x7d'")
          gatewaySpan Severity.error ["\x7d"]]
    | none => []
  else if hasGatewayConditionsAhead tks j2 then
    [DiagnosticError.syntaxErr
      (gatewayType ++ " gateway missing opening brace '\x7b' before conditions")
      gatewaySpan Severity.error ["\x7b"]]
  else []

/-! ## Error recovery: synchronization points (`src/parser/recovery.rs`) -/

/-- Does this token kind resynchronize `find_sync_point` at its own
position? -/
def isSyncKeyword (k : TokenKind) : Bool :=
  match k with
  | .start | .«end» | .task | .user | .service | .script | .xor | .and
  | .event | .process | .«import» | .subprocess | .pool | .lane => true
  | _ => false

/-- `find_sync_point`: scan forward from `startPos`; `\x7d` resynchronizes
to the position after it, an element/process/import/container keyword
resynchronizes at its own position, everything else is skipped; the token
count is returned when the scan exhausts the stream. -/
def findSyncPoint (tks : List Token) (startPos : Nat) : Nat :=
  go (tks.drop startPos) startPos
where
  go : List Token → Nat → Nat
    | [], pos => pos
    | t :: rest, pos =>
      if t.kind = .rightBrace then pos + 1
      else if isSyncKeyword t.kind then pos
      else go rest (pos + 1)

/-! ## AST (`src/parser/ast.rs`)

`HashMap<String, AttributeValue>` becomes an association list holding at
most one binding per key (`attrInsert` overwrites in place, like
`HashMap::insert`). -/

/-- `TaskType`. -/
inductive TaskType where
  | generic | user | service | script
  deriving DecidableEq, Repr

/-- `GatewayType`. -/
inductive GatewayType where
  | exclusive | parallel
  deriving DecidableEq, Repr

/-- `EventType`. -/
inductive EventType where
  | message (payload : String)
  | timer (duration : String)
  | error (code : String)
  | signal (name : String)
  | terminate
  deriving DecidableEq, Repr

/-- `FlowType`. -/
inductive FlowType where
  | sequence | message | default | association
  deriving DecidableEq, Repr

/-- `AttributeValue`; `Number(f64)` carries an exact rational. -/
inductive AttributeValue where
  | string (s : String)
  | number (n : Rat)
  | boolean (b : Bool)
  | duration (d : String)
  deriving DecidableEq, Repr

/-- Attribute mapping: the model of `HashMap<String, AttributeValue>`. -/
abbrev AttrMap := List (String × AttributeValue)

/-- `HashMap::insert`: overwrite the binding of `k` if present, else add
one. -/
def attrInsert (k : String) (v : AttributeValue) : AttrMap → AttrMap
  | [] => [(k, v)]
  | (k', v') :: rest =>
    if k' = k then (k, v) :: rest else (k', v') :: attrInsert k v rest

/-- `GatewayBranch`. -/
structure GatewayBranch where
  condition : Option String
  target : String
  isDefault : Bool
  span : Span
  deriving DecidableEq, Repr

/-- `Flow`; the field `from` is a Lean keyword and is quoted. -/
structure Flow where
  «from» : String
  «to» : String
  flowType : FlowType
  condition : Option String
  span : Span
  deriving DecidableEq, Repr

mutual
/-- `ProcessElement`; the constructor `annot` models `Annotation`. -/
inductive ProcessElement where
  | startEvent (id : Option String) (eventType : Option EventType)
      (attributes : AttrMap) (span : Span)
  | endEvent (id : Option String) (eventType : Option EventType)
      (attributes : AttrMap) (span : Span)
  | task (id : String) (taskType : TaskType) (attributes : AttrMap)
      (span : Span)
  | gateway (id : Option String) (gatewayType : GatewayType)
      (branches : List GatewayBranch) (span : Span)
  | intermediateEvent (id : Option String) (eventType : EventType)
      (payload : Option String) (attributes : AttrMap) (span : Span)
  | subprocess (id : String) (elements : List ProcessElement)
      (flows : List Flow) (attributes : AttrMap) (span : Span)
  | callActivity (id : String) (calledElement : String)
      (attributes : AttrMap) (span : Span)
  | pool (name : String) (lanes : List Lane)
      (elements : List ProcessElement) (flows : List Flow) (span : Span)
  | group (label : String) (elements : List ProcessElement) (span : Span)
  | annot (text : String) (span : Span)

/-- `Lane`. -/
inductive Lane where
  | mk (name : String) (elements : List ProcessElement) (span : Span)
end

/-- Lane name. -/
def Lane.name : Lane → String
  | .mk n _ _ => n

/-- Lane elements. -/
def Lane.elements : Lane → List ProcessElement
  | .mk _ es _ => es

/-- Lane span. -/
def Lane.span : Lane → Span
  | .mk _ _ s => s

/-- `ErrorSeverity`. -/
inductive ErrorSeverity where
  | error | warning
  deriving DecidableEq, Repr

/-- `ParseError` (also `SyntaxError` in `src/parser/validator.rs`). -/
structure ParseError where
  message : String
  span : Span
  severity : ErrorSeverity
  deriving DecidableEq, Repr

/-- `ImportDeclaration`. -/
structure ImportDeclaration where
  path : String
  alias' : Option String
  items : List String
  span : Span
  deriving DecidableEq, Repr

/-- `ProcessDeclaration`. -/
structure ProcessDeclaration where
  name : String
  attributes : AttrMap
  elements : List ProcessElement
  flows : List Flow
  span : Span

/-- `AstDocument`. -/
structure AstDocument where
  imports : List ImportDeclaration
  processes : List ProcessDeclaration
  errors : List ParseError

/-! ## Semantic validator (`src/parser/validator.rs`)

Each function returns the list of errors it pushes onto `self.errors`, in
push order.  `node_ids : HashMap<String, Span>` becomes an association
list with at most one binding per key (only `get` and first-insertion are
performed on it). -/

/-- The model of the validator's `node_ids` map. -/
abbrev NodeIds := List (String × Span)

/-- `HashMap::get`. -/
def idLookup (m : NodeIds) (k : String) : Option Span :=
  match m with
  | [] => none
  | (k', s) :: rest => if k' = k then some s else idLookup rest k

/-- `HashMap::contains_key`. -/
def idContains (m : NodeIds) (k : String) : Bool :=
  (idLookup m k).isSome

mutual
/-- `SyntaxValidator::validate_element`: recursively validate one element
against the current container's id map, returning the pushed errors and
the updated map.  Subprocess, pool and group bodies are validated against
fresh empty maps; the `lanes` of a pool are not visited at all. -/
def validateElement (e : ProcessElement) (m : NodeIds) :
    List ParseError × NodeIds :=
  let info : Option String × Span × List ParseError :=
    match e with
    | .gateway id _ _ span => (id, span, [])
    | .endEvent id _ _ span => (id, span, [])
    | .startEvent id _ _ span => (id, span, [])
    | .intermediateEvent id _ _ _ span => (id, span, [])
    | .subprocess id elements _ _ span =>
      (some id, span, (validateElems elements []).1)
    | .callActivity id _ _ span => (some id, span, [])
    | .task id _ _ span => (some id, span, [])
    | .pool name _ elements _ span =>
      (some name, span, (validateElems elements []).1)
    | .group _ elements span => (none, span, (validateElems elements []).1)
    | .annot _ span => (none, span, [])
  match info with
  | (some id, span, nested) =>
    match idLookup m id with
    | some _ =>
      (nested ++ [{ message := "Duplicate node id '" ++ id ++ "'"
                    span := span, severity := .error }], m)
    | none => (nested, m ++ [(id, span)])
  | (none, _, nested) => (nested, m)

/-- The `for element in &process.elements` fold of `validate`. -/
def validateElems (es : List ProcessElement) (m : NodeIds) :
    List ParseError × NodeIds :=
  match es with
  | [] => ([], m)
  | e :: rest =>
    let (errs, m') := validateElement e m
    let (errs', m'') := validateElems rest m'
    (errs ++ errs', m'')
end

/-- `is_valid_sequence_flow` (a permissive pass-through). -/
def isValidSequenceFlow (f t : String) (_m : NodeIds) : Bool :=
  if f = "start" || t = "end" then true else true

/-- `is_valid_message_flow` (always true). -/
def isValidMessageFlow (_f _t : String) : Bool := true

/-- `is_valid_default_flow`: the source must be a known id or `"start"`. -/
def isValidDefaultFlow (f : String) (m : NodeIds) : Bool :=
  idContains m f || f = "start"

/-- `is_valid_association` (always true). -/
def isValidAssociation (_f _t : String) : Bool := true

/-- `SyntaxValidator::validate_flow`: the errors pushed for one flow,
checked against the owning container's id map. -/
def validateFlow (f : Flow) (m : NodeIds) : List ParseError :=
  let typeErrs : List ParseError :=
    match f.flowType with
    | .sequence =>
      if isValidSequenceFlow f.«from» f.«to» m then []
      else [{ message := "Invalid sequential arrow: " ++ f.«from» ++ " -> " ++ f.«to»
              span := f.span, severity := .error }]
    | .message =>
      if isValidMessageFlow f.«from» f.«to» then []
      else [{ message := "Invalid message arrow: " ++ f.«from» ++ " --> " ++ f.«to»
              span := f.span, severity := .error }]
    | .default =>
      if isValidDefaultFlow f.«from» m then []
      else [{ message := "The default arrow can only come from the gateway: "
                ++ f.«from» ++ " => " ++ f.«to»
              span := f.span, severity := .error }]
    | .association =>
      if isValidAssociation f.«from» f.«to» then []
      else [{ message := "Invalid associative link: " ++ f.«from» ++ " ..> " ++ f.«to»
              span := f.span, severity := .warning }]
  let srcErrs : List ParseError :=
    if ¬idContains m f.«from» ∧ f.«from» ≠ "start" then
      [{ message := "Unknown flow source: '" ++ f.«from» ++ "'"
         span := f.span, severity := .error }]
    else []
  let tgtErrs : List ParseError :=
    if ¬idContains m f.«to» ∧ f.«to» ≠ "end" then
      [{ message := "Unknown flow target: '" ++ f.«to» ++ "'"
         span := f.span, severity := .error }]
    else []
  typeErrs ++ srcErrs ++ tgtErrs

/-- `validate_unknown_commands`: a warning per process with no StartEvent
in its direct element list. -/
def validateUnknownCommands (doc : AstDocument) : List ParseError :=
  doc.processes.flatMap fun p =>
    if p.elements.any fun e =>
        match e with
        | .startEvent _ _ _ _ => true
        | _ => false then []
    else
      [{ message := "Process '" ++ p.name ++ "' must contain at least one start event"
         span := p.span, severity := .warning }]

/-- `SyntaxValidator::validate`: all errors pushed for a document, in push
order. -/
def validate (doc : AstDocument) : List ParseError :=
  (doc.processes.flatMap fun p =>
    let (elemErrs, nodeIds) := validateElems p.elements []
    elemErrs ++ p.flows.flatMap fun f => validateFlow f nodeIds)
  ++ validateUnknownCommands doc

/-- `validate_syntax`: empty error list means `Ok(())`. -/
def validateSyntax (doc : AstDocument) : Except (List ParseError) Unit :=
  match validate doc with
  | [] => .ok ()
  | errs => .error errs

/-! ## Parser (`src/parser/mod.rs`)

The Rust `Parser` holds an immutable token vector and a mutable cursor
`position`.  Every function below takes the token list and the entry
cursor and returns its result together with the exit cursor — Rust
failures leave the cursor wherever parsing stopped, so the exit cursor is
returned on the error path too (callers that rewind do so explicitly,
exactly where the Rust code restores `self.position`). -/

/-- `ParserError` from `src/parser/error.rs`. -/
inductive ParserError where
  | unexpectedToken (found : String) (expected : String) (span : Span)
  | unclosedBlock (startSpan : Span) (currentSpan : Span)
  | invalidAttributeValue (value : String) (span : Span)
  | duplicateId (id : String) (span : Span) (firstSpan : Span)
  | undefinedReference (reference : String) (span : Span)
  | invalidFlow (message : String) (span : Span)
  | unexpectedEof (expected : String) (span : Span)
  deriving DecidableEq, Repr

/-- `Display for Span` from `src/error.rs` (`file:line:column`); the
omitted `file` segment is dropped. -/
def spanDisplay (s : Span) : String :=
  toString s.line ++ ":" ++ toString s.column

/-- The `thiserror`-derived `Display` of `ParserError`, used by
`err.to_string()` when a failed import/process is recorded. -/
def ParserError.toMessage : ParserError → String
  | .unexpectedToken f e s =>
    "Unexpected token '" ++ f ++ "' at " ++ spanDisplay s ++ ", expected " ++ e
  | .unclosedBlock ss _ =>
    "Missing closing brace for block starting at " ++ spanDisplay ss
  | .invalidAttributeValue v s =>
    "Invalid attribute value '" ++ v ++ "' at " ++ spanDisplay s
  | .duplicateId i s fs =>
    "Duplicate element ID '" ++ i ++ "' at " ++ spanDisplay s
      ++ ", first defined at " ++ spanDisplay fs
  | .undefinedReference r s =>
    "Undefined reference '" ++ r ++ "' at " ++ spanDisplay s
  | .invalidFlow m s => "Invalid flow: " ++ m ++ " at " ++ spanDisplay s
  | .unexpectedEof e _ => "Unexpected end of input, expected " ++ e

/-- The Rust `Debug` name of a token kind, used by `consume_token`'s
`format!("{expected:?}")`. -/
def TokenKind.debugStr : TokenKind → String
  | .process => "Process" | .«import» => "Import" | .«from» => "From"
  | .as => "As" | .subprocess => "Subprocess" | .start => "Start"
  | .«end» => "End" | .task => "Task" | .user => "User"
  | .service => "Service" | .script => "Script" | .call => "Call"
  | .xor => "Xor" | .and => "And" | .event => "Event" | .group => "Group"
  | .pool => "Pool" | .lane => "Lane" | .note => "Note"
  | .sequenceFlow => "SequenceFlow" | .messageFlow => "MessageFlow"
  | .defaultFlow => "DefaultFlow" | .association => "Association"
  | .names => "Namespace" | .leftBrace => "LeftBrace"
  | .rightBrace => "RightBrace" | .leftParen => "LeftParen"
  | .rightParen => "RightParen" | .leftBracket => "LeftBracket"
  | .rightBracket => "RightBracket" | .comma => "Comma"
  | .equals => "Equals" | .at => "At" | .question => "Question"
  | .stringLiteral => "StringLiteral" | .numberLiteral => "NumberLiteral"
  | .identifier => "Identifier" | .lineComment => "LineComment"
  | .blockComment => "BlockComment" | .newline => "Newline"
  | .carriageReturnNewline => "CarriageReturnNewline"
  | .unknown => "Unknown" | .eof => "Eof"

/-- `current_token`: the token at the cursor, or the synthetic EOF token
the Rust code builds when the cursor is out of range. -/
def currentToken (tks : List Token) (pos : Nat) : Token :=
  tks.getD pos defTok

/-- `current_span`. -/
def currentSpan (tks : List Token) (pos : Nat) : Span :=
  (currentToken tks pos).span

/-- `check_token`. -/
def checkToken (tks : List Token) (pos : Nat) (k : TokenKind) : Bool :=
  (currentToken tks pos).kind = k

/-- `is_at_end`. -/
def isAtEnd (tks : List Token) (pos : Nat) : Bool :=
  tks.length ≤ pos || (currentToken tks pos).kind = .eof

/-- `advance`: move the cursor one token forward unless at the end. -/
def advancePos (tks : List Token) (pos : Nat) : Nat :=
  if isAtEnd tks pos then pos else pos + 1

/-- `skip_whitespace_and_comments`. -/
def skipWs (tks : List Token) (pos : Nat) : Nat :=
  go (tks.drop pos) pos
where
  go : List Token → Nat → Nat
    | [], p => p
    | t :: rest, p =>
      match t.kind with
      | .newline | .carriageReturnNewline | .lineComment | .blockComment =>
        go rest (p + 1)
      | _ => p

/-- `consume_token`: advance past the expected kind or fail in place. -/
def consumeTok (tks : List Token) (pos : Nat) (expected : TokenKind) :
    Except ParserError Unit × Nat :=
  if checkToken tks pos expected then (.ok (), advancePos tks pos)
  else
    (.error (.unexpectedToken (currentToken tks pos).text expected.debugStr
      (currentSpan tks pos)), pos)

/-- `parse_identifier`. -/
def parseIdentifier (tks : List Token) (pos : Nat) :
    Except ParserError String × Nat :=
  if checkToken tks pos .identifier then
    (.ok (currentToken tks pos).text, advancePos tks pos)
  else
    (.error (.unexpectedToken (currentToken tks pos).text "identifier"
      (currentSpan tks pos)), pos)

/-- Replace every occurrence of the two-character sequence `p1 p2` by
`rep`, left to right without overlap — one `str::replace` call. -/
def replaceEsc (p1 p2 rep : Char) : List Char → List Char
  | a :: b :: rest =>
    if a = p1 ∧ b = p2 then rep :: replaceEsc p1 p2 rep rest
    else a :: replaceEsc p1 p2 rep (b :: rest)
  | l => l

/-- The unescaping step of `parse_string_literal`: strip the surrounding
quotes, then apply the four sequential `replace` calls (`\"`, `\\`, `\n`,
`\t`) in the Rust order. -/
def unescapeStringLit (lit : String) : String :=
  let cs := lit.data
  if 2 ≤ cs.length ∧ cs.headD ' ' = '"' ∧ cs.getLastD ' ' = '"' then
    let body := (cs.drop 1).dropLast
    ⟨replaceEsc '\\' 't' '\t' (replaceEsc '\\' 'n' '\n'
      (replaceEsc '\\' '\\' '\\' (replaceEsc '\\' '"' '"' body)))⟩
  else lit

/-- `parse_string_literal`. -/
def parseStringLiteral (tks : List Token) (pos : Nat) :
    Except ParserError String × Nat :=
  if checkToken tks pos .stringLiteral then
    (.ok (unescapeStringLit (currentToken tks pos).text), advancePos tks pos)
  else
    (.error (.unexpectedToken (currentToken tks pos).text "string literal"
      (currentSpan tks pos)), pos)

/-- Does the string end with the given character suffix
(`str::ends_with`)? -/
def strEndsWith (s : String) (suffix : List Char) : Bool :=
  suffix.isSuffixOf s.data

/-- Numeric value of a digit run. -/
def digitsVal (cs : List Char) : Nat :=
  cs.foldl (fun acc c => acc * 10 + (c.toNat - '0'.toNat)) 0

/-- Case-insensitive comparison against a lowercase pattern. -/
def lowerIs (cs : List Char) (pat : String) : Bool :=
  cs.map Char.toLower = pat.data

/-- The success domain and exact value of Rust's `f64::from_str`
(`text.parse::<f64>()`): optional sign, then `inf`/`infinity`/`nan`
(case-insensitive; their value is never inspected by any modelled code
path and is represented by 0) or a decimal significand
(`digits [. digits*] | . digits+`) with an optional `e`/`E` exponent.
The value is kept as an exact rational; the numeric texts the lexer can
produce are plain digit strings whose `f64` value is exact. -/
def parseF64 (s : String) : Option Rat :=
  let (sign, cs1) : Int × List Char :=
    match s.data with
    | '+' :: r => (1, r)
    | '-' :: r => (-1, r)
    | r => (1, r)
  if lowerIs cs1 "inf" || lowerIs cs1 "infinity" || lowerIs cs1 "nan" then
    some 0
  else
    let d1 := takeLen (·.isDigit) cs1
    let afterInt := cs1.drop d1
    let sig : Option (Nat × Nat × List Char) :=
      match afterInt with
      | '.' :: r2 =>
        let d2 := takeLen (·.isDigit) r2
        if d1 = 0 ∧ d2 = 0 then none
        else some (digitsVal (cs1.take d1 ++ r2.take d2), d2, r2.drop d2)
      | _ => if d1 = 0 then none else some (digitsVal (cs1.take d1), 0, afterInt)
    match sig with
    | none => none
    | some (mantissa, scale, rest) =>
      let expn : Option Int :=
        match rest with
        | [] => some 0
        | e :: r3 =>
          if e = 'e' ∨ e = 'E' then
            let (esign, r4) : Int × List Char :=
              match r3 with
              | '+' :: r => (1, r)
              | '-' :: r => (-1, r)
              | r => (1, r)
            let d3 := takeLen (·.isDigit) r4
            if d3 = 0 ∨ (r4.drop d3) ≠ [] then none
            else some (esign * digitsVal (r4.take d3))
          else none
      match expn with
      | none => none
      | some e =>
        let net : Int := e - scale
        if 0 ≤ net then some (mkRat (sign * mantissa * 10 ^ net.toNat) 1)
        else some (mkRat (sign * mantissa) (10 ^ (-net).toNat))

/-- `parse_attribute_value`. -/
def parseAttributeValue (tks : List Token) (pos : Nat) :
    Except ParserError AttributeValue × Nat :=
  let t := currentToken tks pos
  match t.kind with
  | .stringLiteral =>
    match parseStringLiteral tks pos with
    | (.ok v, p) => (.ok (.string v), p)
    | (.error e, p) => (.error e, p)
  | .numberLiteral =>
    let pos' := advancePos tks pos
    if strEndsWith t.text ['m'] || strEndsWith t.text ['s']
        || strEndsWith t.text ['m', 's'] || strEndsWith t.text ['h'] then
      (.ok (.duration t.text), pos')
    else
      match parseF64 t.text with
      | some n => (.ok (.number n), pos')
      | none =>
        (.error (.invalidAttributeValue t.text (currentSpan tks pos')), pos')
  | .identifier =>
    let pos' := advancePos tks pos
    match t.text with
    | "true" => (.ok (.boolean true), pos')
    | "false" => (.ok (.boolean false), pos')
    | _ => (.ok (.string t.text), pos')
  | _ =>
    (.error (.unexpectedToken t.text "attribute value (string, number, boolean)"
      (currentSpan tks pos)), pos)

/-- The `@key value` prefix loop of `parse_attributes`.  Fuel exhaustion
returns the loop-exit state; every iteration consumes at least the `@`
token, so the wrapper's fuel never runs out. -/
def atLoop (tks : List Token) : Nat → Nat → AttrMap →
    Except ParserError AttrMap × Nat
  | 0, pos, attrs => (.ok attrs, pos)
  | fuel + 1, pos, attrs =>
    if checkToken tks pos .at then
      let pos1 := advancePos tks pos
      match parseIdentifier tks pos1 with
      | (.error e, p) => (.error e, p)
      | (.ok key, pos2) =>
        if checkToken tks pos2 .stringLiteral
            || checkToken tks pos2 .numberLiteral
            || checkToken tks pos2 .identifier then
          match parseAttributeValue tks pos2 with
          | (.error e, p) => (.error e, p)
          | (.ok v, pos3) => atLoop tks fuel pos3 (attrInsert key v attrs)
        else atLoop tks fuel pos2 (attrInsert key (.boolean true) attrs)
    else (.ok attrs, pos)

/-- The parenthesized `(key=value, ...)` loop of `parse_attributes`.
An `Except.ok` result means the Rust loop exited (guard false or
`break`); the caller then checks for `)`. -/
def parenLoop (tks : List Token) : Nat → Nat → AttrMap →
    Except ParserError AttrMap × Nat
  | 0, pos, attrs => (.ok attrs, pos)
  | fuel + 1, pos, attrs =>
    if ¬checkToken tks pos .rightParen ∧ ¬isAtEnd tks pos then
      match parseIdentifier tks pos with
      | (.error e, p) => (.error e, p)
      | (.ok key, pos1) =>
        if ¬checkToken tks pos1 .equals then
          (.error (.unexpectedToken (currentToken tks pos1).text "="
            (currentSpan tks pos1)), pos1)
        else
          let pos2 := advancePos tks pos1
          match parseAttributeValue tks pos2 with
          | (.error e, p) => (.error e, p)
          | (.ok v, pos3) =>
            let attrs' := attrInsert key v attrs
            let pos4 := skipWs tks pos3
            if checkToken tks pos4 .comma then
              parenLoop tks fuel (skipWs tks (advancePos tks pos4)) attrs'
            else if ¬checkToken tks pos4 .rightParen then (.ok attrs', pos4)
            else parenLoop tks fuel pos4 attrs'
    else (.ok attrs, pos)

/-- `parse_attributes`: the repeatable `@key value` prefix form followed
by an optional parenthesized form. -/
def parseAttributes (tks : List Token) (pos : Nat) :
    Except ParserError AttrMap × Nat :=
  match atLoop tks (tks.length + 1) pos [] with
  | (.error e, p) => (.error e, p)
  | (.ok attrs, pos1) =>
    if checkToken tks pos1 .leftParen then
      let pos2 := skipWs tks (advancePos tks pos1)
      match parenLoop tks (tks.length + 1) pos2 attrs with
      | (.error e, p) => (.error e, p)
      | (.ok attrs', pos3) =>
        if checkToken tks pos3 .rightParen then (.ok attrs', advancePos tks pos3)
        else
          (.error (.unexpectedToken (currentToken tks pos3).text ")"
            (currentSpan tks pos3)), pos3)
    else (.ok attrs, pos1)

/-- The collection loop of `parse_condition_expression`: concatenate up
to 50 tokens, inserting a space unless the next token's text is one of
`= ! < > & |`. -/
def condLoop (tks : List Token) : Nat → Nat → String → String × Nat
  | 0, pos, acc => (acc, pos)
  | budget + 1, pos, acc =>
    if ¬checkToken tks pos .rightBracket ∧ ¬isAtEnd tks pos then
      let txt := (currentToken tks pos).text
      let acc' :=
        if acc = "" then txt
        else if txt = "=" ∨ txt = "!" ∨ txt = "<" ∨ txt = ">" ∨ txt = "&"
            ∨ txt = "|" then acc ++ txt
        else acc ++ " " ++ txt
      condLoop tks budget (advancePos tks pos) acc'
    else (acc, pos)

/-- `parse_condition_expression`. -/
def parseConditionExpression (tks : List Token) (pos : Nat) :
    Except ParserError String × Nat :=
  let (cond, pos') := condLoop tks 50 pos ""
  if cond = "" then
    (.error (.unexpectedToken "]" "condition expression" (currentSpan tks pos')),
      pos')
  else (.ok cond, pos')

/-- The flow arrow kinds accepted by `parse_flow`. -/
def flowTypeOf : TokenKind → Option FlowType
  | .sequenceFlow => some .sequence
  | .messageFlow => some .message
  | .defaultFlow => some .default
  | .association => some .association
  | _ => none

/-- `parse_flow`: `id arrow (id | 'end') optional-[cond]`. -/
def parseFlow (tks : List Token) (pos : Nat) : Except ParserError Flow × Nat :=
  let span := currentSpan tks pos
  match parseIdentifier tks pos with
  | (.error e, p) => (.error e, p)
  | (.ok fromId, pos1) =>
    match flowTypeOf (currentToken tks pos1).kind with
    | none =>
      (.error (.unexpectedToken (currentToken tks pos1).text
        "flow arrow (-> --> => ..>)" (currentSpan tks pos1)), pos1)
    | some ft =>
      let pos2 := advancePos tks pos1
      let toRes : Except ParserError String × Nat :=
        if checkToken tks pos2 .«end» then (.ok "end", advancePos tks pos2)
        else parseIdentifier tks pos2
      match toRes with
      | (.error e, p) => (.error e, p)
      | (.ok toId, pos3) =>
        if checkToken tks pos3 .leftBracket then
          let pos4 := advancePos tks pos3
          match parseConditionExpression tks pos4 with
          | (.error e, p) => (.error e, p)
          | (.ok cond, pos5) =>
            match consumeTok tks pos5 .rightBracket with
            | (.error e, p) => (.error e, p)
            | (.ok _, pos6) =>
              (.ok { «from» := fromId, «to» := toId, flowType := ft
                     condition := some cond, span := span }, pos6)
        else
          (.ok { «from» := fromId, «to» := toId, flowType := ft
                 condition := none, span := span }, pos3)

/-- The branch loop of `parse_gateway_branches`. -/
def gbLoop (tks : List Token) : Nat → Nat → List GatewayBranch →
    Except ParserError (List GatewayBranch) × Nat
  | 0, pos, acc => (.ok acc, pos)
  | fuel + 1, pos, acc =>
    if ¬checkToken tks pos .rightBrace ∧ ¬isAtEnd tks pos then
      let span := currentSpan tks pos
      let condRes : Except ParserError (Option String × Bool) × Nat :=
        if checkToken tks pos .leftBracket then
          let pos1 := advancePos tks pos
          match parseConditionExpression tks pos1 with
          | (.error e, p) => (.error e, p)
          | (.ok cond, pos2) =>
            match consumeTok tks pos2 .rightBracket with
            | (.error e, p) => (.error e, p)
            | (.ok _, pos3) => (.ok (some cond, false), pos3)
        else if checkToken tks pos .defaultFlow then
          (.ok (none, true), advancePos tks pos)
        else
          match parseIdentifier tks pos with
          | (.error e, p) => (.error e, p)
          | (.ok cond, pos1) => (.ok (some cond, false), pos1)
      match condRes with
      | (.error e, p) => (.error e, p)
      | (.ok (condition, isDefault), pos2) =>
        if ¬checkToken tks pos2 .sequenceFlow
            ∧ ¬checkToken tks pos2 .defaultFlow then
          (.error (.unexpectedToken (currentToken tks pos2).text "-> or =>"
            (currentSpan tks pos2)), pos2)
        else
          let pos3 := advancePos tks pos2
          match parseIdentifier tks pos3 with
          | (.error e, p) => (.error e, p)
          | (.ok target, pos4) =>
            gbLoop tks fuel (skipWs tks pos4)
              (acc ++ [{ condition := condition, target := target
                         isDefault := isDefault, span := span }])
    else (.ok acc, pos)

/-- `parse_gateway_branches`. -/
def parseGatewayBranches (tks : List Token) (pos : Nat) :
    Except ParserError (List GatewayBranch) × Nat :=
  gbLoop tks (tks.length + 1) (skipWs tks pos) []

/-- `parse_event_type`: `@` followed by a known event-type name and its
optional payload; no `@` means no event type. -/
def parseEventType (tks : List Token) (pos : Nat) :
    Except ParserError (Option EventType) × Nat :=
  if ¬checkToken tks pos .at then (.ok none, pos)
  else
    let pos1 := advancePos tks pos
    if ¬checkToken tks pos1 .identifier then
      (.error (.unexpectedToken (currentToken tks pos1).text
        "event type identifier" (currentSpan tks pos1)), pos1)
    else
      let name := (currentToken tks pos1).text
      let pos2 := advancePos tks pos1
      match name with
      | "message" =>
        if checkToken tks pos2 .stringLiteral then
          match parseStringLiteral tks pos2 with
          | (.error e, p) => (.error e, p)
          | (.ok payload, pos3) => (.ok (some (.message payload)), pos3)
        else (.ok (some (.message "")), pos2)
      | "timer" =>
        if checkToken tks pos2 .numberLiteral
            || checkToken tks pos2 .identifier then
          (.ok (some (.timer (currentToken tks pos2).text)),
            advancePos tks pos2)
        else (.ok (some (.timer "")), pos2)
      | "error" =>
        if checkToken tks pos2 .stringLiteral then
          match parseStringLiteral tks pos2 with
          | (.error e, p) => (.error e, p)
          | (.ok code, pos3) => (.ok (some (.error code)), pos3)
        else (.ok (some (.error "")), pos2)
      | "signal" =>
        if checkToken tks pos2 .stringLiteral then
          match parseStringLiteral tks pos2 with
          | (.error e, p) => (.error e, p)
          | (.ok sig, pos3) => (.ok (some (.signal sig)), pos3)
        else (.ok (some (.signal "")), pos2)
      | "terminate" => (.ok (some .terminate), pos2)
      | _ =>
        (.error (.unexpectedToken name
          "event type (message, timer, error, signal, terminate)"
          (currentSpan tks pos2)), pos2)

/-! ## Error-recovery engine (`src/parser/recovery.rs`)

`ErrorRecovery` accumulates diagnostics in `self.errors`; each modelled
function returns the diagnostics it pushes, in push order, alongside its
result. -/

/-- The inner scan of `skip_malformed_attributes`: skip forward until a
token that can end an `@`-run. -/
def smaInner (tks : List Token) (pos : Nat) : Nat :=
  go (tks.drop pos) pos
where
  go : List Token → Nat → Nat
    | [], p => p
    | t :: rest, p =>
      match t.kind with
      | .at | .leftParen | .start | .«end» | .task | .user | .service
      | .script | .xor | .and | .rightBrace => p
      | _ => go rest (p + 1)

/-- The outer `@`-run loop of `skip_malformed_attributes`. -/
def smaOuter (tks : List Token) : Nat → Nat → Nat
  | 0, pos => pos
  | fuel + 1, pos =>
    if pos < tks.length ∧ (tks.getD pos defTok).kind = .at then
      smaOuter tks fuel (smaInner tks (pos + 1))
    else pos

/-- The balanced-parenthesis skip of `skip_malformed_attributes`. -/
def parenSkip : List Token → Nat → Nat → Nat
  | _, i, 0 => i
  | [], i, _ => i
  | t :: rest, i, count + 1 =>
    match t.kind with
    | .leftParen => parenSkip rest (i + 1) (count + 2)
    | .rightParen => parenSkip rest (i + 1) count
    | _ => parenSkip rest (i + 1) (count + 1)

/-- `skip_malformed_attributes`: skip `@key`-runs wholesale, then one
balanced `(...)` group. -/
def skipMalformedAttributes (tks : List Token) (pos : Nat) : Nat :=
  let p := smaOuter tks (tks.length + 1) pos
  if p < tks.length ∧ (tks.getD p defTok).kind = .leftParen then
    parenSkip (tks.drop (p + 1)) (p + 1) 1
  else p

/-- `recover_task`: rebuild a task from its keyword, synthesizing a
`Task_<position>` id (plus a warning) when the id is missing, and
skipping any attribute-looking tokens wholesale. -/
def recoverTask (tks : List Token) (startPos : Nat) :
    Option (ProcessElement × Nat) × List ParseError :=
  let span := (tks.getD startPos defTok).span
  let taskType : Option TaskType :=
    match (tks.getD startPos defTok).kind with
    | .task => some .generic
    | .user => some .user
    | .service => some .service
    | .script => some .script
    | _ => none
  match taskType with
  | none => (none, [])
  | some tt =>
    let pos1 := startPos + 1
    let (id, pos2, errs) :=
      if pos1 < tks.length ∧ (tks.getD pos1 defTok).kind = .identifier then
        ((tks.getD pos1 defTok).text, pos1 + 1, ([] : List ParseError))
      else
        ("Task_" ++ toString startPos, pos1,
          [{ message := "Missing task identifier, using default"
             span := span, severity := .warning }])
    let pos3 := skipMalformedAttributes tks pos2
    (some (.task id tt [] span, pos3), errs)

/-- The condition-text scan used by branch and flow recovery: concatenate
token texts (single-space separated) up to the closing `]` or the end of
the stream. -/
def condScan : List Token → Nat → String → String × Nat
  | [], i, acc => (acc, i)
  | t :: rest, i, acc =>
    if t.kind = .rightBracket then (acc, i)
    else condScan rest (i + 1) (if acc = "" then t.text else acc ++ " " ++ t.text)

/-- `recover_single_branch`. -/
def recoverSingleBranch (tks : List Token) (startPos : Nat) :
    Option (GatewayBranch × Nat) × List ParseError :=
  let span := (tks.getD startPos defTok).span
  let condPart : Option ((Option String × Bool) × Nat) :=
    if (tks.getD startPos defTok).kind = .leftBracket then
      let (cond, p) := condScan (tks.drop (startPos + 1)) (startPos + 1) ""
      some ((some cond, false), if p < tks.length then p + 1 else p)
    else if (tks.getD startPos defTok).kind = .defaultFlow then
      some ((none, true), startPos)
    else if (tks.getD startPos defTok).kind = .identifier then
      some ((some (tks.getD startPos defTok).text, false), startPos + 1)
    else none
  match condPart with
  | none => (none, [])
  | some ((condition, isDefault), pos1) =>
    if tks.length ≤ pos1
        ∨ ((tks.getD pos1 defTok).kind ≠ .sequenceFlow
            ∧ (tks.getD pos1 defTok).kind ≠ .defaultFlow) then
      (none, [{ message := "Missing arrow in gateway branch"
                span := span, severity := .error }])
    else
      let pos2 := pos1 + 1
      let (target, pos3, errs) :=
        if pos2 < tks.length ∧ (tks.getD pos2 defTok).kind = .identifier then
          ((tks.getD pos2 defTok).text, pos2 + 1, ([] : List ParseError))
        else
          ("UnknownTarget_" ++ toString pos2, pos2,
            [{ message := "Missing target in gateway branch"
               span := span, severity := .error }])
      (some ({ condition := condition, target := target
               isDefault := isDefault, span := span }, pos3), errs)

/-- The loop of `recover_gateway_branches`. -/
def rgbLoop (tks : List Token) : Nat → Nat → List GatewayBranch →
    List ParseError → List GatewayBranch × Nat × List ParseError
  | 0, pos, acc, errs => (acc, pos, errs)
  | fuel + 1, pos, acc, errs =>
    if pos < tks.length ∧ (tks.getD pos defTok).kind ≠ .rightBrace then
      match recoverSingleBranch tks pos with
      | (some (b, p), errs') => rgbLoop tks fuel p (acc ++ [b]) (errs ++ errs')
      | (none, errs') => rgbLoop tks fuel (pos + 1) acc (errs ++ errs')
    else (acc, pos, errs)

/-- `recover_gateway_branches`. -/
def recoverGatewayBranches (tks : List Token) (startPos : Nat) :
    List GatewayBranch × Nat × List ParseError :=
  rgbLoop tks (tks.length + 1) startPos [] []

/-- `recover_gateway`: rebuild a gateway tolerating a missing `{...}`
block (error, empty branches). -/
def recoverGateway (tks : List Token) (startPos : Nat) :
    Option (ProcessElement × Nat) × List ParseError :=
  let span := (tks.getD startPos defTok).span
  let gatewayType : Option GatewayType :=
    match (tks.getD startPos defTok).kind with
    | .xor => some .exclusive
    | .and => some .parallel
    | _ => none
  match gatewayType with
  | none => (none, [])
  | some gt =>
    let pos1 := startPos + 1
    let (id, pos2) : Option String × Nat :=
      if pos1 < tks.length ∧ (tks.getD pos1 defTok).kind = .identifier then
        (some (tks.getD pos1 defTok).text, pos1 + 1)
      else (none, pos1)
    let pos3 :=
      if pos2 < tks.length ∧ (tks.getD pos2 defTok).kind = .question then
        pos2 + 1
      else pos2
    if pos3 < tks.length ∧ (tks.getD pos3 defTok).kind = .leftBrace then
      let (branches, pos4, errs) := recoverGatewayBranches tks (pos3 + 1)
      let pos5 :=
        if pos4 < tks.length ∧ (tks.getD pos4 defTok).kind = .rightBrace then
          pos4 + 1
        else pos4
      (some (.gateway id gt branches span, pos5), errs)
    else
      (some (.gateway id gt [] span, pos3),
        [{ message := "Gateway missing branches block"
           span := span, severity := .error }])

/-- `recover_process_element`: Start/End rebuild trivially, task-family
and gateway keywords recover specially, anything else is unrecoverable
(error, `none`). -/
def recoverProcessElement (tks : List Token) (startPos : Nat) :
    Option (ProcessElement × Nat) × List ParseError :=
  if tks.length ≤ startPos then (none, [])
  else
    let token := tks.getD startPos defTok
    let span := token.span
    match token.kind with
    | .start => (some (.startEvent none none [] span, startPos + 1), [])
    | .«end» => (some (.endEvent none none [] span, startPos + 1), [])
    | .task | .user | .service | .script => recoverTask tks startPos
    | .xor | .and => recoverGateway tks startPos
    | _ =>
      (none, [{ message := "Cannot recover from token '" ++ token.text ++ "'"
                span := span, severity := .error }])

/-- `recover_flow`: rebuild `from arrow to [cond]`; `from` and the arrow
are required, a missing target synthesizes `UnknownTarget_<pos>` with an
error. -/
def recoverFlow (tks : List Token) (startPos : Nat) :
    Option (Flow × Nat) × List ParseError :=
  if startPos < tks.length
      ∧ (tks.getD startPos defTok).kind = .identifier then
    let fromId := (tks.getD startPos defTok).text
    let pos1 := startPos + 1
    let ftOpt : Option FlowType :=
      if pos1 < tks.length then flowTypeOf (tks.getD pos1 defTok).kind
      else none
    match ftOpt with
    | none => (none, [])
    | some ft =>
      let pos2 := pos1 + 1
      let (toId, pos3, errs) :=
        if pos2 < tks.length ∧ (tks.getD pos2 defTok).kind = .identifier then
          ((tks.getD pos2 defTok).text, pos2 + 1, ([] : List ParseError))
        else
          ("UnknownTarget_" ++ toString pos2, pos2,
            [{ message := "Missing target in flow"
               span := (tks.getD startPos defTok).span
               severity := .error }])
      let (condition, pos4) : Option String × Nat :=
        if pos3 < tks.length ∧ (tks.getD pos3 defTok).kind = .leftBracket then
          let (cond, p) := condScan (tks.drop (pos3 + 1)) (pos3 + 1) ""
          (some cond, if p < tks.length then p + 1 else p)
        else (none, pos3)
      (some ({ «from» := fromId, «to» := toId, flowType := ft
               condition := condition
               span := (tks.getD startPos defTok).span }, pos4), errs)
  else (none, [])

/-! ## The recursive element parser

`parse_process_element` recurses into nested bodies (subprocess, pool,
lane, group); the element parser and the body loops form one mutual
group, structurally recursive on a fuel argument that every mutual call
decrements.  Every mutual call either strictly advances the cursor or is
one of the at most two same-cursor steps (body loop → element parser,
pool loop → lane parser) between advances, so `4 * (length + 2)` fuel —
what the wrapper `parseProcessElementW` passes — is never exhausted; the
fuel-0 fallbacks mirror the corresponding loop-exit or error state. -/

/-- The five mutually recursive routines of `parse_process_element` —
the element parser itself, the subprocess body loop, the element-only
body loop (group/lane), the pool body loop and `parse_lane` — packaged
as one structure so that the fuel recursion below is plain structural
recursion: the routines at fuel `n + 1` call the routines at fuel `n`
through `rec`. -/
structure KnotFns where
  elem : Nat → Except ParserError ProcessElement × Nat
  efLoop : Nat → List ProcessElement → List Flow →
    List ProcessElement × List Flow × Nat
  eoLoop : Nat → List ProcessElement → List ProcessElement × Nat
  pLoop : Nat → List Lane → List ProcessElement → List Flow →
    Except ParserError (List Lane × List ProcessElement × List Flow) × Nat
  lane : Nat → Except ParserError Lane × Nat

/-- The shared `id attrs?` suffix of the task-family and subprocess
cases: an identifier followed by optional attributes. -/
def parseIdAttrs (tks : List Token) (pos : Nat) :
    Except ParserError (String × AttrMap) × Nat :=
  match parseIdentifier tks pos with
  | (.error e, p) => (.error e, p)
  | (.ok id, pos1) =>
    match parseAttributes tks pos1 with
    | (.error e, p) => (.error e, p)
    | (.ok attrs, pos2) => (.ok (id, attrs), pos2)

/-- The fuel-0 routines: each body loop returns its loop-exit state and
the parsers return the dispatch-failure error, so exhausted fuel
coincides with the corresponding exit (the wrappers always pass enough
fuel for the fuel-0 case to be unreachable). -/
def knotBase (tks : List Token) : KnotFns where
  elem := fun pos =>
    (.error (.unexpectedToken (currentToken tks pos).text "process element"
      (currentSpan tks pos)), pos)
  efLoop := fun pos es fs => (es, fs, pos)
  eoLoop := fun pos es => (es, pos)
  pLoop := fun pos lanes es fs => (.ok (lanes, es, fs), pos)
  lane := fun pos =>
    (.error (.unexpectedToken (currentToken tks pos).text
      TokenKind.lane.debugStr (currentSpan tks pos)), pos)

/-- The `parse_process_element` routine at the next fuel level
(dispatch on the leading keyword), in terms of the routines `rec` at the
previous level. -/
def knotElem (tks : List Token) (rec : KnotFns) (pos : Nat) :
    Except ParserError ProcessElement × Nat :=
    let span := currentSpan tks pos
    match (currentToken tks pos).kind with
    | .start =>
      let pos1 := advancePos tks pos
      match parseEventType tks pos1 with
      | (.error e, p) => (.error e, p)
      | (.ok et, pos2) =>
        match parseAttributes tks pos2 with
        | (.error e, p) => (.error e, p)
        | (.ok attrs, pos3) => (.ok (.startEvent none et attrs span), pos3)
    | .«end» =>
      let pos1 := advancePos tks pos
      match parseEventType tks pos1 with
      | (.error e, p) => (.error e, p)
      | (.ok et, pos2) =>
        match parseAttributes tks pos2 with
        | (.error e, p) => (.error e, p)
        | (.ok attrs, pos3) => (.ok (.endEvent none et attrs span), pos3)
    | .task =>
      match parseIdAttrs tks (advancePos tks pos) with
      | (.error e, p) => (.error e, p)
      | (.ok (id, attrs), p) => (.ok (.task id .generic attrs span), p)
    | .user =>
      match parseIdAttrs tks (advancePos tks pos) with
      | (.error e, p) => (.error e, p)
      | (.ok (id, attrs), p) => (.ok (.task id .user attrs span), p)
    | .service =>
      match parseIdAttrs tks (advancePos tks pos) with
      | (.error e, p) => (.error e, p)
      | (.ok (id, attrs), p) => (.ok (.task id .service attrs span), p)
    | .script =>
      match parseIdAttrs tks (advancePos tks pos) with
      | (.error e, p) => (.error e, p)
      | (.ok (id, attrs), p) => (.ok (.task id .script attrs span), p)
    | .call =>
      let pos1 := advancePos tks pos
      match parseIdentifier tks pos1 with
      | (.error e, p) => (.error e, p)
      | (.ok id, pos2) =>
        let calledRes : Except ParserError String × Nat :=
          if checkToken tks pos2 .names then
            match parseIdentifier tks (advancePos tks pos2) with
            | (.error e, p) => (.error e, p)
            | (.ok id2, p) => (.ok (id ++ "::" ++ id2), p)
          else (.ok id, pos2)
        match calledRes with
        | (.error e, p) => (.error e, p)
        | (.ok called, pos3) =>
          match parseAttributes tks pos3 with
          | (.error e, p) => (.error e, p)
          | (.ok attrs, pos4) =>
            (.ok (.callActivity id called attrs span), pos4)
    | .xor =>
      let pos1 := advancePos tks pos
      let idRes : Except ParserError (Option String) × Nat :=
        if checkToken tks pos1 .identifier then
          match parseIdentifier tks pos1 with
          | (.error e, p) => (.error e, p)
          | (.ok i, p) => (.ok (some i), p)
        else (.ok none, pos1)
      match idRes with
      | (.error e, p) => (.error e, p)
      | (.ok id, pos2) =>
        let pos3 :=
          if checkToken tks pos2 .question then advancePos tks pos2 else pos2
        match consumeTok tks pos3 .leftBrace with
        | (.error e, p) => (.error e, p)
        | (.ok _, pos4) =>
          match parseGatewayBranches tks pos4 with
          | (.error e, p) => (.error e, p)
          | (.ok branches, pos5) =>
            match consumeTok tks pos5 .rightBrace with
            | (.error e, p) => (.error e, p)
            | (.ok _, pos6) =>
              (.ok (.gateway id .exclusive branches span), pos6)
    | .and =>
      let pos1 := advancePos tks pos
      let idRes : Except ParserError (Option String) × Nat :=
        if checkToken tks pos1 .identifier then
          match parseIdentifier tks pos1 with
          | (.error e, p) => (.error e, p)
          | (.ok i, p) => (.ok (some i), p)
        else (.ok none, pos1)
      match idRes with
      | (.error e, p) => (.error e, p)
      | (.ok id, pos2) =>
        match consumeTok tks pos2 .leftBrace with
        | (.error e, p) => (.error e, p)
        | (.ok _, pos3) =>
          match parseGatewayBranches tks pos3 with
          | (.error e, p) => (.error e, p)
          | (.ok branches, pos4) =>
            match consumeTok tks pos4 .rightBrace with
            | (.error e, p) => (.error e, p)
            | (.ok _, pos5) =>
              (.ok (.gateway id .parallel branches span), pos5)
    | .event =>
      let pos1 := advancePos tks pos
      match parseEventType tks pos1 with
      | (.error e, p) => (.error e, p)
      | (.ok none, pos2) =>
        (.error (.unexpectedToken (currentToken tks pos2).text
          "event type (timer, message, etc.)" (currentSpan tks pos2)), pos2)
      | (.ok (some et), pos2) =>
        let pl : Option String × Nat :=
          if checkToken tks pos2 .stringLiteral
              || checkToken tks pos2 .numberLiteral
              || checkToken tks pos2 .identifier then
            (some (currentToken tks pos2).text, advancePos tks pos2)
          else (none, pos2)
        match parseAttributes tks pl.2 with
        | (.error e, p) => (.error e, p)
        | (.ok attrs, pos4) =>
          (.ok (.intermediateEvent none et pl.1 attrs span), pos4)
    | .subprocess =>
      match parseIdAttrs tks (advancePos tks pos) with
      | (.error e, p) => (.error e, p)
      | (.ok (id, attrs), pos1) =>
        match consumeTok tks pos1 .leftBrace with
        | (.error e, p) => (.error e, p)
        | (.ok _, pos2) =>
          let (es, fs, pos3) := rec.efLoop (skipWs tks pos2) [] []
          match consumeTok tks pos3 .rightBrace with
          | (.error e, p) => (.error e, p)
          | (.ok _, pos4) => (.ok (.subprocess id es fs attrs span), pos4)
    | .pool =>
      let pos1 := advancePos tks pos
      match parseIdentifier tks pos1 with
      | (.error e, p) => (.error e, p)
      | (.ok name, pos2) =>
        match consumeTok tks pos2 .leftBrace with
        | (.error e, p) => (.error e, p)
        | (.ok _, pos3) =>
          match rec.pLoop (skipWs tks pos3) [] [] [] with
          | (.error e, p) => (.error e, p)
          | (.ok (lanes, es, fs), pos4) =>
            match consumeTok tks pos4 .rightBrace with
            | (.error e, p) => (.error e, p)
            | (.ok _, pos5) => (.ok (.pool name lanes es fs span), pos5)
    | .group =>
      let pos1 := advancePos tks pos
      match parseStringLiteral tks pos1 with
      | (.error e, p) => (.error e, p)
      | (.ok label, pos2) =>
        match consumeTok tks pos2 .leftBrace with
        | (.error e, p) => (.error e, p)
        | (.ok _, pos3) =>
          let (es, pos4) := rec.eoLoop (skipWs tks pos3) []
          match consumeTok tks pos4 .rightBrace with
          | (.error e, p) => (.error e, p)
          | (.ok _, pos5) => (.ok (.group label es span), pos5)
    | .note =>
      let pos1 := advancePos tks pos
      match parseStringLiteral tks pos1 with
      | (.error e, p) => (.error e, p)
      | (.ok text, pos2) => (.ok (.annot text span), pos2)
    | _ =>
      (.error (.unexpectedToken (currentToken tks pos).text "process element"
        (currentSpan tks pos)), pos)

/-- The subprocess `(Element|Flow)*` body loop: element, else flow from
wherever the element attempt stopped, else skip one token. -/
def knotEfLoop (tks : List Token) (rec : KnotFns) (pos : Nat)
    (es : List ProcessElement) (fs : List Flow) :
    List ProcessElement × List Flow × Nat :=
    if ¬checkToken tks pos .rightBrace ∧ ¬isAtEnd tks pos then
      match rec.elem pos with
      | (.ok e, p) => rec.efLoop (skipWs tks p) (es ++ [e]) fs
      | (.error _, p1) =>
        match parseFlow tks p1 with
        | (.ok f, p2) => rec.efLoop (skipWs tks p2) es (fs ++ [f])
        | (.error _, p2) =>
          rec.efLoop (skipWs tks (advancePos tks p2)) es fs
    else (es, fs, pos)

/-- The element-only body loop of the group and lane cases. -/
def knotEoLoop (tks : List Token) (rec : KnotFns) (pos : Nat)
    (es : List ProcessElement) : List ProcessElement × Nat :=
    if ¬checkToken tks pos .rightBrace ∧ ¬isAtEnd tks pos then
      match rec.elem pos with
      | (.ok e, p) => rec.eoLoop (skipWs tks p) (es ++ [e])
      | (.error _, p) => rec.eoLoop (skipWs tks (advancePos tks p)) es
    else (es, pos)

/-- The pool body loop: lanes, elements and flows; a failed lane parse
propagates (`parse_lane()?`). -/
def knotPLoop (tks : List Token) (rec : KnotFns) (pos : Nat)
    (lanes : List Lane) (es : List ProcessElement) (fs : List Flow) :
    Except ParserError (List Lane × List ProcessElement × List Flow) × Nat :=
    if ¬checkToken tks pos .rightBrace ∧ ¬isAtEnd tks pos then
      if checkToken tks pos .lane then
        match rec.lane pos with
        | (.error e, p) => (.error e, p)
        | (.ok ln, p) => rec.pLoop (skipWs tks p) (lanes ++ [ln]) es fs
      else
        match rec.elem pos with
        | (.ok e, p) => rec.pLoop (skipWs tks p) lanes (es ++ [e]) fs
        | (.error _, p1) =>
          match parseFlow tks p1 with
          | (.ok f, p2) => rec.pLoop (skipWs tks p2) lanes es (fs ++ [f])
          | (.error _, p2) =>
            rec.pLoop (skipWs tks (advancePos tks p2)) lanes es fs
    else (.ok (lanes, es, fs), pos)

/-- `parse_lane` at the next fuel level. -/
def knotLane (tks : List Token) (rec : KnotFns) (pos : Nat) :
    Except ParserError Lane × Nat :=
    let span := currentSpan tks pos
    match consumeTok tks pos .lane with
    | (.error e, p) => (.error e, p)
    | (.ok _, pos1) =>
      match parseIdentifier tks pos1 with
      | (.error e, p) => (.error e, p)
      | (.ok name, pos2) =>
        match consumeTok tks pos2 .leftBrace with
        | (.error e, p) => (.error e, p)
        | (.ok _, pos3) =>
          let (es, pos4) := rec.eoLoop (skipWs tks pos3) []
          match consumeTok tks pos4 .rightBrace with
          | (.error e, p) => (.error e, p)
          | (.ok _, pos5) => (.ok (.mk name es span), pos5)

/-- One step of the mutual recursion: the routines at the next fuel
level, in terms of the routines `rec` at the previous level. -/
def knotStep (tks : List Token) (rec : KnotFns) : KnotFns :=
  { elem := knotElem tks rec
    efLoop := knotEfLoop tks rec
    eoLoop := knotEoLoop tks rec
    pLoop := knotPLoop tks rec
    lane := knotLane tks rec }

/-- The fuel tower of routines. -/
def knotAux (tks : List Token) : Nat → KnotFns
  | 0 => knotBase tks
  | fuel + 1 => knotStep tks (knotAux tks fuel)

/-- `parse_process_element` at a given fuel. -/
def parseProcessElement (tks : List Token) (fuel pos : Nat) :
    Except ParserError ProcessElement × Nat :=
  (knotAux tks fuel).elem pos

/-- The subprocess body loop at a given fuel. -/
def elemsFlowsLoop (tks : List Token) (fuel pos : Nat)
    (es : List ProcessElement) (fs : List Flow) :
    List ProcessElement × List Flow × Nat :=
  (knotAux tks fuel).efLoop pos es fs

/-- The group/lane body loop at a given fuel. -/
def elemsOnlyLoop (tks : List Token) (fuel pos : Nat)
    (es : List ProcessElement) : List ProcessElement × Nat :=
  (knotAux tks fuel).eoLoop pos es

/-- The pool body loop at a given fuel. -/
def poolLoop (tks : List Token) (fuel pos : Nat) (lanes : List Lane)
    (es : List ProcessElement) (fs : List Flow) :
    Except ParserError (List Lane × List ProcessElement × List Flow) × Nat :=
  (knotAux tks fuel).pLoop pos lanes es fs

/-- `parse_lane` at a given fuel. -/
def parseLane (tks : List Token) (fuel pos : Nat) :
    Except ParserError Lane × Nat :=
  (knotAux tks fuel).lane pos

/-- The fuel `parseProcessElementW` passes to the routine tower above. -/
def knotFuel (tks : List Token) : Nat := 4 * (tks.length + 2)

/-- `parse_process_element` as invoked by the parser: the element parser
with enough fuel for any input. -/
def parseProcessElementW (tks : List Token) (pos : Nat) :
    Except ParserError ProcessElement × Nat :=
  parseProcessElement tks (knotFuel tks) pos

/-! ## Document-level parsing with recovery (`parse_with_recovery`) -/

/-- The body loop of `parse_process_with_recovery`: try an element; on
failure, rewind and try a flow; on failure, rewind and delegate to the
recovery engine; if that also fails, record a skip warning and advance
one token.  Returns elements, flows, recovery errors and the exit
cursor. -/
def recBodyLoop (tks : List Token) :
    Nat → Nat → List ProcessElement → List Flow → List ParseError →
    List ProcessElement × List Flow × List ParseError × Nat
  | 0, pos, es, fs, errs => (es, fs, errs, pos)
  | fuel + 1, pos, es, fs, errs =>
    if ¬checkToken tks pos .rightBrace ∧ ¬isAtEnd tks pos then
      match parseProcessElementW tks pos with
      | (.ok e, p) => recBodyLoop tks fuel (skipWs tks p) (es ++ [e]) fs errs
      | (.error _, _) =>
        match parseFlow tks pos with
        | (.ok f, p) => recBodyLoop tks fuel (skipWs tks p) es (fs ++ [f]) errs
        | (.error _, _) =>
          match recoverProcessElement tks pos with
          | (some (e, p), errs1) =>
            recBodyLoop tks fuel (skipWs tks p) (es ++ [e]) fs (errs ++ errs1)
          | (none, errs1) =>
            match recoverFlow tks pos with
            | (some (f, p), errs2) =>
              recBodyLoop tks fuel (skipWs tks p) es (fs ++ [f])
                (errs ++ errs1 ++ errs2)
            | (none, errs2) =>
              let w : ParseError :=
                { message := "Skipping unexpected token '"
                    ++ (currentToken tks pos).text ++ "'"
                  span := currentSpan tks pos, severity := .warning }
              recBodyLoop tks fuel (skipWs tks (advancePos tks pos)) es fs
                (errs ++ errs1 ++ errs2 ++ [w])
    else (es, fs, errs, pos)

/-- `parse_process_with_recovery`: `process id attrs? { body }` where a
failed attribute parse falls back to the empty map
(`unwrap_or_default`), the body uses `recBodyLoop`, and a missing
closing brace is recorded (error) without failing. -/
def parseProcessWithRecovery (tks : List Token) (fuel pos : Nat) :
    Except ParserError ProcessDeclaration × Nat × List ParseError :=
  let startSpan := currentSpan tks pos
  match consumeTok tks pos .process with
  | (.error e, p) => (.error e, p, [])
  | (.ok _, pos1) =>
    match parseIdentifier tks pos1 with
    | (.error e, p) => (.error e, p, [])
    | (.ok name, pos2) =>
      let (attrsRes, pos3) := parseAttributes tks pos2
      let attrs := match attrsRes with | .ok a => a | .error _ => []
      match consumeTok tks pos3 .leftBrace with
      | (.error e, p) => (.error e, p, [])
      | (.ok _, pos4) =>
        let (es, fs, errs, pos5) := recBodyLoop tks fuel (skipWs tks pos4) [] [] []
        if checkToken tks pos5 .rightBrace then
          (.ok { name := name, attributes := attrs, elements := es
                 flows := fs, span := startSpan }, advancePos tks pos5, errs)
        else
          (.ok { name := name, attributes := attrs, elements := es
                 flows := fs, span := startSpan }, pos5,
            errs ++ [{ message := "Missing closing brace for process"
                       span := currentSpan tks pos5, severity := .error }])

/-- The item-list loop of `parse_import`'s `a, b from "p"` form. -/
def importItemsLoop (tks : List Token) :
    Nat → Nat → List String → Except ParserError (List String) × Nat
  | 0, pos, acc => (.ok acc, pos)
  | fuel + 1, pos, acc =>
    if ¬checkToken tks pos .«from» ∧ ¬isAtEnd tks pos then
      let step : Except ParserError (List String) × Nat :=
        if checkToken tks pos .identifier then
          match parseIdentifier tks pos with
          | (.error e, p) => (.error e, p)
          | (.ok id, p) => (.ok (acc ++ [id]), p)
        else (.ok acc, advancePos tks pos)
      match step with
      | (.error e, p) => (.error e, p)
      | (.ok acc', pos1) =>
        if checkToken tks pos1 .comma then
          importItemsLoop tks fuel (advancePos tks pos1) acc'
        else if ¬checkToken tks pos1 .«from» then (.ok acc', pos1)
        else importItemsLoop tks fuel pos1 acc'
    else (.ok acc, pos)

/-- `parse_import`: `import "p" (as alias)?` or `import a, b from "p"`. -/
def parseImport (tks : List Token) (pos : Nat) :
    Except ParserError ImportDeclaration × Nat :=
  let startSpan := currentSpan tks pos
  match consumeTok tks pos .«import» with
  | (.error e, p) => (.error e, p)
  | (.ok _, pos1) =>
    if checkToken tks pos1 .stringLiteral then
      match parseStringLiteral tks pos1 with
      | (.error e, p) => (.error e, p)
      | (.ok path, pos2) =>
        if checkToken tks pos2 .as then
          match parseIdentifier tks (advancePos tks pos2) with
          | (.error e, p) => (.error e, p)
          | (.ok al, pos3) =>
            (.ok { path := path, alias' := some al, items := []
                   span := startSpan }, pos3)
        else
          (.ok { path := path, alias' := none, items := [], span := startSpan },
            pos2)
    else
      match importItemsLoop tks (tks.length + 1) pos1 [] with
      | (.error e, p) => (.error e, p)
      | (.ok items, pos2) =>
        match consumeTok tks pos2 .«from» with
        | (.error e, p) => (.error e, p)
        | (.ok _, pos3) =>
          match parseStringLiteral tks pos3 with
          | (.error e, p) => (.error e, p)
          | (.ok path, pos4) =>
            (.ok { path := path, alias' := none, items := items
                   span := startSpan }, pos4)

/-- The document error recorded for a failed import or process:
`document.add_error(err.to_string(), self.current_span())`. -/
def docError (e : ParserError) (tks : List Token) (pos : Nat) : ParseError :=
  { message := e.toMessage, span := currentSpan tks pos, severity := .error }

/-- The import loop of `parse_with_recovery`, instrumented with the
number of recovery steps (`find_sync_point` jumps) it performs.  Result:
imports, document errors, exit cursor, recovery steps. -/
def importLoop (tks : List Token) :
    Nat → Nat → List ImportDeclaration × List ParseError × Nat × Nat
  | 0, pos => ([], [], pos, 0)
  | fuel + 1, pos =>
    if checkToken tks pos .«import» then
      match parseImport tks pos with
      | (.ok imp, p) =>
        let (is, errs, pf, steps) := importLoop tks fuel (skipWs tks p)
        (imp :: is, errs, pf, steps)
      | (.error e, p) =>
        let (is, errs, pf, steps) :=
          importLoop tks fuel (skipWs tks (findSyncPoint tks p))
        (is, docError e tks p :: errs, pf, steps + 1)
    else ([], [], pos, 0)

/-- The process loop of `parse_with_recovery`, instrumented like
`importLoop`.  Result: processes, document errors, recovery errors, exit
cursor, recovery steps. -/
def processLoop (tks : List Token) (bodyFuel : Nat) :
    Nat → Nat →
    List ProcessDeclaration × List ParseError × List ParseError × Nat × Nat
  | 0, pos => ([], [], [], pos, 0)
  | fuel + 1, pos =>
    if checkToken tks pos .process then
      match parseProcessWithRecovery tks bodyFuel pos with
      | (.ok proc, p, recErrs) =>
        let (ps, errs, recs, pf, steps) := processLoop tks bodyFuel fuel (skipWs tks p)
        (proc :: ps, errs, recErrs ++ recs, pf, steps)
      | (.error e, p, recErrs) =>
        let (ps, errs, recs, pf, steps) :=
          processLoop tks bodyFuel fuel (skipWs tks (findSyncPoint tks p))
        (ps, docError e tks p :: errs, recErrs ++ recs, pf, steps + 1)
    else ([], [], [], pos, 0)

/-- `parse_with_recovery` with an explicit fuel for its three recovery
loops (the import loop, the process loop and each process-body loop),
instrumented with the total number of recovery steps.  Document errors
come first (in failure order), then all recovery-engine errors, then the
trailing unexpected-token error if any. -/
def parseWithRecoveryF (tks : List Token) (fuel : Nat) : AstDocument × Nat :=
  let pos0 := skipWs tks 0
  let (imps, ierrs, pos1, isteps) := importLoop tks fuel pos0
  let (procs, perrs, recErrs, pos2, psteps) := processLoop tks fuel fuel pos1
  let trailing : List ParseError :=
    if ¬isAtEnd tks pos2 ∧ ¬checkToken tks pos2 .eof then
      [{ message := "Unexpected token '" ++ (currentToken tks pos2).text ++ "'"
         span := currentSpan tks pos2, severity := .error }]
    else []
  ({ imports := imps, processes := procs
     errors := ierrs ++ perrs ++ recErrs ++ trailing }, isteps + psteps)

/-- `parse_with_recovery` (also `parse_tokens`): always returns a
document. -/
def parseWithRecovery (tks : List Token) : AstDocument :=
  (parseWithRecoveryF tks (tks.length + 1)).1

/-- The total number of top-level recovery steps (`find_sync_point`
jumps) a parse performs. -/
def recoverySteps (tks : List Token) : Nat :=
  (parseWithRecoveryF tks (tks.length + 1)).2

/-! ## Statement-support definitions

Predicates and accessors used by the theorems below. -/

instance : IsTotal (Rat × String) scoreGe :=
  ⟨fun a b => le_total b.1 a.1⟩

instance : IsTrans (Rat × String) scoreGe :=
  ⟨fun _ _ _ h1 h2 => le_trans h2 h1⟩

mutual
/-- Every StartEvent and EndEvent anywhere inside this element has
`id = none`. -/
def eventsIdNone : ProcessElement → Bool
  | .startEvent id _ _ _ => id.isNone
  | .endEvent id _ _ _ => id.isNone
  | .subprocess _ es _ _ _ => eventsIdNoneList es
  | .pool _ lanes es _ _ => eventsIdNoneLanes lanes && eventsIdNoneList es
  | .group _ es _ => eventsIdNoneList es
  | _ => true

/-- `eventsIdNone` over an element list. -/
def eventsIdNoneList : List ProcessElement → Bool
  | [] => true
  | e :: rest => eventsIdNone e && eventsIdNoneList rest

/-- `eventsIdNone` over a lane list. -/
def eventsIdNoneLanes : List Lane → Bool
  | [] => true
  | .mk _ es _ :: rest => eventsIdNoneList es && eventsIdNoneLanes rest
end

/-- Lift `eventsIdNone` over a parse result. -/
def exceptEventsIdNone : Except ParserError ProcessElement → Bool
  | .ok e => eventsIdNone e
  | .error _ => true

/-- Lift `eventsIdNone` over a recovery result. -/
def optEventsIdNone : Option (ProcessElement × Nat) → Bool
  | some (e, _) => eventsIdNone e
  | none => true

/-- View a task element as `(id, attributes)`. -/
def taskView : ProcessElement → Option (String × AttrMap)
  | .task id _ attrs _ => some (id, attrs)
  | _ => none

/-- The identifier an element registers in its enclosing container's id
map (`validate_element`'s `id_opt`). -/
def elemTopId : ProcessElement → Option String
  | .startEvent id _ _ _ => id
  | .endEvent id _ _ _ => id
  | .gateway id _ _ _ => id
  | .intermediateEvent id _ _ _ _ => id
  | .task id _ _ _ => some id
  | .callActivity id _ _ _ => some id
  | .subprocess id _ _ _ _ => some id
  | .pool name _ _ _ _ => some name
  | .group _ _ _ => none
  | .annot _ _ => none

/-- The span `validate_element` reports for an element. -/
def elemSpan : ProcessElement → Span
  | .startEvent _ _ _ span => span
  | .endEvent _ _ _ span => span
  | .gateway _ _ _ span => span
  | .intermediateEvent _ _ _ _ span => span
  | .task _ _ _ span => span
  | .callActivity _ _ _ span => span
  | .subprocess _ _ _ _ span => span
  | .pool _ _ _ _ span => span
  | .group _ _ span => span
  | .annot _ span => span

instance {ε α : Type} [DecidableEq ε] [DecidableEq α] :
    DecidableEq (Except ε α) := fun x y =>
  match x, y with
  | .ok a, .ok b =>
    if h : a = b then isTrue (by rw [h])
    else isFalse (fun hc => by cases hc; exact h rfl)
  | .error a, .error b =>
    if h : a = b then isTrue (by rw [h])
    else isFalse (fun hc => by cases hc; exact h rfl)
  | .ok _, .error _ => isFalse (fun hc => Except.noConfusion hc)
  | .error _, .ok _ => isFalse (fun hc => Except.noConfusion hc)

/-- A concrete token list (`@flag )`) exercising the bare-flag attribute
path. -/
def c9Toks : List Token :=
  [{ kind := .at, span := { start := 0, stop := 1, line := 1, column := 1 }
     text := "@" },
   { kind := .identifier, span := { start := 1, stop := 5, line := 1, column := 2 }
     text := "flag" },
   { kind := .rightParen, span := { start := 6, stop := 7, line := 1, column := 7 }
     text := ")" }]

/-- A concrete token list for a well-formed gateway block. -/
def c6Toks : List Token := tokenize "xor G? \x7b [a] -> X \x7d".toList

/-- The errors `validate_element` pushes for the element's own nested
containers, validated against fresh empty id maps: subprocess, pool and
group bodies recurse (pool lanes are not visited); everything else
contributes nothing. -/
def elemNestedErrs : ProcessElement → List ParseError
  | .subprocess _ elements _ _ _ => (validateElems elements []).1
  | .pool _ _ elements _ _ => (validateElems elements []).1
  | .group _ elements _ => (validateElems elements []).1
  | _ => []

/-- The invariant carried through the fuel tower for C10: every routine
only builds start/end events with `id = none`, recursively. -/
def knotOk (f : KnotFns) : Prop :=
  (∀ pos, exceptEventsIdNone (f.elem pos).1 = true)
  ∧ (∀ pos es fs, eventsIdNoneList es = true →
      eventsIdNoneList (f.efLoop pos es fs).1 = true)
  ∧ (∀ pos es, eventsIdNoneList es = true →
      eventsIdNoneList (f.eoLoop pos es).1 = true)
  ∧ (∀ pos lanes es fs, eventsIdNoneLanes lanes = true →
      eventsIdNoneList es = true →
      match (f.pLoop pos lanes es fs).1 with
      | .ok (ls, es', _) =>
        eventsIdNoneLanes ls = true ∧ eventsIdNoneList es' = true
      | .error _ => True)
  ∧ (∀ pos, match (f.lane pos).1 with
      | .ok l => eventsIdNoneList l.elements = true
      | .error _ => True)

/-- A lane whose body declares the task id `T` twice. -/
def c3Lane : Lane :=
  .mk "L"
    [.task "T" .generic [] { start := 10, stop := 11, line := 2, column := 3 },
     .task "T" .generic [] { start := 12, stop := 13, line := 3, column := 3 }]
    { start := 8, stop := 9, line := 2, column := 1 }

/-- A document whose only process has a start event and a pool whose
single lane body contains the duplicate task ids of `c3Lane`. -/
def c3Doc : AstDocument :=
  { imports := []
    processes :=
      [{ name := "P", attributes := []
         elements :=
           [.startEvent none none [] { start := 1, stop := 2, line := 1, column := 1 },
            .pool "Pool" [c3Lane] [] [] { start := 5, stop := 6, line := 2, column := 1 }]
         flows := []
         span := { start := 0, stop := 20, line := 1, column := 1 } }]
    errors := [] }

/-- The cursor-monotonicity invariant carried through the fuel tower for
C1: no routine ever moves the cursor backwards, and a successful element
parse consumes at least its leading keyword token. -/
def knotMono (f : KnotFns) : Prop :=
  (∀ pos r p, f.elem pos = (r, p) →
    pos ≤ p ∧ ∀ e, r = Except.ok e → pos + 1 ≤ p)
  ∧ (∀ pos es fs, pos ≤ (f.efLoop pos es fs).2.2)
  ∧ (∀ pos es, pos ≤ (f.eoLoop pos es).2)
  ∧ (∀ pos lanes es fs, pos ≤ (f.pLoop pos lanes es fs).2)
  ∧ (∀ pos, pos ≤ (f.lane pos).2)

/-! # Theorems -/

/-! ## Helper lemmas -/

theorem findSyncPoint_go_ge (l : List Token) : ∀ pos, pos ≤ findSyncPoint.go l pos := by
  induction l with
  | nil => intro pos; simp [findSyncPoint.go]
  | cons t rest ih =>
    intro pos
    simp only [findSyncPoint.go]
    split
    · omega
    · split
      · omega
      · exact le_trans (Nat.le_succ pos) (ih (pos + 1))

theorem findSyncPoint_ge (tks : List Token) (s : Nat) : s ≤ findSyncPoint tks s :=
  findSyncPoint_go_ge _ s

theorem getD_of_getElem? {l : List Token} {n : Nat} {t d : Token}
    (h : l[n]? = some t) : l.getD n d = t := by
  simp [List.getD, h]

theorem length_le_of_getElem? {l : List Token} {n : Nat} {t : Token}
    (h : l[n]? = some t) : n < l.length := by
  by_contra hc
  rw [List.getElem?_eq_none (by omega)] at h
  exact Option.noConfusion h

/-! ## C7: `find_sync_point` cursor movement -/

/-- C7 counterexample: `find_sync_point` called at a `process` keyword
returns the start position itself — the cursor does not strictly
advance on every call. -/
theorem C7_counterexample :
    findSyncPoint [{ kind := .process
                     span := { start := 0, stop := 7, line := 1, column := 1 }
                     text := "process" }] 0 = 0 := by
  decide

/-- C7 (amended): `find_sync_point` never moves the cursor backwards; it
returns exactly the start position when the start position is at or past
the end of the token list or the token there is one of the
synchronization keywords, and a strictly larger position in every other
case. -/
theorem C7_sync_point_monotone (tks : List Token) (s : Nat) :
    s ≤ findSyncPoint tks s
    ∧ (findSyncPoint tks s = s ↔
        tks.length ≤ s ∨ ∃ t, tks[s]? = some t ∧ isSyncKeyword t.kind = true) := by
  refine ⟨findSyncPoint_ge tks s, ?_⟩
  rcases h : tks.drop s with _ | ⟨t, rest⟩
  · have hlen : tks.length ≤ s := by
      have := List.drop_eq_nil_iff.mp h
      omega
    constructor
    · intro _; exact Or.inl hlen
    · intro _; simp [findSyncPoint, h, findSyncPoint.go]
  · have hs : s < tks.length := by
      by_contra hc
      rw [List.drop_eq_nil_of_le (by omega)] at h
      exact List.noConfusion h
    have hget : tks[s]? = some t := by
      have := List.head?_drop tks s
      rw [h] at this
      simp at this
      exact this.symm
    have hunfold : findSyncPoint tks s = findSyncPoint.go (t :: rest) s := by
      simp [findSyncPoint, h]
    constructor
    · intro heq
      rw [hunfold] at heq
      simp only [findSyncPoint.go] at heq
      by_cases hb : t.kind = .rightBrace
      · rw [if_pos hb] at heq; omega
      · rw [if_neg hb] at heq
        by_cases hsync : isSyncKeyword t.kind = true
        · exact Or.inr ⟨t, hget, hsync⟩
        · rw [if_neg hsync] at heq
          have := findSyncPoint_go_ge rest (s + 1)
          omega
    · rintro (hlen | ⟨t', hget', hsync⟩)
      · omega
      · rw [hget] at hget'
        injection hget' with ht
        subst ht
        rw [hunfold]
        simp only [findSyncPoint.go]
        have hnb : t.kind ≠ .rightBrace := by
          intro hk
          rw [hk] at hsync
          simp [isSyncKeyword] at hsync
        rw [if_neg (by simp [hnb]), if_pos hsync]

/-! ## C4: flow endpoint checks -/

/-- C4: for every flow and id map, `validate_flow` emits the default-flow
error exactly when the flow is Default-kind with a source that is neither
a known id nor `"start"`, the unknown-source error exactly when the
source is absent and not `"start"`, and the unknown-target error exactly
when the target is absent and not `"end"` — and nothing else. -/
theorem C4_flow_endpoint_checks (f : Flow) (m : NodeIds) :
    validateFlow f m =
      (if f.flowType = .default ∧ ¬(idContains m f.«from» = true ∨ f.«from» = "start") then
        [{ message := "The default arrow can only come from the gateway: "
              ++ f.«from» ++ " => " ++ f.«to»
           span := f.span, severity := .error }]
       else [])
      ++ (if idContains m f.«from» = false ∧ f.«from» ≠ "start" then
            [{ message := "Unknown flow source: '" ++ f.«from» ++ "'"
               span := f.span, severity := .error }]
          else [])
      ++ (if idContains m f.«to» = false ∧ f.«to» ≠ "end" then
            [{ message := "Unknown flow target: '" ++ f.«to» ++ "'"
               span := f.span, severity := .error }]
          else []) := by
  unfold validateFlow
  cases hft : f.flowType <;>
    simp only [isValidSequenceFlow, isValidMessageFlow, isValidDefaultFlow,
      isValidAssociation, if_true] <;>
    split_ifs <;> simp_all

/-! ## C9: bare `@key` flag attributes -/

/-- C9: in the prefix attribute form, an `@key` whose following token is
neither a string literal, a number literal nor an identifier is accepted
without any diagnostic: the loop stores `key ↦ Boolean(true)` and
continues directly after the key. -/
theorem C9_bare_flag_attribute (tks : List Token) (fuel pos : Nat)
    (attrs : AttrMap) (a k : Token)
    (ha : tks[pos]? = some a) (hak : a.kind = .at)
    (hk : tks[pos + 1]? = some k) (hkk : k.kind = .identifier)
    (hv : checkToken tks (pos + 2) .stringLiteral = false
        ∧ checkToken tks (pos + 2) .numberLiteral = false
        ∧ checkToken tks (pos + 2) .identifier = false) :
    atLoop tks (fuel + 1) pos attrs
      = atLoop tks fuel (pos + 2) (attrInsert k.text (.boolean true) attrs) := by
  have hlen : pos < tks.length := length_le_of_getElem? ha
  have hlen1 : pos + 1 < tks.length := length_le_of_getElem? hk
  have hcur : currentToken tks pos = a := getD_of_getElem? ha
  have hcur1 : currentToken tks (pos + 1) = k := getD_of_getElem? hk
  have hchk : checkToken tks pos .at = true := by
    simp [checkToken, hcur, hak]
  have hadv : advancePos tks pos = pos + 1 := by
    simp [advancePos, isAtEnd, hcur, hak]
    omega
  have hadv1 : advancePos tks (pos + 1) = pos + 2 := by
    simp [advancePos, isAtEnd, hcur1, hkk]
    omega
  have hident : parseIdentifier tks (pos + 1) = (.ok k.text, pos + 2) := by
    simp [parseIdentifier, checkToken, hcur1, hkk, hadv1]
  simp [atLoop, hchk, hadv, hident, hv.1, hv.2.1, hv.2.2]

/-- C9 witness: `@flag )` stores `flag ↦ Boolean(true)` and continues at
the `)`. -/
theorem C9_bare_flag_attribute_witness :
    atLoop c9Toks 1 0 [] = atLoop c9Toks 0 2 [("flag", .boolean true)] :=
  C9_bare_flag_attribute c9Toks 0 0 []
    { kind := .at, span := { start := 0, stop := 1, line := 1, column := 1 }
      text := "@" }
    { kind := .identifier, span := { start := 1, stop := 5, line := 1, column := 2 }
      text := "flag" }
    (by decide) (by decide) (by decide) (by decide)
    ⟨by decide, by decide, by decide⟩

/-! ## C6: gateway brace check -/

/-- C6 counterexample: for the empty gateway block `xor \x7b \x7d` the
brace scan reaches depth 0 without gateway content and the validator DOES
emit a diagnostic — the "missing closing brace" error — although the
matching close brace is present and the scan did not exhaust the token
stream. -/
theorem C6_counterexample :
    checkGatewayBraces
      [{ kind := .xor, span := { start := 0, stop := 3, line := 1, column := 1 }
         text := "xor" },
       { kind := .leftBrace, span := { start := 4, stop := 5, line := 1, column := 5 }
         text := "\x7b" },
       { kind := .rightBrace, span := { start := 6, stop := 7, line := 1, column := 7 }
         text := "\x7d" }] 0
      = [DiagnosticError.syntaxErr "XOR gateway missing closing brace '\x7d'"
          { start := 0, stop := 3, line := 1, column := 1 }
          Severity.error ["\x7d"]] := by
  decide

/-- C6 (amended): for a gateway whose next significant token (after the
optional id and `?`) is an opening brace at `openIdx`, the check emits no
diagnostic exactly when `find_gateway_closing_brace` finds a matching
close brace after seeing `[`, `=>` or `->` at depth 1, and emits the
"missing closing brace" error exactly when that scan returns nothing —
which happens when the stream is exhausted, but also when depth 0 is
reached without such content (in particular for an empty block, as the
second conjunct shows) or when an element keyword occurs at depth 1. -/
theorem C6_gateway_brace_check (tks : List Token) (i openIdx : Nat)
    (hopen : findNextSignificantToken tks (gatewayHeader tks i).2 = some openIdx)
    (hbrace : (tks.getD openIdx defTok).kind = .leftBrace) :
    (checkGatewayBraces tks i =
      match findGatewayClosingBrace tks openIdx with
      | some _ => []
      | none =>
        [DiagnosticError.syntaxErr
          (gatewayTypeStr tks i ++ " gateway missing closing brace '\x7d'")
          (gatewaySpanOf tks i) Severity.error ["\x7d"]])
    ∧ ∀ (tks' : List Token) (oi : Nat) (t u : Token),
        tks'[oi]? = some t → t.kind = .leftBrace →
        tks'[oi + 1]? = some u → u.kind = .rightBrace →
        findGatewayClosingBrace tks' oi = none := by
  constructor
  · simp only [checkGatewayBraces, hopen, hbrace]
    simp
  · intro tks' oi t u hgt hkt hgu hku
    have hoi : oi < tks'.length := length_le_of_getElem? hgt
    have hdrop : tks'.drop (oi + 1) = u :: tks'.drop (oi + 2) := by
      have h1 : oi + 1 < tks'.length := length_le_of_getElem? hgu
      rw [List.drop_eq_getElem_cons h1]
      have : tks'[oi + 1] = u := by
        have := List.getElem?_eq_getElem h1
        rw [hgu] at this
        injection this with h
        exact h.symm
      rw [this]
    have hget : (tks'.get? oi) = some t := by
      simpa using hgt
    simp only [findGatewayClosingBrace, hget, hkt, if_pos rfl, hdrop]
    simp [fgcbGo, hku]

/-- C6 witness: a well-formed gateway block (`xor G? \x7b [a] -> X \x7d`)
produces no diagnostic, via the amended characterization. -/
theorem C6_gateway_brace_check_witness : checkGatewayBraces c6Toks 0 = [] := by
  have h := (C6_gateway_brace_check c6Toks 0 3 (by decide) (by decide)).1
  rw [h]
  decide

/-! ## C8: attribute value resolution -/

set_option maxRecDepth 10000 in
/-- C8 counterexample: inside a process, `task Foo (timeout=30s retries=3)`
(no comma between the pairs) does NOT yield the claimed attributes: the
grammar parser rejects the space-separated attribute list, and the
error-recovery engine rebuilds the task with an empty attribute map. -/
theorem C8_counterexample :
    (parseWithRecovery
      (tokenize "process P \x7b task Foo (timeout=30s retries=3) \x7d".toList)).processes.map
        (fun p => p.elements.map taskView) = [[some ("Foo", [])]] := by
  decide

set_option maxRecDepth 10000 in
/-- C8 (amended): `parse_attribute_value` maps a string literal to
`String` with the `\"`, `\\`, `\n`, `\t` escapes unescaped; a number
token whose text ends in `m`, `s`, `ms` or `h` to `Duration` of the raw
text; other numeric text parseable as a float to `Number`; unparseable
numeric text to an `InvalidAttributeValue` error; the identifiers
`true`/`false` to `Boolean`; and any other bare identifier to `String`
verbatim.  In particular, `task Foo (timeout=30s, retries=3)` — with the
comma the attribute grammar requires between pairs — yields attributes
`timeout ↦ Duration("30s")`, `retries ↦ Number(3.0)`. -/
theorem C8_attribute_value_resolution :
    (∀ (tks : List Token) (pos : Nat) (t : Token), tks[pos]? = some t →
      (t.kind = .stringLiteral →
        parseAttributeValue tks pos
          = (.ok (.string (unescapeStringLit t.text)), pos + 1))
      ∧ (t.kind = .numberLiteral →
          parseAttributeValue tks pos
            = (if strEndsWith t.text ['m'] || strEndsWith t.text ['s']
                  || strEndsWith t.text ['m', 's'] || strEndsWith t.text ['h'] then
                (.ok (.duration t.text), pos + 1)
               else
                match parseF64 t.text with
                | some n => (.ok (.number n), pos + 1)
                | none =>
                  (.error (.invalidAttributeValue t.text
                    (currentSpan tks (pos + 1))), pos + 1)))
      ∧ (t.kind = .identifier →
          parseAttributeValue tks pos
            = (if t.text = "true" then (.ok (.boolean true), pos + 1)
               else if t.text = "false" then (.ok (.boolean false), pos + 1)
               else (.ok (.string t.text), pos + 1))))
    ∧ (parseWithRecovery
        (tokenize "process P \x7b task Foo (timeout=30s, retries=3) \x7d".toList)).processes.map
          (fun p => p.elements.map taskView)
        = [[some ("Foo", [("timeout", .duration "30s"), ("retries", .number 3)])]] := by
  constructor
  · intro tks pos t hget
    have hlen := length_le_of_getElem? hget
    have hcur : currentToken tks pos = t := getD_of_getElem? hget
    refine ⟨?_, ?_, ?_⟩
    · intro hk
      have hadv : advancePos tks pos = pos + 1 := by
        simp [advancePos, isAtEnd, hcur, hk]
        omega
      simp [parseAttributeValue, hcur, hk, parseStringLiteral, checkToken, hadv]
    · intro hk
      have hadv : advancePos tks pos = pos + 1 := by
        simp [advancePos, isAtEnd, hcur, hk]
        omega
      simp only [parseAttributeValue, hcur, hk, hadv]
    · intro hk
      have hadv : advancePos tks pos = pos + 1 := by
        simp [advancePos, isAtEnd, hcur, hk]
        omega
      simp only [parseAttributeValue, hcur, hk, hadv]
      split <;> simp_all
  · decide

/-- C8 witness: the amended mapping applied to a concrete `30s` number
token yields `Duration("30s")`. -/
theorem C8_attribute_value_resolution_witness :
    parseAttributeValue
      [{ kind := .numberLiteral
         span := { start := 0, stop := 3, line := 1, column := 1 }
         text := "30s" }] 0 = (.ok (.duration "30s"), 1) := by
  have h := ((C8_attribute_value_resolution.1
    [{ kind := .numberLiteral
       span := { start := 0, stop := 3, line := 1, column := 1 }
       text := "30s" }] 0
    { kind := .numberLiteral
      span := { start := 0, stop := 3, line := 1, column := 1 }
      text := "30s" } (by decide)).2.1 rfl)
  rw [h]
  decide

/-! ## C5: suggestion thresholds and ordering -/

theorem mem_sorted_scored {t : String} {cs : List String} {p : Rat × String}
    (hp : p ∈ ((cs.map fun c => (jaroWinkler t c, c)).filter
      fun q => decide ((6 : Rat) / 10 < q.1)).insertionSort scoreGe) :
    p.1 = jaroWinkler t p.2 ∧ p.2 ∈ cs ∧ (6 : Rat) / 10 < p.1 := by
  have hp' := (List.perm_insertionSort scoreGe _).mem_iff.mp hp
  have hfilter := List.mem_filter.mp hp'
  have hscore := of_decide_eq_true hfilter.2
  obtain ⟨c, hc, hpc⟩ := List.mem_map.mp hfilter.1
  subst hpc
  exact ⟨rfl, hc, hscore⟩

/-- C5: `suggest_similar` returns at most `limit` candidates, every
returned candidate scores strictly above 0.6 against the target, results
are ordered by descending Jaro-Winkler score — and `detect_keyword_typo`
returns a keyword only when that keyword's score against the target
strictly exceeds 0.75. -/
theorem C5_suggestion_thresholds :
    (∀ (target : String) (candidates : List String) (limit : Nat),
      (suggestSimilar target candidates limit).length ≤ limit
      ∧ (∀ c ∈ suggestSimilar target candidates limit,
          (6 : Rat) / 10 < jaroWinkler target c)
      ∧ (suggestSimilar target candidates limit).Pairwise
          (fun a b => jaroWinkler target b ≤ jaroWinkler target a))
    ∧ ∀ (target k : String), detectKeywordTypo target = some k →
        k ∈ BPMN_KEYWORDS ∧ (3 : Rat) / 4 < jaroWinkler target k := by
  have hmem : ∀ (t : String) (cs : List String) (lim : Nat) (c : String),
      c ∈ suggestSimilar t cs lim →
      c ∈ cs ∧ (6 : Rat) / 10 < jaroWinkler t c := by
    intro t cs lim c hc
    by_cases hcs : cs = []
    · simp [suggestSimilar, hcs] at hc
    · simp only [suggestSimilar, if_neg hcs] at hc
      obtain ⟨p, hp, hpc⟩ := List.mem_map.mp hc
      have hps := List.mem_of_mem_take hp
      obtain ⟨hfst, hmem', hscore⟩ := mem_sorted_scored hps
      rw [hpc] at hmem'
      rw [hfst, hpc] at hscore
      exact ⟨hmem', hscore⟩
  refine ⟨fun target candidates limit => ⟨?_, ?_, ?_⟩, ?_⟩
  · by_cases hcs : candidates = []
    · simp [suggestSimilar, hcs]
    · simp [suggestSimilar, if_neg hcs, List.length_take]
  · intro c hc
    exact (hmem target candidates limit c hc).2
  · by_cases hcs : candidates = []
    · simp [suggestSimilar, hcs]
    · simp only [suggestSimilar, if_neg hcs]
      refine List.pairwise_map.mpr ?_
      have hsorted : ((candidates.map fun c => (jaroWinkler target c, c)).filter
          fun q => decide ((6 : Rat) / 10 < q.1)).insertionSort scoreGe
            |>.Pairwise scoreGe :=
        List.sorted_insertionSort scoreGe _
      have htake := hsorted.sublist (List.take_sublist limit _)
      refine htake.imp_of_mem ?_
      intro p q hpmem hqmem hpq
      have hp := mem_sorted_scored (List.mem_of_mem_take hpmem)
      have hq := mem_sorted_scored (List.mem_of_mem_take hqmem)
      rw [← hp.1, ← hq.1]
      exact hpq
  · intro target k
    show (match suggestKeywords target with
      | [] => none
      | k :: _ =>
        if (3 : Rat) / 4 < jaroWinkler target k then some k else none) = some k → _
    rcases hsk : suggestKeywords target with _ | ⟨k', rest⟩
    · intro hdet
      exact Option.noConfusion hdet
    · show (if (3 : Rat) / 4 < jaroWinkler target k' then some k' else none)
          = some k → _
      by_cases hthr : (3 : Rat) / 4 < jaroWinkler target k'
      · rw [if_pos hthr]
        intro hdet
        injection hdet with hk
        subst hk
        have hmemk : k' ∈ suggestKeywords target := by
          rw [hsk]; exact List.mem_cons_self k' rest
        exact ⟨(hmem target BPMN_KEYWORDS 3 k' hmemk).1, hthr⟩
      · rw [if_neg hthr]
        intro hdet
        exact Option.noConfusion hdet

set_option maxHeartbeats 2000000 in
/-- C5 witness: at the concrete typo `proces`, `detect_keyword_typo`
returns `process`, whose score exceeds 0.75; and `process` as a returned
suggestion of `suggest_similar` scores above 0.6. -/
theorem C5_suggestion_thresholds_witness :
    ("process" ∈ BPMN_KEYWORDS ∧ (3 : Rat) / 4 < jaroWinkler "proces" "process")
    ∧ (6 : Rat) / 10 < jaroWinkler "proces" "process" :=
  ⟨C5_suggestion_thresholds.2 "proces" "process" (by decide),
   (C5_suggestion_thresholds.1 "proces" BPMN_KEYWORDS 3).2.1 "process" (by decide)⟩

/-! ## C2: lexer totality and the synthetic EOF token -/

theorem keywordKind_ne_eof {s : String} {k : TokenKind}
    (h : keywordKind s = some k) : k ≠ .eof := by
  unfold keywordKind at h
  split at h <;>
    first
      | exact Option.noConfusion h
      | (injection h with h2; subst h2; decide)

theorem opTok_ne_eof {l : List Char} {k : TokenKind} {n : Nat}
    (h : opTok l = some (k, n)) : k ≠ .eof := by
  unfold opTok at h
  split at h
  · exact Option.noConfusion h
  · rename_i c cs
    by_cases hc1 : c = '-'
    · rw [if_pos hc1] at h
      by_cases hc2 : cs.take 2 = ['-', '>']
      · rw [if_pos hc2] at h
        first | exact Option.noConfusion h | (injection h with h2; injection h2 with ha hb; subst ha; decide)
      · rw [if_neg hc2] at h
        by_cases hc3 : cs.take 1 = ['>']
        · rw [if_pos hc3] at h
          first | exact Option.noConfusion h | (injection h with h2; injection h2 with ha hb; subst ha; decide)
        · rw [if_neg hc3] at h
          first | exact Option.noConfusion h | (injection h with h2; injection h2 with ha hb; subst ha; decide)
    · rw [if_neg hc1] at h
      by_cases hc4 : c = '.'
      · rw [if_pos hc4] at h
        by_cases hc5 : cs.take 2 = ['.', '>']
        · rw [if_pos hc5] at h
          first | exact Option.noConfusion h | (injection h with h2; injection h2 with ha hb; subst ha; decide)
        · rw [if_neg hc5] at h
          first | exact Option.noConfusion h | (injection h with h2; injection h2 with ha hb; subst ha; decide)
      · rw [if_neg hc4] at h
        by_cases hc6 : c = ':'
        · rw [if_pos hc6] at h
          by_cases hc7 : cs.take 1 = [':']
          · rw [if_pos hc7] at h
            first | exact Option.noConfusion h | (injection h with h2; injection h2 with ha hb; subst ha; decide)
          · rw [if_neg hc7] at h
            first | exact Option.noConfusion h | (injection h with h2; injection h2 with ha hb; subst ha; decide)
        · rw [if_neg hc6] at h
          by_cases hc8 : c = '='
          · rw [if_pos hc8] at h
            by_cases hc9 : cs.take 1 = ['>']
            · rw [if_pos hc9] at h
              first | exact Option.noConfusion h | (injection h with h2; injection h2 with ha hb; subst ha; decide)
            · rw [if_neg hc9] at h
              first | exact Option.noConfusion h | (injection h with h2; injection h2 with ha hb; subst ha; decide)
          · rw [if_neg hc8] at h
            by_cases hc10 : c = '\x7b'
            · rw [if_pos hc10] at h
              first | exact Option.noConfusion h | (injection h with h2; injection h2 with ha hb; subst ha; decide)
            · rw [if_neg hc10] at h
              by_cases hc11 : c = '\x7d'
              · rw [if_pos hc11] at h
                first | exact Option.noConfusion h | (injection h with h2; injection h2 with ha hb; subst ha; decide)
              · rw [if_neg hc11] at h
                by_cases hc12 : c = '('
                · rw [if_pos hc12] at h
                  first | exact Option.noConfusion h | (injection h with h2; injection h2 with ha hb; subst ha; decide)
                · rw [if_neg hc12] at h
                  by_cases hc13 : c = ')'
                  · rw [if_pos hc13] at h
                    first | exact Option.noConfusion h | (injection h with h2; injection h2 with ha hb; subst ha; decide)
                  · rw [if_neg hc13] at h
                    by_cases hc14 : c = '['
                    · rw [if_pos hc14] at h
                      first | exact Option.noConfusion h | (injection h with h2; injection h2 with ha hb; subst ha; decide)
                    · rw [if_neg hc14] at h
                      by_cases hc15 : c = ']'
                      · rw [if_pos hc15] at h
                        first | exact Option.noConfusion h | (injection h with h2; injection h2 with ha hb; subst ha; decide)
                      · rw [if_neg hc15] at h
                        by_cases hc16 : c = ','
                        · rw [if_pos hc16] at h
                          first | exact Option.noConfusion h | (injection h with h2; injection h2 with ha hb; subst ha; decide)
                        · rw [if_neg hc16] at h
                          by_cases hc17 : c = '@'
                          · rw [if_pos hc17] at h
                            first | exact Option.noConfusion h | (injection h with h2; injection h2 with ha hb; subst ha; decide)
                          · rw [if_neg hc17] at h
                            by_cases hc18 : c = '?'
                            · rw [if_pos hc18] at h
                              first | exact Option.noConfusion h | (injection h with h2; injection h2 with ha hb; subst ha; decide)
                            · rw [if_neg hc18] at h
                              by_cases hc19 : c = '\r'
                              · rw [if_pos hc19] at h
                                by_cases hc20 : cs.take 1 = ['\n']
                                · rw [if_pos hc20] at h
                                  first | exact Option.noConfusion h | (injection h with h2; injection h2 with ha hb; subst ha; decide)
                                · rw [if_neg hc20] at h
                                  first | exact Option.noConfusion h | (injection h with h2; injection h2 with ha hb; subst ha; decide)
                              · rw [if_neg hc19] at h
                                by_cases hc21 : c = '\n'
                                · rw [if_pos hc21] at h
                                  first | exact Option.noConfusion h | (injection h with h2; injection h2 with ha hb; subst ha; decide)
                                · rw [if_neg hc21] at h
                                  exact Option.noConfusion h

theorem scanTok_ne_eof (l : List Char) : (scanTok l).1 ≠ .eof := by
  unfold scanTok
  split
  · simp
  · split
    · simp
    · split
      · simp only
        split
        · next h => exact keywordKind_ne_eof h
        · simp
      · split
        · simp
        · split
          · simp
          · split
            · next h => exact opTok_ne_eof h
            · simp

theorem scanAll_no_eof (input : List Char) :
    ∀ (fuel i line col : Nat) (rest : List Char),
      ∀ t ∈ (scanAll input fuel i line col rest).1, t.kind ≠ .eof := by
  intro fuel
  induction fuel with
  | zero => intro i l c rest t ht; simp [scanAll] at ht
  | succ fuel ih =>
    intro i l c rest t ht
    cases rest with
    | nil => simp [scanAll] at ht
    | cons ch rest2 =>
      by_cases hskip : isSkipChar ch = true
      · rw [scanAll, if_pos hskip] at ht
        exact ih _ _ _ _ t ht
      · rw [scanAll, if_neg hskip] at ht
        simp only [List.mem_cons] at ht
        rcases ht with rfl | ht
        · exact scanTok_ne_eof (ch :: rest2)
        · exact ih _ _ _ _ t ht

/-- C2: for every input, `tokenize` terminates (it is a total function;
there is no lexing-error channel, characters matching no rule become
`Unknown` tokens) and its result ends with the single synthetic EOF
token, whose span collapses to the input length. -/
theorem C2_tokenize_total_eof (input : List Char) :
    (∃ t, (tokenize input).getLast? = some t ∧ t.kind = .eof
      ∧ t.span.start = input.length ∧ t.span.stop = input.length
      ∧ t.text = "")
    ∧ (tokenize input).countP (fun t => t.kind == .eof) = 1 := by
  constructor
  · refine ⟨{ kind := .eof
              span := { start := input.length, stop := input.length
                        line := (scanAll input (input.length + 1) 0 1 1 input).2.1
                        column := (scanAll input (input.length + 1) 0 1 1 input).2.2 }
              text := "" }, ?_, rfl, rfl, rfl, rfl⟩
    show ((scanAll input (input.length + 1) 0 1 1 input).1 ++ [_]).getLast? = _
    exact List.getLast?_concat _
  · show ((scanAll input (input.length + 1) 0 1 1 input).1 ++ [_]).countP _ = 1
    rw [List.countP_append]
    have h0 : ((scanAll input (input.length + 1) 0 1 1 input).1).countP
        (fun t => t.kind == TokenKind.eof) = 0 := by
      rw [List.countP_eq_zero]
      intro t ht
      have := scanAll_no_eof input _ _ _ _ _ t ht
      simpa using this
    rw [h0]
    simp [List.countP_cons]


/-! ## C10: start/end event ids are never populated -/

theorem eventsIdNoneList_append (es es' : List ProcessElement) :
    eventsIdNoneList (es ++ es')
      = (eventsIdNoneList es && eventsIdNoneList es') := by
  induction es with
  | nil =>
    show eventsIdNoneList es' = (true && eventsIdNoneList es')
    rw [Bool.true_and]
  | cons e rest ih =>
    show (eventsIdNone e && eventsIdNoneList (rest ++ es'))
        = ((eventsIdNone e && eventsIdNoneList rest) && eventsIdNoneList es')
    rw [ih, Bool.and_assoc]

theorem eventsIdNoneLanes_append (ls ls' : List Lane) :
    eventsIdNoneLanes (ls ++ ls')
      = (eventsIdNoneLanes ls && eventsIdNoneLanes ls') := by
  induction ls with
  | nil =>
    show eventsIdNoneLanes ls' = (true && eventsIdNoneLanes ls')
    rw [Bool.true_and]
  | cons l rest ih =>
    cases l with
    | mk name es span =>
      show (eventsIdNoneList es && eventsIdNoneLanes (rest ++ ls'))
          = ((eventsIdNoneList es && eventsIdNoneLanes rest) && eventsIdNoneLanes ls')
      rw [ih, Bool.and_assoc]

theorem eventsIdNoneList_snoc (es : List ProcessElement) (e : ProcessElement)
    (hes : eventsIdNoneList es = true) (he : eventsIdNone e = true) :
    eventsIdNoneList (es ++ [e]) = true := by
  rw [eventsIdNoneList_append, hes, Bool.true_and]
  show (eventsIdNone e && true) = true
  rw [Bool.and_true]; exact he

theorem eventsIdNoneLanes_snoc (ls : List Lane) (l : Lane)
    (hls : eventsIdNoneLanes ls = true) (hl : eventsIdNoneList l.elements = true) :
    eventsIdNoneLanes (ls ++ [l]) = true := by
  rw [eventsIdNoneLanes_append, hls, Bool.true_and]
  cases l with
  | mk name es span =>
    show (eventsIdNoneList es && true) = true
    rw [Bool.and_true]; exact hl

theorem knotBase_ok (tks : List Token) : knotOk (knotBase tks) :=
  ⟨fun _ => rfl, fun _ _ _ h => h, fun _ _ h => h,
    fun _ _ _ _ h1 h2 => ⟨h1, h2⟩, fun _ => trivial⟩

theorem knotElem_ok (tks : List Token) (rec : KnotFns) (hrec : knotOk rec)
    (pos : Nat) : exceptEventsIdNone (knotElem tks rec pos).1 = true := by
  obtain ⟨helem, hef, heo, hpl, hlane⟩ := hrec
  unfold knotElem
  split
  all_goals try dsimp only
  -- start
  · split
    · rfl
    · split <;> rfl
  -- end
  · split
    · rfl
    · split <;> rfl
  -- task
  · split <;> rfl
  -- user
  · split <;> rfl
  -- service
  · split <;> rfl
  -- script
  · split <;> rfl
  -- call
  · split
    · rfl
    · split <;> (try rfl) <;> split <;> rfl
  -- xor
  · split
    · rfl
    · split
      · rfl
      · split
        · rfl
        · split
          · rfl
          · rfl
  -- and
  · split
    · rfl
    · split
      · rfl
      · split
        · rfl
        · split
          · rfl
          · rfl
  -- event
  · split
    · rfl
    · rfl
    · split <;> rfl
  -- subprocess
  · split
    · rfl
    · split
      · rfl
      · rename_i u pos2 heq2
        split
        · rfl
        · exact hef (skipWs tks pos2) [] [] rfl
  -- pool
  · split
    · rfl
    · rename_i name pos2 heq1
      split
      · rfl
      · rename_i u pos3 heq2
        split
        · rfl
        · rename_i lanes es fs pos4 heq3
          have h := hpl (skipWs tks pos3) [] [] [] rfl rfl
          rw [heq3] at h
          obtain ⟨h1, h2⟩ := h
          split
          · rfl
          · show (eventsIdNoneLanes lanes && eventsIdNoneList es) = true
            rw [h1, h2]
            rfl
  -- group
  · split
    · rfl
    · split
      · rfl
      · rename_i u pos3 heq2
        split
        · rfl
        · exact heo (skipWs tks pos3) [] rfl
  -- note
  · split <;> rfl
  -- default
  · rfl

theorem knotEfLoop_ok (tks : List Token) (rec : KnotFns) (hrec : knotOk rec)
    (pos : Nat) (es : List ProcessElement) (fs : List Flow)
    (hes : eventsIdNoneList es = true) :
    eventsIdNoneList (knotEfLoop tks rec pos es fs).1 = true := by
  obtain ⟨helem, hef, heo, hpl, hlane⟩ := hrec
  unfold knotEfLoop
  split
  · split
    · rename_i e p heq
      apply hef
      apply eventsIdNoneList_snoc _ _ hes
      have h := helem pos
      rw [heq] at h
      exact h
    · split
      · exact hef _ _ _ hes
      · exact hef _ _ _ hes
  · exact hes

theorem knotEoLoop_ok (tks : List Token) (rec : KnotFns) (hrec : knotOk rec)
    (pos : Nat) (es : List ProcessElement)
    (hes : eventsIdNoneList es = true) :
    eventsIdNoneList (knotEoLoop tks rec pos es).1 = true := by
  obtain ⟨helem, hef, heo, hpl, hlane⟩ := hrec
  unfold knotEoLoop
  split
  · split
    · rename_i e p heq
      apply heo
      apply eventsIdNoneList_snoc _ _ hes
      have h := helem pos
      rw [heq] at h
      exact h
    · exact heo _ _ hes
  · exact hes

theorem knotPLoop_ok (tks : List Token) (rec : KnotFns) (hrec : knotOk rec)
    (pos : Nat) (lanes : List Lane) (es : List ProcessElement) (fs : List Flow)
    (hlanes : eventsIdNoneLanes lanes = true)
    (hes : eventsIdNoneList es = true) :
    match (knotPLoop tks rec pos lanes es fs).1 with
    | .ok (ls, es', _) =>
      eventsIdNoneLanes ls = true ∧ eventsIdNoneList es' = true
    | .error _ => True := by
  obtain ⟨helem, hef, heo, hpl, hlane⟩ := hrec
  unfold knotPLoop
  by_cases hc : ¬checkToken tks pos TokenKind.rightBrace = true
      ∧ ¬isAtEnd tks pos = true
  · rw [if_pos hc]
    by_cases hl : checkToken tks pos TokenKind.lane = true
    · rw [if_pos hl]
      rcases hq : rec.lane pos with ⟨r, p⟩
      cases r with
      | error e => exact trivial
      | ok ln =>
        have h := hlane pos
        rw [hq] at h
        exact hpl (skipWs tks p) (lanes ++ [ln]) es fs
          (eventsIdNoneLanes_snoc _ _ hlanes h) hes
    · rw [if_neg hl]
      rcases hq : rec.elem pos with ⟨r, p⟩
      cases r with
      | ok e =>
        have h := helem pos
        rw [hq] at h
        exact hpl (skipWs tks p) lanes (es ++ [e]) fs hlanes
          (eventsIdNoneList_snoc _ _ hes h)
      | error e1 =>
        dsimp only
        rcases hq2 : parseFlow tks p with ⟨r2, p2⟩
        cases r2 with
        | ok f => exact hpl _ _ _ _ hlanes hes
        | error e2 => exact hpl _ _ _ _ hlanes hes
  · rw [if_neg hc]
    exact ⟨hlanes, hes⟩

theorem knotLane_fst_ok (tks : List Token) (rec : KnotFns) (hrec : knotOk rec)
    (pos : Nat) (l : Lane)
    (h : (knotLane tks rec pos).1 = Except.ok l) :
    eventsIdNoneList l.elements = true := by
  obtain ⟨helem, hef, heo, hpl, hlane⟩ := hrec
  unfold knotLane at h
  dsimp only at h
  split at h
  · exact Except.noConfusion h
  · rename_i u1 pos1 heq1
    split at h
    · exact Except.noConfusion h
    · rename_i name pos2 heq2
      split at h
      · exact Except.noConfusion h
      · rename_i u3 pos3 heq3
        split at h
        · exact Except.noConfusion h
        · rename_i u5 pos5 heq5
          replace h : Except.ok (Lane.mk name
              (rec.eoLoop (skipWs tks pos3) []).1 (currentSpan tks pos))
              = Except.ok l := h
          injection h with h2
          rw [← h2]
          exact heo (skipWs tks pos3) [] rfl

theorem knotLane_ok (tks : List Token) (rec : KnotFns) (hrec : knotOk rec)
    (pos : Nat) :
    match (knotLane tks rec pos).1 with
    | .ok l => eventsIdNoneList l.elements = true
    | .error _ => True := by
  cases hq : (knotLane tks rec pos).1 with
  | error e => exact trivial
  | ok l => exact knotLane_fst_ok tks rec hrec pos l hq

theorem knotStep_ok (tks : List Token) (rec : KnotFns) (hrec : knotOk rec) :
    knotOk (knotStep tks rec) :=
  ⟨knotElem_ok tks rec hrec,
   knotEfLoop_ok tks rec hrec,
   knotEoLoop_ok tks rec hrec,
   knotPLoop_ok tks rec hrec,
   knotLane_ok tks rec hrec⟩

theorem knotAux_ok (tks : List Token) : ∀ fuel, knotOk (knotAux tks fuel)
  | 0 => knotBase_ok tks
  | fuel + 1 => knotStep_ok tks _ (knotAux_ok tks fuel)

theorem parseProcessElement_eventsIdNone (tks : List Token) (fuel pos : Nat) :
    exceptEventsIdNone (parseProcessElement tks fuel pos).1 = true :=
  (knotAux_ok tks fuel).1 pos

theorem recoverTask_eventsIdNone (tks : List Token) (startPos : Nat) :
    optEventsIdNone (recoverTask tks startPos).1 = true := by
  unfold recoverTask
  dsimp only
  split <;> (try rfl) <;> split <;> rfl

theorem recoverGateway_eventsIdNone (tks : List Token) (startPos : Nat) :
    optEventsIdNone (recoverGateway tks startPos).1 = true := by
  unfold recoverGateway
  dsimp only
  split <;> (try rfl) <;> split <;> (try rfl) <;> split <;> (try rfl)
    <;> split <;> rfl

theorem recoverProcessElement_eventsIdNone (tks : List Token) (startPos : Nat) :
    optEventsIdNone (recoverProcessElement tks startPos).1 = true := by
  unfold recoverProcessElement
  split
  · rfl
  · dsimp only
    split <;> first
      | rfl
      | exact recoverTask_eventsIdNone tks startPos
      | exact recoverGateway_eventsIdNone tks startPos

/-- C10: every StartEvent and EndEvent anywhere in an element produced by
`parse_process_element` (at any fuel and position) or by
`recover_process_element` has `id = none`: no parse or recovery path ever
populates the optional id of a start or end event. -/
theorem C10_event_ids_never_populated :
    (∀ tks fuel pos,
      exceptEventsIdNone (parseProcessElement tks fuel pos).1 = true)
    ∧ (∀ tks pos, optEventsIdNone (recoverProcessElement tks pos).1 = true) :=
  ⟨fun tks fuel pos => parseProcessElement_eventsIdNone tks fuel pos,
   fun tks pos => recoverProcessElement_eventsIdNone tks pos⟩

/-! ## C3: duplicate-id scoping -/

theorem validateElement_dup (e : ProcessElement) (m : NodeIds) (id : String)
    (s : Span) (hid : elemTopId e = some id)
    (hm : idLookup m id = some s) :
    validateElement e m
      = (elemNestedErrs e
          ++ [{ message := "Duplicate node id '" ++ id ++ "'"
                span := elemSpan e, severity := .error }], m) := by
  cases e with
  | startEvent id0 et attrs span =>
    simp only [elemTopId] at hid
    subst hid
    rw [validateElement.eq_def]; dsimp only; rw [hm]; rfl
  | endEvent id0 et attrs span =>
    simp only [elemTopId] at hid
    subst hid
    rw [validateElement.eq_def]; dsimp only; rw [hm]; rfl
  | gateway id0 gt br span =>
    simp only [elemTopId] at hid
    subst hid
    rw [validateElement.eq_def]; dsimp only; rw [hm]; rfl
  | intermediateEvent id0 et pl attrs span =>
    simp only [elemTopId] at hid
    subst hid
    rw [validateElement.eq_def]; dsimp only; rw [hm]; rfl
  | task id0 tt attrs span =>
    simp only [elemTopId, Option.some.injEq] at hid
    subst hid
    rw [validateElement.eq_def]; dsimp only; rw [hm]; rfl
  | callActivity id0 ce attrs span =>
    simp only [elemTopId, Option.some.injEq] at hid
    subst hid
    rw [validateElement.eq_def]; dsimp only; rw [hm]; rfl
  | subprocess id0 es fs attrs span =>
    simp only [elemTopId, Option.some.injEq] at hid
    subst hid
    rw [validateElement.eq_def]; dsimp only; rw [hm]; rfl
  | pool name lanes es fs span =>
    simp only [elemTopId, Option.some.injEq] at hid
    subst hid
    rw [validateElement.eq_def]; dsimp only; rw [hm]; rfl
  | group label es span => simp [elemTopId] at hid
  | annot text span => simp [elemTopId] at hid

theorem validateElement_fresh (e : ProcessElement) (m : NodeIds) (id : String)
    (hid : elemTopId e = some id) (hm : idLookup m id = none) :
    validateElement e m = (elemNestedErrs e, m ++ [(id, elemSpan e)]) := by
  cases e with
  | startEvent id0 et attrs span =>
    simp only [elemTopId] at hid
    subst hid
    rw [validateElement.eq_def]; dsimp only; rw [hm]; rfl
  | endEvent id0 et attrs span =>
    simp only [elemTopId] at hid
    subst hid
    rw [validateElement.eq_def]; dsimp only; rw [hm]; rfl
  | gateway id0 gt br span =>
    simp only [elemTopId] at hid
    subst hid
    rw [validateElement.eq_def]; dsimp only; rw [hm]; rfl
  | intermediateEvent id0 et pl attrs span =>
    simp only [elemTopId] at hid
    subst hid
    rw [validateElement.eq_def]; dsimp only; rw [hm]; rfl
  | task id0 tt attrs span =>
    simp only [elemTopId, Option.some.injEq] at hid
    subst hid
    rw [validateElement.eq_def]; dsimp only; rw [hm]; rfl
  | callActivity id0 ce attrs span =>
    simp only [elemTopId, Option.some.injEq] at hid
    subst hid
    rw [validateElement.eq_def]; dsimp only; rw [hm]; rfl
  | subprocess id0 es fs attrs span =>
    simp only [elemTopId, Option.some.injEq] at hid
    subst hid
    rw [validateElement.eq_def]; dsimp only; rw [hm]; rfl
  | pool name lanes es fs span =>
    simp only [elemTopId, Option.some.injEq] at hid
    subst hid
    rw [validateElement.eq_def]; dsimp only; rw [hm]; rfl
  | group label es span => simp [elemTopId] at hid
  | annot text span => simp [elemTopId] at hid

theorem validateElement_noId (e : ProcessElement) (m : NodeIds)
    (hid : elemTopId e = none) :
    validateElement e m = (elemNestedErrs e, m) := by
  cases e with
  | startEvent id0 et attrs span =>
    simp only [elemTopId] at hid
    subst hid
    rw [validateElement.eq_def]; rfl
  | endEvent id0 et attrs span =>
    simp only [elemTopId] at hid
    subst hid
    rw [validateElement.eq_def]; rfl
  | gateway id0 gt br span =>
    simp only [elemTopId] at hid
    subst hid
    rw [validateElement.eq_def]; rfl
  | intermediateEvent id0 et pl attrs span =>
    simp only [elemTopId] at hid
    subst hid
    rw [validateElement.eq_def]; rfl
  | task id0 tt attrs span => simp [elemTopId] at hid
  | callActivity id0 ce attrs span => simp [elemTopId] at hid
  | subprocess id0 es fs attrs span => simp [elemTopId] at hid
  | pool name lanes es fs span => simp [elemTopId] at hid
  | group label es span => rw [validateElement.eq_def]; rfl
  | annot text span => rw [validateElement.eq_def]; rfl

theorem validateElement_pool_lanes (name : String) (lanes lanes' : List Lane)
    (es : List ProcessElement) (fs fs' : List Flow) (span : Span)
    (m : NodeIds) :
    validateElement (.pool name lanes es fs span) m
      = validateElement (.pool name lanes' es fs' span) m := by
  rw [validateElement.eq_def, validateElement.eq_def]

/-- C3 counterexample: a process whose pool lane declares the task id `T`
twice validates with no errors at all — lane bodies are never visited by
`validate_element`, so duplicate ids inside a lane are not reported. -/
theorem C3_counterexample :
    c3Lane.elements.map elemTopId = [some "T", some "T"]
    ∧ validate c3Doc = [] :=
  ⟨rfl, rfl⟩

/-- C3 (amended): duplicate-identifier detection is scoped per direct
container for the containers the validator actually visits: an element
whose id is already bound in its container's map produces exactly the
`Duplicate node id` error at its own (second) occurrence and leaves the
map unchanged; a fresh id registers itself; elements without a top-level
id only contribute the errors of their own bodies; and each
subprocess/pool/group body is validated against a fresh empty map
(`elemNestedErrs`), independent of the parent scope.  Pool *lane* bodies,
however, are never validated: `validateElement` of a pool is invariant
under arbitrary replacement of its lane list. -/
theorem C3_scoped_duplicate_ids :
    (∀ (e : ProcessElement) (m : NodeIds) (id : String) (s : Span),
        elemTopId e = some id → idLookup m id = some s →
        validateElement e m
          = (elemNestedErrs e
              ++ [{ message := "Duplicate node id '" ++ id ++ "'"
                    span := elemSpan e, severity := .error }], m))
    ∧ (∀ (e : ProcessElement) (m : NodeIds) (id : String),
        elemTopId e = some id → idLookup m id = none →
        validateElement e m = (elemNestedErrs e, m ++ [(id, elemSpan e)]))
    ∧ (∀ (e : ProcessElement) (m : NodeIds),
        elemTopId e = none → validateElement e m = (elemNestedErrs e, m))
    ∧ (∀ (name : String) (lanes lanes' : List Lane)
        (es : List ProcessElement) (fs fs' : List Flow) (span : Span)
        (m : NodeIds),
        validateElement (.pool name lanes es fs span) m
          = validateElement (.pool name lanes' es fs' span) m) :=
  ⟨validateElement_dup, validateElement_fresh, validateElement_noId,
   validateElement_pool_lanes⟩

theorem C3_scoped_duplicate_ids_witness :
    validateElement
        (.task "T" .generic [] { start := 4, stop := 5, line := 2, column := 1 })
        [("T", { start := 0, stop := 1, line := 1, column := 1 })]
      = ([{ message := "Duplicate node id 'T'"
            span := { start := 4, stop := 5, line := 2, column := 1 }
            severity := .error }],
         [("T", { start := 0, stop := 1, line := 1, column := 1 })]) :=
  C3_scoped_duplicate_ids.1
    (.task "T" .generic [] { start := 4, stop := 5, line := 2, column := 1 })
    [("T", { start := 0, stop := 1, line := 1, column := 1 })] "T"
    { start := 0, stop := 1, line := 1, column := 1 } rfl rfl


/-! ## C1: cursor monotonicity of the parsing primitives -/

theorem advancePos_ge (tks : List Token) (pos : Nat) :
    pos ≤ advancePos tks pos := by
  unfold advancePos
  split
  · exact le_refl pos
  · exact Nat.le_succ pos

theorem advancePos_of_not_atEnd (tks : List Token) (pos : Nat)
    (h : isAtEnd tks pos = false) : advancePos tks pos = pos + 1 := by
  unfold advancePos
  rw [h]
  rfl

theorem getD_eof_of_ge (tks : List Token) (pos : Nat)
    (h : tks.length ≤ pos) : (currentToken tks pos).kind = TokenKind.eof := by
  unfold currentToken
  rw [List.getD_eq_getElem?_getD, List.getElem?_eq_none (by omega)]
  rfl

theorem checkToken_lt_length (tks : List Token) (pos : Nat) (k : TokenKind)
    (hk : checkToken tks pos k = true) (hne : k ≠ TokenKind.eof) :
    pos < tks.length := by
  by_contra hge
  have h := getD_eof_of_ge tks pos (by omega)
  unfold checkToken at hk
  rw [h] at hk
  simp only [decide_eq_true_eq] at hk
  exact hne hk.symm

theorem not_atEnd_of_checkToken (tks : List Token) (pos : Nat) (k : TokenKind)
    (hk : checkToken tks pos k = true) (hne : k ≠ TokenKind.eof) :
    isAtEnd tks pos = false := by
  have hlt := checkToken_lt_length tks pos k hk hne
  unfold checkToken at hk
  simp only [decide_eq_true_eq] at hk
  unfold isAtEnd
  rw [hk]
  simp only [Bool.or_eq_false_iff, decide_eq_false_iff_not]
  exact ⟨by omega, hne⟩

theorem advancePos_of_checkToken (tks : List Token) (pos : Nat) (k : TokenKind)
    (hk : checkToken tks pos k = true) (hne : k ≠ TokenKind.eof) :
    advancePos tks pos = pos + 1 :=
  advancePos_of_not_atEnd tks pos (not_atEnd_of_checkToken tks pos k hk hne)

theorem advancePos_of_kind (tks : List Token) (pos : Nat) (k : TokenKind)
    (hk : (currentToken tks pos).kind = k) (hne : k ≠ TokenKind.eof) :
    advancePos tks pos = pos + 1 := by
  apply advancePos_of_checkToken tks pos k _ hne
  unfold checkToken
  simp [hk]

theorem skipWs_go_ge (l : List Token) : ∀ pos, pos ≤ skipWs.go l pos := by
  induction l with
  | nil => intro pos; exact le_refl pos
  | cons t rest ih =>
    intro pos
    unfold skipWs.go
    split <;> first
      | exact le_refl pos
      | exact le_trans (Nat.le_succ pos) (ih (pos + 1))

theorem skipWs_ge (tks : List Token) (pos : Nat) : pos ≤ skipWs tks pos :=
  skipWs_go_ge (tks.drop pos) pos

theorem consumeTok_ge (tks : List Token) (pos : Nat) (k : TokenKind) :
    pos ≤ (consumeTok tks pos k).2 := by
  unfold consumeTok
  split
  · exact advancePos_ge tks pos
  · exact le_refl pos

theorem parseIdentifier_ge (tks : List Token) (pos : Nat) :
    pos ≤ (parseIdentifier tks pos).2 := by
  unfold parseIdentifier
  split
  · exact advancePos_ge tks pos
  · exact le_refl pos

theorem parseStringLiteral_ge (tks : List Token) (pos : Nat) :
    pos ≤ (parseStringLiteral tks pos).2 := by
  unfold parseStringLiteral
  split
  · exact advancePos_ge tks pos
  · exact le_refl pos

theorem parseAttributeValue_ge (tks : List Token) (pos : Nat) :
    pos ≤ (parseAttributeValue tks pos).2 := by
  unfold parseAttributeValue
  dsimp only
  split
  · split
    all_goals rename_i v p heq
    all_goals (have h := parseStringLiteral_ge tks pos; rw [heq] at h; exact h)
  · split
    · exact advancePos_ge tks pos
    · split
      · exact advancePos_ge tks pos
      · exact advancePos_ge tks pos
  · split
    · exact advancePos_ge tks pos
    · exact advancePos_ge tks pos
    · exact advancePos_ge tks pos
  · exact le_refl pos

theorem le_snd_eq {α : Type} {pos : Nat} {x : α × Nat} (hle : pos ≤ x.2)
    {r : α} {p : Nat} (heq : x = (r, p)) : pos ≤ p := by
  rw [heq] at hle
  exact hle

theorem atLoop_ge (tks : List Token) :
    ∀ fuel pos attrs, pos ≤ (atLoop tks fuel pos attrs).2
  | 0, pos, attrs => le_refl pos
  | fuel + 1, pos, attrs => by
    unfold atLoop
    (try dsimp only); split
    · have h0 := advancePos_ge tks pos
      (try dsimp only); split
      · rename_i e p heq
        have h1 := le_snd_eq (parseIdentifier_ge tks (advancePos tks pos)) heq
        omega
      · rename_i key pos2 heq
        have h1 := le_snd_eq (parseIdentifier_ge tks (advancePos tks pos)) heq
        (try dsimp only); split
        · split
          · rename_i e p heq2
            have h2 := le_snd_eq (parseAttributeValue_ge tks pos2) heq2
            omega
          · rename_i v pos3 heq2
            have h2 := le_snd_eq (parseAttributeValue_ge tks pos2) heq2
            have h3 := atLoop_ge tks fuel pos3 (attrInsert key v attrs)
            omega
        · have h3 := atLoop_ge tks fuel pos2
            (attrInsert key (AttributeValue.boolean true) attrs)
          omega
    · exact le_refl pos

theorem parenLoop_ge (tks : List Token) :
    ∀ fuel pos attrs, pos ≤ (parenLoop tks fuel pos attrs).2
  | 0, pos, attrs => le_refl pos
  | fuel + 1, pos, attrs => by
    unfold parenLoop
    (try dsimp only); split
    · split
      · rename_i e p heq
        exact le_snd_eq (parseIdentifier_ge tks pos) heq
      · rename_i key pos1 heq
        have h1 := le_snd_eq (parseIdentifier_ge tks pos) heq
        (try dsimp only); split
        · omega
        · have h2 := advancePos_ge tks pos1
          (try dsimp only); split
          · rename_i e p heq2
            have h3 := le_snd_eq
              (parseAttributeValue_ge tks (advancePos tks pos1)) heq2
            omega
          · rename_i v pos3 heq2
            have h3 := le_snd_eq
              (parseAttributeValue_ge tks (advancePos tks pos1)) heq2
            have h4 := skipWs_ge tks pos3
            (try dsimp only); split
            · have h5 := advancePos_ge tks (skipWs tks pos3)
              have h6 := skipWs_ge tks (advancePos tks (skipWs tks pos3))
              have h7 := parenLoop_ge tks fuel
                (skipWs tks (advancePos tks (skipWs tks pos3)))
                (attrInsert key v attrs)
              omega
            · split
              · omega
              · have h7 := parenLoop_ge tks fuel (skipWs tks pos3)
                  (attrInsert key v attrs)
                omega
    · exact le_refl pos

theorem parseAttributes_ge (tks : List Token) (pos : Nat) :
    pos ≤ (parseAttributes tks pos).2 := by
  unfold parseAttributes
  (try dsimp only); split
  · rename_i e p heq
    exact le_snd_eq (atLoop_ge tks (tks.length + 1) pos []) heq
  · rename_i attrs pos1 heq
    have h1 := le_snd_eq (atLoop_ge tks (tks.length + 1) pos []) heq
    (try dsimp only); split
    · have h2 := advancePos_ge tks pos1
      have h3 := skipWs_ge tks (advancePos tks pos1)
      (try dsimp only); split
      · rename_i e p heq2
        have h4 := le_snd_eq (parenLoop_ge tks (tks.length + 1)
          (skipWs tks (advancePos tks pos1)) attrs) heq2
        omega
      · rename_i attrs2 pos3 heq2
        have h4 := le_snd_eq (parenLoop_ge tks (tks.length + 1)
          (skipWs tks (advancePos tks pos1)) attrs) heq2
        (try dsimp only); split
        · have h5 := advancePos_ge tks pos3
          omega
        · omega
    · exact h1

theorem condLoop_ge (tks : List Token) :
    ∀ budget pos acc, pos ≤ (condLoop tks budget pos acc).2
  | 0, pos, acc => le_refl pos
  | budget + 1, pos, acc => by
    unfold condLoop
    (try dsimp only); split
    · exact le_trans (advancePos_ge tks pos)
        (condLoop_ge tks budget (advancePos tks pos) _)
    · exact le_refl pos

theorem parseConditionExpression_ge (tks : List Token) (pos : Nat) :
    pos ≤ (parseConditionExpression tks pos).2 := by
  unfold parseConditionExpression
  dsimp only
  (try dsimp only); split
  · exact condLoop_ge tks 50 pos ""
  · exact condLoop_ge tks 50 pos ""

theorem parseFlow_ge (tks : List Token) (pos : Nat) :
    pos ≤ (parseFlow tks pos).2 := by
  unfold parseFlow
  (try dsimp only); split
  · rename_i e p heq
    exact le_snd_eq (parseIdentifier_ge tks pos) heq
  · rename_i fromId pos1 heq
    have h1 := le_snd_eq (parseIdentifier_ge tks pos) heq
    (try dsimp only); split
    · exact h1
    · have h2 := advancePos_ge tks pos1
      (try dsimp only); split
      · rename_i e p heq2
        have h3 : advancePos tks pos1 ≤ p := by
          have := advancePos_ge tks (advancePos tks pos1)
          revert heq2
          (try dsimp only); split
          · intro heq2
            rw [Prod.mk.injEq] at heq2
            omega
          · intro heq2
            have h4 := le_snd_eq (parseIdentifier_ge tks (advancePos tks pos1)) heq2
            exact h4
        omega
      · rename_i toId pos3 heq2
        have h3 : advancePos tks pos1 ≤ pos3 := by
          revert heq2
          (try dsimp only); split
          · intro heq2
            rw [Prod.mk.injEq] at heq2
            have := advancePos_ge tks (advancePos tks pos1)
            omega
          · intro heq2
            exact le_snd_eq (parseIdentifier_ge tks (advancePos tks pos1)) heq2
        (try dsimp only); split
        · have h4 := advancePos_ge tks pos3
          (try dsimp only); split
          · rename_i e p heq3
            have h5 := le_snd_eq (parseConditionExpression_ge tks
              (advancePos tks pos3)) heq3
            omega
          · rename_i cond pos5 heq3
            have h5 := le_snd_eq (parseConditionExpression_ge tks
              (advancePos tks pos3)) heq3
            (try dsimp only); split
            · rename_i e p heq4
              have h6 := le_snd_eq (consumeTok_ge tks pos5 TokenKind.rightBracket) heq4
              omega
            · rename_i u pos6 heq4
              have h6 := le_snd_eq (consumeTok_ge tks pos5 TokenKind.rightBracket) heq4
              omega
        · omega

theorem parseEventType_ge (tks : List Token) (pos : Nat) :
    pos ≤ (parseEventType tks pos).2 := by
  unfold parseEventType
  (try dsimp only); split
  · exact le_refl pos
  · have h1 := advancePos_ge tks pos
    (try dsimp only); split
    · omega
    · have h2 := advancePos_ge tks (advancePos tks pos)
      (try dsimp only); split
      · (try dsimp only); split
        · (try dsimp only); split
          all_goals rename_i heq
          all_goals (
            have h3 := le_snd_eq (parseStringLiteral_ge tks
              (advancePos tks (advancePos tks pos))) heq
            omega)
        · omega
      · (try dsimp only); split
        · have h3 := advancePos_ge tks (advancePos tks (advancePos tks pos))
          omega
        · omega
      · (try dsimp only); split
        · (try dsimp only); split
          all_goals rename_i heq
          all_goals (
            have h3 := le_snd_eq (parseStringLiteral_ge tks
              (advancePos tks (advancePos tks pos))) heq
            omega)
        · omega
      · (try dsimp only); split
        · (try dsimp only); split
          all_goals rename_i heq
          all_goals (
            have h3 := le_snd_eq (parseStringLiteral_ge tks
              (advancePos tks (advancePos tks pos))) heq
            omega)
        · omega
      · omega
      · omega

theorem gbLoop_ge (tks : List Token) :
    ∀ fuel pos acc, pos ≤ (gbLoop tks fuel pos acc).2
  | 0, pos, acc => le_refl pos
  | fuel + 1, pos, acc => by
    unfold gbLoop
    (try dsimp only); split
    · (try dsimp only); split
      · rename_i e p heq
        -- condRes error: p traces back to one of three sub-branches
        revert heq
        (try dsimp only); split
        · -- leftBracket branch
          have h1 := advancePos_ge tks pos
          (try dsimp only); split
          · rename_i e2 p2 heq2
            intro heq
            rw [Prod.mk.injEq] at heq
            have h2 := le_snd_eq (parseConditionExpression_ge tks
              (advancePos tks pos)) heq2
            omega
          · rename_i cond pos2 heq2
            have h2 := le_snd_eq (parseConditionExpression_ge tks
              (advancePos tks pos)) heq2
            (try dsimp only); split
            all_goals rename_i heq3
            all_goals (
              intro heq
              rw [Prod.mk.injEq] at heq
              have h3 := le_snd_eq (consumeTok_ge tks pos2
                TokenKind.rightBracket) heq3
              omega)
        · (try dsimp only); split
          · intro heq
            rw [Prod.mk.injEq] at heq
            exact absurd heq.1 (by simp)
          · (try dsimp only); split
            all_goals rename_i heq2
            all_goals (
              intro heq
              rw [Prod.mk.injEq] at heq
              have h2 := le_snd_eq (parseIdentifier_ge tks pos) heq2
              omega)
      · rename_i cd pos2 heq
        have h1 : pos ≤ pos2 := by
          revert heq
          (try dsimp only); split
          · have h1 := advancePos_ge tks pos
            (try dsimp only); split
            · intro heq
              rw [Prod.mk.injEq] at heq
              exact absurd heq.1 (by simp)
            · rename_i cond pos3 heq2
              have h2 := le_snd_eq (parseConditionExpression_ge tks
                (advancePos tks pos)) heq2
              (try dsimp only); split
              · intro heq
                rw [Prod.mk.injEq] at heq
                exact absurd heq.1 (by simp)
              · rename_i u pos4 heq3
                intro heq
                rw [Prod.mk.injEq] at heq
                have h3 := le_snd_eq (consumeTok_ge tks pos3
                  TokenKind.rightBracket) heq3
                omega
          · (try dsimp only); split
            · intro heq
              rw [Prod.mk.injEq] at heq
              have h1 := advancePos_ge tks pos
              omega
            · (try dsimp only); split
              · intro heq
                rw [Prod.mk.injEq] at heq
                exact absurd heq.1 (by simp)
              · rename_i cond pos3 heq2
                intro heq
                rw [Prod.mk.injEq] at heq
                have h2 := le_snd_eq (parseIdentifier_ge tks pos) heq2
                omega
        (try dsimp only); split
        · omega
        · have h2 := advancePos_ge tks pos2
          (try dsimp only); split
          · rename_i e p heq2
            have h3 := le_snd_eq (parseIdentifier_ge tks
              (advancePos tks pos2)) heq2
            omega
          · rename_i target pos4 heq2
            have h3 := le_snd_eq (parseIdentifier_ge tks
              (advancePos tks pos2)) heq2
            have h4 := skipWs_ge tks pos4
            exact le_trans (by omega : pos ≤ skipWs tks pos4)
              (gbLoop_ge tks fuel (skipWs tks pos4) _)
    · exact le_refl pos

theorem parseGatewayBranches_ge (tks : List Token) (pos : Nat) :
    pos ≤ (parseGatewayBranches tks pos).2 := by
  unfold parseGatewayBranches
  exact le_trans (skipWs_ge tks pos)
    (gbLoop_ge tks (tks.length + 1) (skipWs tks pos) [])

theorem importItemsLoop_ge (tks : List Token) :
    ∀ fuel pos acc, pos ≤ (importItemsLoop tks fuel pos acc).2
  | 0, pos, acc => le_refl pos
  | fuel + 1, pos, acc => by
    unfold importItemsLoop
    (try dsimp only); split
    · (try dsimp only); split
      · rename_i e p heq
        revert heq
        (try dsimp only); split
        · (try dsimp only); split
          · rename_i e2 p2 heq2
            intro heq
            rw [Prod.mk.injEq] at heq
            have h1 := le_snd_eq (parseIdentifier_ge tks pos) heq2
            omega
          · intro heq
            rw [Prod.mk.injEq] at heq
            exact absurd heq.1 (by simp)
        · intro heq
          rw [Prod.mk.injEq] at heq
          exact absurd heq.1 (by simp)
      · rename_i acc2 pos1 heq
        have h1 : pos ≤ pos1 := by
          revert heq
          (try dsimp only); split
          · (try dsimp only); split
            · intro heq
              rw [Prod.mk.injEq] at heq
              exact absurd heq.1 (by simp)
            · rename_i id pos2 heq2
              intro heq
              rw [Prod.mk.injEq] at heq
              have h1 := le_snd_eq (parseIdentifier_ge tks pos) heq2
              omega
          · intro heq
            rw [Prod.mk.injEq] at heq
            have h1 := advancePos_ge tks pos
            omega
        (try dsimp only); split
        · have h2 := advancePos_ge tks pos1
          have h3 := importItemsLoop_ge tks fuel (advancePos tks pos1) acc2
          omega
        · (try dsimp only); split
          · omega
          · have h3 := importItemsLoop_ge tks fuel pos1 acc2
            omega
    · exact le_refl pos

theorem parseIdentifier_ok (tks : List Token) (pos : Nat) (s : String)
    (p : Nat) (heq : parseIdentifier tks pos = (Except.ok s, p)) :
    p = pos + 1 := by
  unfold parseIdentifier at heq
  split at heq
  · rename_i hk
    rw [Prod.mk.injEq] at heq
    rw [← heq.2]
    exact advancePos_of_checkToken tks pos TokenKind.identifier hk (by simp)
  · rw [Prod.mk.injEq] at heq
    exact absurd heq.1 (by simp)

theorem parseFlow_ok_strict (tks : List Token) (pos : Nat) (f : Flow)
    (p : Nat) (heq : parseFlow tks pos = (Except.ok f, p)) :
    pos + 1 ≤ p := by
  unfold parseFlow at heq
  (try dsimp only at heq); split at heq
  · rw [Prod.mk.injEq] at heq
    exact absurd heq.1 (by simp)
  · rename_i fromId pos1 heq1
    have h1 := parseIdentifier_ok tks pos fromId pos1 heq1
    split at heq
    · rw [Prod.mk.injEq] at heq
      exact absurd heq.1 (by simp)
    · have h2 := advancePos_ge tks pos1
      split at heq
      · rw [Prod.mk.injEq] at heq
        exact absurd heq.1 (by simp)
      · rename_i toId pos3 heq2
        have h3 : advancePos tks pos1 ≤ pos3 := by
          revert heq2
          split
          · intro heq2
            rw [Prod.mk.injEq] at heq2
            have := advancePos_ge tks (advancePos tks pos1)
            omega
          · intro heq2
            exact le_snd_eq (parseIdentifier_ge tks (advancePos tks pos1)) heq2
        split at heq
        · have h4 := advancePos_ge tks pos3
          split at heq
          · rw [Prod.mk.injEq] at heq
            exact absurd heq.1 (by simp)
          · rename_i cond pos5 heq3
            have h5 := le_snd_eq (parseConditionExpression_ge tks
              (advancePos tks pos3)) heq3
            split at heq
            · rw [Prod.mk.injEq] at heq
              exact absurd heq.1 (by simp)
            · rename_i u pos6 heq4
              have h6 := le_snd_eq (consumeTok_ge tks pos5
                TokenKind.rightBracket) heq4
              rw [Prod.mk.injEq] at heq
              omega
        · rw [Prod.mk.injEq] at heq
          omega

theorem parseIdAttrs_ge (tks : List Token) (pos : Nat) :
    pos ≤ (parseIdAttrs tks pos).2 := by
  unfold parseIdAttrs
  (try dsimp only); split
  · rename_i e p heq
    exact le_snd_eq (parseIdentifier_ge tks pos) heq
  · rename_i id pos1 heq
    have h1 := le_snd_eq (parseIdentifier_ge tks pos) heq
    (try dsimp only); split
    all_goals rename_i heq2
    all_goals (
      have h2 := le_snd_eq (parseAttributes_ge tks pos1) heq2
      omega)

theorem knotBase_mono (tks : List Token) : knotMono (knotBase tks) := by
  refine ⟨?_, fun _ _ _ => le_refl _, fun _ _ => le_refl _,
    fun _ _ _ _ => le_refl _, fun _ => le_refl _⟩
  intro pos r p h
  rw [Prod.mk.injEq] at h
  obtain ⟨hr, hp⟩ := h
  subst hp
  exact ⟨le_refl pos, fun e he => Except.noConfusion (hr.trans he)⟩

set_option maxHeartbeats 1000000 in
theorem knotElem_mono (tks : List Token) (rec : KnotFns)
    (hrec : knotMono rec) (pos : Nat)
    (r : Except ParserError ProcessElement) (p : Nat)
    (h : knotElem tks rec pos = (r, p)) :
    pos ≤ p ∧ ∀ e, r = Except.ok e → pos + 1 ≤ p := by
  obtain ⟨helem, hef, heo, hpl, hlane⟩ := hrec
  unfold knotElem at h
  dsimp only at h
  split at h
  -- start
  · rename_i hk
    have hadv : advancePos tks pos = pos + 1 :=
      advancePos_of_kind tks pos TokenKind.start hk (by simp)
    split at h
    · rename_i e2 p2 heq2
      have h2 := le_snd_eq (parseEventType_ge tks (advancePos tks pos)) heq2
      rw [Prod.mk.injEq] at h
      obtain ⟨hr, hp⟩ := h
      subst hp
      exact ⟨by omega, fun e he => Except.noConfusion (hr.trans he)⟩
    · rename_i et pos2 heq2
      have h2 := le_snd_eq (parseEventType_ge tks (advancePos tks pos)) heq2
      split at h
      · rename_i e2 p2 heq3
        have h3 := le_snd_eq (parseAttributes_ge tks pos2) heq3
        rw [Prod.mk.injEq] at h
        obtain ⟨hr, hp⟩ := h
        subst hp
        exact ⟨by omega, fun e he => Except.noConfusion (hr.trans he)⟩
      · rename_i attrs pos3 heq3
        have h3 := le_snd_eq (parseAttributes_ge tks pos2) heq3
        rw [Prod.mk.injEq] at h
        obtain ⟨hr, hp⟩ := h
        subst hp
        exact ⟨by omega, fun e he => by omega⟩
  -- «end»
  · rename_i hk
    have hadv : advancePos tks pos = pos + 1 :=
      advancePos_of_kind tks pos TokenKind.«end» hk (by simp)
    split at h
    · rename_i e2 p2 heq2
      have h2 := le_snd_eq (parseEventType_ge tks (advancePos tks pos)) heq2
      rw [Prod.mk.injEq] at h
      obtain ⟨hr, hp⟩ := h
      subst hp
      exact ⟨by omega, fun e he => Except.noConfusion (hr.trans he)⟩
    · rename_i et pos2 heq2
      have h2 := le_snd_eq (parseEventType_ge tks (advancePos tks pos)) heq2
      split at h
      · rename_i e2 p2 heq3
        have h3 := le_snd_eq (parseAttributes_ge tks pos2) heq3
        rw [Prod.mk.injEq] at h
        obtain ⟨hr, hp⟩ := h
        subst hp
        exact ⟨by omega, fun e he => Except.noConfusion (hr.trans he)⟩
      · rename_i attrs pos3 heq3
        have h3 := le_snd_eq (parseAttributes_ge tks pos2) heq3
        rw [Prod.mk.injEq] at h
        obtain ⟨hr, hp⟩ := h
        subst hp
        exact ⟨by omega, fun e he => by omega⟩
  -- task
  · rename_i hk
    have hadv : advancePos tks pos = pos + 1 :=
      advancePos_of_kind tks pos TokenKind.task hk (by simp)
    split at h
    · rename_i e2 p2 heq2
      have h2 := le_snd_eq (parseIdAttrs_ge tks (advancePos tks pos)) heq2
      rw [Prod.mk.injEq] at h
      obtain ⟨hr, hp⟩ := h
      subst hp
      exact ⟨by omega, fun e he => Except.noConfusion (hr.trans he)⟩
    · rename_i id attrs p2 heq2
      have h2 := le_snd_eq (parseIdAttrs_ge tks (advancePos tks pos)) heq2
      rw [Prod.mk.injEq] at h
      obtain ⟨hr, hp⟩ := h
      subst hp
      exact ⟨by omega, fun e he => by omega⟩
  -- user
  · rename_i hk
    have hadv : advancePos tks pos = pos + 1 :=
      advancePos_of_kind tks pos TokenKind.user hk (by simp)
    split at h
    · rename_i e2 p2 heq2
      have h2 := le_snd_eq (parseIdAttrs_ge tks (advancePos tks pos)) heq2
      rw [Prod.mk.injEq] at h
      obtain ⟨hr, hp⟩ := h
      subst hp
      exact ⟨by omega, fun e he => Except.noConfusion (hr.trans he)⟩
    · rename_i id attrs p2 heq2
      have h2 := le_snd_eq (parseIdAttrs_ge tks (advancePos tks pos)) heq2
      rw [Prod.mk.injEq] at h
      obtain ⟨hr, hp⟩ := h
      subst hp
      exact ⟨by omega, fun e he => by omega⟩
  -- service
  · rename_i hk
    have hadv : advancePos tks pos = pos + 1 :=
      advancePos_of_kind tks pos TokenKind.service hk (by simp)
    split at h
    · rename_i e2 p2 heq2
      have h2 := le_snd_eq (parseIdAttrs_ge tks (advancePos tks pos)) heq2
      rw [Prod.mk.injEq] at h
      obtain ⟨hr, hp⟩ := h
      subst hp
      exact ⟨by omega, fun e he => Except.noConfusion (hr.trans he)⟩
    · rename_i id attrs p2 heq2
      have h2 := le_snd_eq (parseIdAttrs_ge tks (advancePos tks pos)) heq2
      rw [Prod.mk.injEq] at h
      obtain ⟨hr, hp⟩ := h
      subst hp
      exact ⟨by omega, fun e he => by omega⟩
  -- script
  · rename_i hk
    have hadv : advancePos tks pos = pos + 1 :=
      advancePos_of_kind tks pos TokenKind.script hk (by simp)
    split at h
    · rename_i e2 p2 heq2
      have h2 := le_snd_eq (parseIdAttrs_ge tks (advancePos tks pos)) heq2
      rw [Prod.mk.injEq] at h
      obtain ⟨hr, hp⟩ := h
      subst hp
      exact ⟨by omega, fun e he => Except.noConfusion (hr.trans he)⟩
    · rename_i id attrs p2 heq2
      have h2 := le_snd_eq (parseIdAttrs_ge tks (advancePos tks pos)) heq2
      rw [Prod.mk.injEq] at h
      obtain ⟨hr, hp⟩ := h
      subst hp
      exact ⟨by omega, fun e he => by omega⟩
  -- call
  · rename_i hk
    have hadv : advancePos tks pos = pos + 1 :=
      advancePos_of_kind tks pos TokenKind.call hk (by simp)
    split at h
    · rename_i e2 p2 heq2
      have h2 := le_snd_eq (parseIdentifier_ge tks (advancePos tks pos)) heq2
      rw [Prod.mk.injEq] at h
      obtain ⟨hr, hp⟩ := h
      subst hp
      exact ⟨by omega, fun e he => Except.noConfusion (hr.trans he)⟩
    · rename_i id pos2 heq2
      have h2 := le_snd_eq (parseIdentifier_ge tks (advancePos tks pos)) heq2
      split at h
      · rename_i e2 p2 heq3
        have h3 : pos2 ≤ p2 := by
          revert heq3
          split
          · split
            · rename_i e3 p3 heq4
              intro heq3
              rw [Prod.mk.injEq] at heq3
              have h4 := le_snd_eq
                (parseIdentifier_ge tks (advancePos tks pos2)) heq4
              have h5 := advancePos_ge tks pos2
              omega
            · intro heq3
              rw [Prod.mk.injEq] at heq3
              exact absurd heq3.1 (by simp)
          · intro heq3
            rw [Prod.mk.injEq] at heq3
            exact absurd heq3.1 (by simp)
        rw [Prod.mk.injEq] at h
        obtain ⟨hr, hp⟩ := h
        subst hp
        exact ⟨by omega, fun e he => Except.noConfusion (hr.trans he)⟩
      · rename_i called pos3 heq3
        have h3 : pos2 ≤ pos3 := by
          revert heq3
          split
          · split
            · intro heq3
              rw [Prod.mk.injEq] at heq3
              exact absurd heq3.1 (by simp)
            · rename_i id2 p3 heq4
              intro heq3
              rw [Prod.mk.injEq] at heq3
              have h4 := le_snd_eq
                (parseIdentifier_ge tks (advancePos tks pos2)) heq4
              have h5 := advancePos_ge tks pos2
              omega
          · intro heq3
            rw [Prod.mk.injEq] at heq3
            omega
        split at h
        · rename_i e2 p2 heq4
          have h4 := le_snd_eq (parseAttributes_ge tks pos3) heq4
          rw [Prod.mk.injEq] at h
          obtain ⟨hr, hp⟩ := h
          subst hp
          exact ⟨by omega, fun e he => Except.noConfusion (hr.trans he)⟩
        · rename_i attrs pos4 heq4
          have h4 := le_snd_eq (parseAttributes_ge tks pos3) heq4
          rw [Prod.mk.injEq] at h
          obtain ⟨hr, hp⟩ := h
          subst hp
          exact ⟨by omega, fun e he => by omega⟩
  -- xor
  · rename_i hk
    have hadv : advancePos tks pos = pos + 1 :=
      advancePos_of_kind tks pos TokenKind.xor hk (by simp)
    split at h
    · rename_i e2 p2 heq2
      have h2 : advancePos tks pos ≤ p2 := by
        revert heq2
        split
        · split
          · rename_i e3 p3 heq3
            intro heq2
            rw [Prod.mk.injEq] at heq2
            have h4 := le_snd_eq
              (parseIdentifier_ge tks (advancePos tks pos)) heq3
            omega
          · intro heq2
            rw [Prod.mk.injEq] at heq2
            exact absurd heq2.1 (by simp)
        · intro heq2
          rw [Prod.mk.injEq] at heq2
          exact absurd heq2.1 (by simp)
      rw [Prod.mk.injEq] at h
      obtain ⟨hr, hp⟩ := h
      subst hp
      exact ⟨by omega, fun e he => Except.noConfusion (hr.trans he)⟩
    · rename_i id pos2 heq2
      have h2 : advancePos tks pos ≤ pos2 := by
        revert heq2
        split
        · split
          · intro heq2
            rw [Prod.mk.injEq] at heq2
            exact absurd heq2.1 (by simp)
          · rename_i id2 p3 heq3
            intro heq2
            rw [Prod.mk.injEq] at heq2
            have h4 := le_snd_eq
              (parseIdentifier_ge tks (advancePos tks pos)) heq3
            omega
        · intro heq2
          rw [Prod.mk.injEq] at heq2
          omega
      have hq : pos2 ≤ (if checkToken tks pos2 TokenKind.question = true then advancePos tks pos2 else pos2) := by
        by_cases hc : checkToken tks pos2 TokenKind.question = true
        · rw [if_pos hc]; exact advancePos_ge tks pos2
        · rw [if_neg hc]
      split at h
      · rename_i e2 p2 heq3
        have h3 := le_snd_eq
          (consumeTok_ge tks (if checkToken tks pos2 TokenKind.question = true then advancePos tks pos2 else pos2) TokenKind.leftBrace) heq3
        rw [Prod.mk.injEq] at h
        obtain ⟨hr, hp⟩ := h
        subst hp
        exact ⟨by omega, fun e he => Except.noConfusion (hr.trans he)⟩
      · rename_i u pos4 heq3
        have h3 := le_snd_eq
          (consumeTok_ge tks (if checkToken tks pos2 TokenKind.question = true then advancePos tks pos2 else pos2) TokenKind.leftBrace) heq3
        split at h
        · rename_i e2 p2 heq4
          have h4 := le_snd_eq (parseGatewayBranches_ge tks pos4) heq4
          rw [Prod.mk.injEq] at h
          obtain ⟨hr, hp⟩ := h
          subst hp
          exact ⟨by omega, fun e he => Except.noConfusion (hr.trans he)⟩
        · rename_i branches pos5 heq4
          have h4 := le_snd_eq (parseGatewayBranches_ge tks pos4) heq4
          split at h
          · rename_i e2 p2 heq5
            have h5 := le_snd_eq
              (consumeTok_ge tks pos5 TokenKind.rightBrace) heq5
            rw [Prod.mk.injEq] at h
            obtain ⟨hr, hp⟩ := h
            subst hp
            exact ⟨by omega, fun e he => Except.noConfusion (hr.trans he)⟩
          · rename_i u2 pos6 heq5
            have h5 := le_snd_eq
              (consumeTok_ge tks pos5 TokenKind.rightBrace) heq5
            rw [Prod.mk.injEq] at h
            obtain ⟨hr, hp⟩ := h
            subst hp
            exact ⟨by omega, fun e he => by omega⟩
  -- and
  · rename_i hk
    have hadv : advancePos tks pos = pos + 1 :=
      advancePos_of_kind tks pos TokenKind.and hk (by simp)
    split at h
    · rename_i e2 p2 heq2
      have h2 : advancePos tks pos ≤ p2 := by
        revert heq2
        split
        · split
          · rename_i e3 p3 heq3
            intro heq2
            rw [Prod.mk.injEq] at heq2
            have h4 := le_snd_eq
              (parseIdentifier_ge tks (advancePos tks pos)) heq3
            omega
          · intro heq2
            rw [Prod.mk.injEq] at heq2
            exact absurd heq2.1 (by simp)
        · intro heq2
          rw [Prod.mk.injEq] at heq2
          exact absurd heq2.1 (by simp)
      rw [Prod.mk.injEq] at h
      obtain ⟨hr, hp⟩ := h
      subst hp
      exact ⟨by omega, fun e he => Except.noConfusion (hr.trans he)⟩
    · rename_i id pos2 heq2
      have h2 : advancePos tks pos ≤ pos2 := by
        revert heq2
        split
        · split
          · intro heq2
            rw [Prod.mk.injEq] at heq2
            exact absurd heq2.1 (by simp)
          · rename_i id2 p3 heq3
            intro heq2
            rw [Prod.mk.injEq] at heq2
            have h4 := le_snd_eq
              (parseIdentifier_ge tks (advancePos tks pos)) heq3
            omega
        · intro heq2
          rw [Prod.mk.injEq] at heq2
          omega
      have hq : pos2 ≤ pos2 := le_refl pos2
      split at h
      · rename_i e2 p2 heq3
        have h3 := le_snd_eq
          (consumeTok_ge tks pos2 TokenKind.leftBrace) heq3
        rw [Prod.mk.injEq] at h
        obtain ⟨hr, hp⟩ := h
        subst hp
        exact ⟨by omega, fun e he => Except.noConfusion (hr.trans he)⟩
      · rename_i u pos4 heq3
        have h3 := le_snd_eq
          (consumeTok_ge tks pos2 TokenKind.leftBrace) heq3
        split at h
        · rename_i e2 p2 heq4
          have h4 := le_snd_eq (parseGatewayBranches_ge tks pos4) heq4
          rw [Prod.mk.injEq] at h
          obtain ⟨hr, hp⟩ := h
          subst hp
          exact ⟨by omega, fun e he => Except.noConfusion (hr.trans he)⟩
        · rename_i branches pos5 heq4
          have h4 := le_snd_eq (parseGatewayBranches_ge tks pos4) heq4
          split at h
          · rename_i e2 p2 heq5
            have h5 := le_snd_eq
              (consumeTok_ge tks pos5 TokenKind.rightBrace) heq5
            rw [Prod.mk.injEq] at h
            obtain ⟨hr, hp⟩ := h
            subst hp
            exact ⟨by omega, fun e he => Except.noConfusion (hr.trans he)⟩
          · rename_i u2 pos6 heq5
            have h5 := le_snd_eq
              (consumeTok_ge tks pos5 TokenKind.rightBrace) heq5
            rw [Prod.mk.injEq] at h
            obtain ⟨hr, hp⟩ := h
            subst hp
            exact ⟨by omega, fun e he => by omega⟩
  -- event
  · rename_i hk
    have hadv : advancePos tks pos = pos + 1 :=
      advancePos_of_kind tks pos TokenKind.event hk (by simp)
    split at h
    · rename_i e2 p2 heq2
      have h2 := le_snd_eq (parseEventType_ge tks (advancePos tks pos)) heq2
      rw [Prod.mk.injEq] at h
      obtain ⟨hr, hp⟩ := h
      subst hp
      exact ⟨by omega, fun e he => Except.noConfusion (hr.trans he)⟩
    · rename_i pos2 heq2
      have h2 := le_snd_eq (parseEventType_ge tks (advancePos tks pos)) heq2
      rw [Prod.mk.injEq] at h
      obtain ⟨hr, hp⟩ := h
      subst hp
      exact ⟨by omega, fun e he => Except.noConfusion (hr.trans he)⟩
    · rename_i et pos2 heq2
      have h2 := le_snd_eq (parseEventType_ge tks (advancePos tks pos)) heq2
      have hq : pos2 ≤ (if (checkToken tks pos2 TokenKind.stringLiteral || checkToken tks pos2 TokenKind.numberLiteral || checkToken tks pos2 TokenKind.identifier) = true then (some (currentToken tks pos2).text, advancePos tks pos2) else (none, pos2)).2 := by
        by_cases hc : (checkToken tks pos2 TokenKind.stringLiteral || checkToken tks pos2 TokenKind.numberLiteral || checkToken tks pos2 TokenKind.identifier) = true
        · rw [if_pos hc]; exact advancePos_ge tks pos2
        · rw [if_neg hc]
      split at h
      · rename_i e2 p2 heq3
        have h3 := le_snd_eq (parseAttributes_ge tks (if (checkToken tks pos2 TokenKind.stringLiteral || checkToken tks pos2 TokenKind.numberLiteral || checkToken tks pos2 TokenKind.identifier) = true then (some (currentToken tks pos2).text, advancePos tks pos2) else (none, pos2)).2) heq3
        rw [Prod.mk.injEq] at h
        obtain ⟨hr, hp⟩ := h
        subst hp
        exact ⟨by omega, fun e he => Except.noConfusion (hr.trans he)⟩
      · rename_i attrs pos4 heq3
        have h3 := le_snd_eq (parseAttributes_ge tks (if (checkToken tks pos2 TokenKind.stringLiteral || checkToken tks pos2 TokenKind.numberLiteral || checkToken tks pos2 TokenKind.identifier) = true then (some (currentToken tks pos2).text, advancePos tks pos2) else (none, pos2)).2) heq3
        rw [Prod.mk.injEq] at h
        obtain ⟨hr, hp⟩ := h
        subst hp
        exact ⟨by omega, fun e he => by omega⟩
  -- subprocess
  · rename_i hk
    have hadv : advancePos tks pos = pos + 1 :=
      advancePos_of_kind tks pos TokenKind.subprocess hk (by simp)
    split at h
    · rename_i e2 p2 heq2
      have h2 := le_snd_eq (parseIdAttrs_ge tks (advancePos tks pos)) heq2
      rw [Prod.mk.injEq] at h
      obtain ⟨hr, hp⟩ := h
      subst hp
      exact ⟨by omega, fun e he => Except.noConfusion (hr.trans he)⟩
    · rename_i id attrs pos1 heq2
      have h2 := le_snd_eq (parseIdAttrs_ge tks (advancePos tks pos)) heq2
      split at h
      · rename_i e2 p2 heq3
        have h3 := le_snd_eq (consumeTok_ge tks pos1 TokenKind.leftBrace) heq3
        rw [Prod.mk.injEq] at h
        obtain ⟨hr, hp⟩ := h
        subst hp
        exact ⟨by omega, fun e he => Except.noConfusion (hr.trans he)⟩
      · rename_i u pos2 heq3
        have h3 := le_snd_eq (consumeTok_ge tks pos1 TokenKind.leftBrace) heq3
        have h4 : pos2 ≤ (rec.efLoop (skipWs tks pos2) [] []).2.2 :=
          le_trans (skipWs_ge tks pos2) (hef (skipWs tks pos2) [] [])
        split at h
        · rename_i e2 p2 heq4
          have h5 := le_snd_eq (consumeTok_ge tks
            (rec.efLoop (skipWs tks pos2) [] []).2.2 TokenKind.rightBrace) heq4
          rw [Prod.mk.injEq] at h
          obtain ⟨hr, hp⟩ := h
          subst hp
          exact ⟨by omega, fun e he => Except.noConfusion (hr.trans he)⟩
        · rename_i u2 pos4 heq4
          have h5 := le_snd_eq (consumeTok_ge tks
            (rec.efLoop (skipWs tks pos2) [] []).2.2 TokenKind.rightBrace) heq4
          rw [Prod.mk.injEq] at h
          obtain ⟨hr, hp⟩ := h
          subst hp
          exact ⟨by omega, fun e he => by omega⟩
  -- pool
  · rename_i hk
    have hadv : advancePos tks pos = pos + 1 :=
      advancePos_of_kind tks pos TokenKind.pool hk (by simp)
    split at h
    · rename_i e2 p2 heq2
      have h2 := le_snd_eq (parseIdentifier_ge tks (advancePos tks pos)) heq2
      rw [Prod.mk.injEq] at h
      obtain ⟨hr, hp⟩ := h
      subst hp
      exact ⟨by omega, fun e he => Except.noConfusion (hr.trans he)⟩
    · rename_i name pos2 heq2
      have h2 := le_snd_eq (parseIdentifier_ge tks (advancePos tks pos)) heq2
      split at h
      · rename_i e2 p2 heq3
        have h3 := le_snd_eq (consumeTok_ge tks pos2 TokenKind.leftBrace) heq3
        rw [Prod.mk.injEq] at h
        obtain ⟨hr, hp⟩ := h
        subst hp
        exact ⟨by omega, fun e he => Except.noConfusion (hr.trans he)⟩
      · rename_i u pos3 heq3
        have h3 := le_snd_eq (consumeTok_ge tks pos2 TokenKind.leftBrace) heq3
        split at h
        · rename_i e2 p2 heq4
          have h4 : skipWs tks pos3 ≤ p2 :=
            le_snd_eq (hpl (skipWs tks pos3) [] [] []) heq4
          have h5 := skipWs_ge tks pos3
          rw [Prod.mk.injEq] at h
          obtain ⟨hr, hp⟩ := h
          subst hp
          exact ⟨by omega, fun e he => Except.noConfusion (hr.trans he)⟩
        · rename_i lanes es2 fs2 pos4 heq4
          have h4 : skipWs tks pos3 ≤ pos4 :=
            le_snd_eq (hpl (skipWs tks pos3) [] [] []) heq4
          have h5 := skipWs_ge tks pos3
          split at h
          · rename_i e2 p2 heq5
            have h6 := le_snd_eq
              (consumeTok_ge tks pos4 TokenKind.rightBrace) heq5
            rw [Prod.mk.injEq] at h
            obtain ⟨hr, hp⟩ := h
            subst hp
            exact ⟨by omega, fun e he => Except.noConfusion (hr.trans he)⟩
          · rename_i u2 pos5 heq5
            have h6 := le_snd_eq
              (consumeTok_ge tks pos4 TokenKind.rightBrace) heq5
            rw [Prod.mk.injEq] at h
            obtain ⟨hr, hp⟩ := h
            subst hp
            exact ⟨by omega, fun e he => by omega⟩
  -- group
  · rename_i hk
    have hadv : advancePos tks pos = pos + 1 :=
      advancePos_of_kind tks pos TokenKind.group hk (by simp)
    split at h
    · rename_i e2 p2 heq2
      have h2 := le_snd_eq (parseStringLiteral_ge tks (advancePos tks pos)) heq2
      rw [Prod.mk.injEq] at h
      obtain ⟨hr, hp⟩ := h
      subst hp
      exact ⟨by omega, fun e he => Except.noConfusion (hr.trans he)⟩
    · rename_i label pos2 heq2
      have h2 := le_snd_eq (parseStringLiteral_ge tks (advancePos tks pos)) heq2
      split at h
      · rename_i e2 p2 heq3
        have h3 := le_snd_eq (consumeTok_ge tks pos2 TokenKind.leftBrace) heq3
        rw [Prod.mk.injEq] at h
        obtain ⟨hr, hp⟩ := h
        subst hp
        exact ⟨by omega, fun e he => Except.noConfusion (hr.trans he)⟩
      · rename_i u pos3 heq3
        have h3 := le_snd_eq (consumeTok_ge tks pos2 TokenKind.leftBrace) heq3
        have h4 : pos3 ≤ (rec.eoLoop (skipWs tks pos3) []).2 :=
          le_trans (skipWs_ge tks pos3) (heo (skipWs tks pos3) [])
        split at h
        · rename_i e2 p2 heq4
          have h5 := le_snd_eq (consumeTok_ge tks
            (rec.eoLoop (skipWs tks pos3) []).2 TokenKind.rightBrace) heq4
          rw [Prod.mk.injEq] at h
          obtain ⟨hr, hp⟩ := h
          subst hp
          exact ⟨by omega, fun e he => Except.noConfusion (hr.trans he)⟩
        · rename_i u2 pos5 heq4
          have h5 := le_snd_eq (consumeTok_ge tks
            (rec.eoLoop (skipWs tks pos3) []).2 TokenKind.rightBrace) heq4
          rw [Prod.mk.injEq] at h
          obtain ⟨hr, hp⟩ := h
          subst hp
          exact ⟨by omega, fun e he => by omega⟩
  -- note
  · rename_i hk
    have hadv : advancePos tks pos = pos + 1 :=
      advancePos_of_kind tks pos TokenKind.note hk (by simp)
    split at h
    · rename_i e2 p2 heq2
      have h2 := le_snd_eq (parseStringLiteral_ge tks (advancePos tks pos)) heq2
      rw [Prod.mk.injEq] at h
      obtain ⟨hr, hp⟩ := h
      subst hp
      exact ⟨by omega, fun e he => Except.noConfusion (hr.trans he)⟩
    · rename_i text pos2 heq2
      have h2 := le_snd_eq (parseStringLiteral_ge tks (advancePos tks pos)) heq2
      rw [Prod.mk.injEq] at h
      obtain ⟨hr, hp⟩ := h
      subst hp
      exact ⟨by omega, fun e he => by omega⟩
  -- default
  · rw [Prod.mk.injEq] at h
    obtain ⟨hr, hp⟩ := h
    subst hp
    exact ⟨le_refl pos, fun e he => Except.noConfusion (hr.trans he)⟩

theorem knotEfLoop_mono (tks : List Token) (rec : KnotFns)
    (hrec : knotMono rec) (pos : Nat) (es : List ProcessElement)
    (fs : List Flow) : pos ≤ (knotEfLoop tks rec pos es fs).2.2 := by
  obtain ⟨helem, hef, heo, hpl, hlane⟩ := hrec
  unfold knotEfLoop
  (try dsimp only); split
  · (try dsimp only); split
    · rename_i e p heq
      have h1 := (helem pos _ _ heq).1
      have h2 := skipWs_ge tks p
      have h3 := hef (skipWs tks p) (es ++ [e]) fs
      omega
    · rename_i e1 p1 heq
      have h1 := (helem pos _ _ heq).1
      (try dsimp only); split
      · rename_i f p2 heq2
        have h2 := le_snd_eq (parseFlow_ge tks p1) heq2
        have h3 := skipWs_ge tks p2
        have h4 := hef (skipWs tks p2) es (fs ++ [f])
        omega
      · rename_i e2 p2 heq2
        have h2 := le_snd_eq (parseFlow_ge tks p1) heq2
        have h3 := advancePos_ge tks p2
        have h4 := skipWs_ge tks (advancePos tks p2)
        have h5 := hef (skipWs tks (advancePos tks p2)) es fs
        omega
  · exact le_refl pos

theorem knotEoLoop_mono (tks : List Token) (rec : KnotFns)
    (hrec : knotMono rec) (pos : Nat) (es : List ProcessElement) :
    pos ≤ (knotEoLoop tks rec pos es).2 := by
  obtain ⟨helem, hef, heo, hpl, hlane⟩ := hrec
  unfold knotEoLoop
  (try dsimp only); split
  · (try dsimp only); split
    · rename_i e p heq
      have h1 := (helem pos _ _ heq).1
      have h2 := skipWs_ge tks p
      have h3 := heo (skipWs tks p) (es ++ [e])
      omega
    · rename_i e1 p heq
      have h1 := (helem pos _ _ heq).1
      have h2 := advancePos_ge tks p
      have h3 := skipWs_ge tks (advancePos tks p)
      have h4 := heo (skipWs tks (advancePos tks p)) es
      omega
  · exact le_refl pos

theorem knotPLoop_mono (tks : List Token) (rec : KnotFns)
    (hrec : knotMono rec) (pos : Nat) (lanes : List Lane)
    (es : List ProcessElement) (fs : List Flow) :
    pos ≤ (knotPLoop tks rec pos lanes es fs).2 := by
  obtain ⟨helem, hef, heo, hpl, hlane⟩ := hrec
  unfold knotPLoop
  (try dsimp only); split
  · (try dsimp only); split
    · (try dsimp only); split
      · rename_i e p heq
        have h1 := hlane pos
        rw [heq] at h1
        exact h1
      · rename_i ln p heq
        have h1 := hlane pos
        rw [heq] at h1
        have h2 := skipWs_ge tks p
        have h3 := hpl (skipWs tks p) (lanes ++ [ln]) es fs
        simp only at h1
        omega
    · (try dsimp only); split
      · rename_i e p heq
        have h1 := (helem pos _ _ heq).1
        have h2 := skipWs_ge tks p
        have h3 := hpl (skipWs tks p) lanes (es ++ [e]) fs
        omega
      · rename_i e1 p1 heq
        have h1 := (helem pos _ _ heq).1
        (try dsimp only); split
        · rename_i f p2 heq2
          have h2 := le_snd_eq (parseFlow_ge tks p1) heq2
          have h3 := skipWs_ge tks p2
          have h4 := hpl (skipWs tks p2) lanes es (fs ++ [f])
          omega
        · rename_i e2 p2 heq2
          have h2 := le_snd_eq (parseFlow_ge tks p1) heq2
          have h3 := advancePos_ge tks p2
          have h4 := skipWs_ge tks (advancePos tks p2)
          have h5 := hpl (skipWs tks (advancePos tks p2)) lanes es fs
          omega
  · exact le_refl pos

theorem knotLane_mono (tks : List Token) (rec : KnotFns)
    (hrec : knotMono rec) (pos : Nat) :
    pos ≤ (knotLane tks rec pos).2 := by
  obtain ⟨helem, hef, heo, hpl, hlane⟩ := hrec
  unfold knotLane
  (try dsimp only); split
  · rename_i e p heq
    exact le_snd_eq (consumeTok_ge tks pos TokenKind.lane) heq
  · rename_i u pos1 heq
    have h1 := le_snd_eq (consumeTok_ge tks pos TokenKind.lane) heq
    (try dsimp only); split
    · rename_i e p heq2
      have h2 := le_snd_eq (parseIdentifier_ge tks pos1) heq2
      omega
    · rename_i name pos2 heq2
      have h2 := le_snd_eq (parseIdentifier_ge tks pos1) heq2
      (try dsimp only); split
      · rename_i e p heq3
        have h3 := le_snd_eq (consumeTok_ge tks pos2 TokenKind.leftBrace) heq3
        omega
      · rename_i u2 pos3 heq3
        have h3 := le_snd_eq (consumeTok_ge tks pos2 TokenKind.leftBrace) heq3
        have h4 : pos3 ≤ (rec.eoLoop (skipWs tks pos3) []).2 :=
          le_trans (skipWs_ge tks pos3) (heo (skipWs tks pos3) [])
        (try dsimp only); split
        · rename_i e p heq4
          have h5 := le_snd_eq (consumeTok_ge tks
            (rec.eoLoop (skipWs tks pos3) []).2 TokenKind.rightBrace) heq4
          omega
        · rename_i u3 pos5 heq4
          have h5 := le_snd_eq (consumeTok_ge tks
            (rec.eoLoop (skipWs tks pos3) []).2 TokenKind.rightBrace) heq4
          omega

theorem knotStep_mono (tks : List Token) (rec : KnotFns)
    (hrec : knotMono rec) : knotMono (knotStep tks rec) :=
  ⟨fun pos r p h => knotElem_mono tks rec hrec pos r p h,
   knotEfLoop_mono tks rec hrec, knotEoLoop_mono tks rec hrec,
   knotPLoop_mono tks rec hrec, knotLane_mono tks rec hrec⟩

theorem knotAux_mono (tks : List Token) : ∀ fuel, knotMono (knotAux tks fuel)
  | 0 => knotBase_mono tks
  | fuel + 1 => knotStep_mono tks _ (knotAux_mono tks fuel)

theorem parseProcessElementW_mono (tks : List Token) (pos : Nat)
    (r : Except ParserError ProcessElement) (p : Nat)
    (h : parseProcessElementW tks pos = (r, p)) :
    pos ≤ p ∧ ∀ e, r = Except.ok e → pos + 1 ≤ p :=
  (knotAux_mono tks (knotFuel tks)).1 pos r p h

theorem smaInner_go_ge (l : List Token) : ∀ pos, pos ≤ smaInner.go l pos := by
  induction l with
  | nil => intro pos; exact le_refl pos
  | cons t rest ih =>
    intro pos
    unfold smaInner.go
    split <;> first
      | exact le_refl pos
      | exact le_trans (Nat.le_succ pos) (ih (pos + 1))

theorem smaInner_ge (tks : List Token) (pos : Nat) : pos ≤ smaInner tks pos :=
  smaInner_go_ge (tks.drop pos) pos

theorem smaOuter_ge (tks : List Token) :
    ∀ fuel pos, pos ≤ smaOuter tks fuel pos
  | 0, pos => le_refl pos
  | fuel + 1, pos => by
    unfold smaOuter
    split
    · have h1 := smaInner_ge tks (pos + 1)
      have h2 := smaOuter_ge tks fuel (smaInner tks (pos + 1))
      omega
    · exact le_refl pos

theorem parenSkip_ge (l : List Token) : ∀ i c, i ≤ parenSkip l i c := by
  induction l with
  | nil =>
    intro i c
    cases c with
    | zero => exact le_refl i
    | succ c => exact le_refl i
  | cons t rest ih =>
    intro i c
    cases c with
    | zero => exact le_refl i
    | succ c =>
      rw [parenSkip]
      split <;> exact le_trans (Nat.le_succ i) (ih (i + 1) _)

theorem skipMalformedAttributes_ge (tks : List Token) (pos : Nat) :
    pos ≤ skipMalformedAttributes tks pos := by
  unfold skipMalformedAttributes
  have h1 := smaOuter_ge tks (tks.length + 1) pos
  (try dsimp only); split
  · have h2 := parenSkip_ge (tks.drop (smaOuter tks (tks.length + 1) pos + 1))
      (smaOuter tks (tks.length + 1) pos + 1) 1
    omega
  · exact h1

theorem condScan_ge (l : List Token) :
    ∀ i acc, i ≤ (condScan l i acc).2 := by
  induction l with
  | nil => intro i acc; exact le_refl i
  | cons t rest ih =>
    intro i acc
    unfold condScan
    split
    · exact le_refl i
    · exact le_trans (Nat.le_succ i) (ih (i + 1) _)

theorem recoverTask_some (tks : List Token) (sp : Nat) (e : ProcessElement)
    (p : Nat) (h : (recoverTask tks sp).1 = some (e, p)) : sp + 1 ≤ p := by
  unfold recoverTask at h
  dsimp only at h
  have s1 := skipMalformedAttributes_ge tks (sp + 1 + 1)
  have s2 := skipMalformedAttributes_ge tks (sp + 1)
  repeat' split at h
  all_goals first
    | ((try (dsimp only at h))
       simp only [Option.some.injEq, Prod.mk.injEq] at h
       obtain ⟨-, hp⟩ := h
       omega)
    | simp at h

theorem recoverSingleBranch_some (tks : List Token) (sp : Nat)
    (b : GatewayBranch) (p : Nat)
    (h : (recoverSingleBranch tks sp).1 = some (b, p)) : sp ≤ p := by
  unfold recoverSingleBranch at h
  dsimp only at h
  have c1 := condScan_ge (tks.drop (sp + 1)) (sp + 1) ""
  split at h
  · simp at h
  · rename_i condition isDefault pos1 heq
    have h1 : sp ≤ pos1 := by
      repeat' split at heq
      all_goals first
        | ((try (dsimp only at heq))
           simp only [Option.some.injEq, Prod.mk.injEq] at heq
           omega)
        | simp at heq
    repeat' split at h
    all_goals first
      | ((try (dsimp only at h))
         simp only [Option.some.injEq, Prod.mk.injEq] at h
         obtain ⟨-, hp⟩ := h
         omega)
      | simp at h

theorem rgbLoop_snd_ge (tks : List Token) :
    ∀ fuel pos acc errs, pos ≤ (rgbLoop tks fuel pos acc errs).2.1
  | 0, pos, acc, errs => le_refl pos
  | fuel + 1, pos, acc, errs => by
    unfold rgbLoop
    split
    · split
      · rename_i b p errs1 heq
        have h1 : pos ≤ p := by
          apply recoverSingleBranch_some tks pos b p
          rw [heq]
        have h2 := rgbLoop_snd_ge tks fuel p (acc ++ [b]) (errs ++ errs1)
        omega
      · rename_i errs1 heq
        have h2 := rgbLoop_snd_ge tks fuel (pos + 1) acc (errs ++ errs1)
        omega
    · exact le_refl pos

theorem recoverGatewayBranches_snd_ge (tks : List Token) (pos : Nat) :
    pos ≤ (recoverGatewayBranches tks pos).2.1 :=
  rgbLoop_snd_ge tks (tks.length + 1) pos [] []

theorem recoverGateway_some (tks : List Token) (sp : Nat)
    (e : ProcessElement) (p : Nat)
    (h : (recoverGateway tks sp).1 = some (e, p)) : sp + 1 ≤ p := by
  unfold recoverGateway at h
  dsimp only at h
  generalize hq2 : (if sp + 1 < tks.length
      ∧ (tks.getD (sp + 1) defTok).kind = TokenKind.identifier
      then ((some (tks.getD (sp + 1) defTok).text : Option String), sp + 1 + 1)
      else (none, sp + 1)) = q2 at h
  have hq2ge : sp + 1 ≤ q2.2 := by
    rw [← hq2]
    by_cases hc : sp + 1 < tks.length
        ∧ (tks.getD (sp + 1) defTok).kind = TokenKind.identifier
    · rw [if_pos hc]
      omega
    · rw [if_neg hc]
  generalize hq3 : (if q2.2 < tks.length
      ∧ (tks.getD q2.2 defTok).kind = TokenKind.question
      then q2.2 + 1 else q2.2) = q3 at h
  have hq3ge : q2.2 ≤ q3 := by
    rw [← hq3]
    by_cases hc : q2.2 < tks.length
        ∧ (tks.getD q2.2 defTok).kind = TokenKind.question
    · rw [if_pos hc]
      omega
    · rw [if_neg hc]
  have grgb := recoverGatewayBranches_snd_ge tks (q3 + 1)
  repeat' split at h
  all_goals first
    | ((try (dsimp only at h))
       simp only [Option.some.injEq, Prod.mk.injEq] at h
       obtain ⟨-, hp⟩ := h
       first
       | (have hp2 : (recoverGatewayBranches tks (q3 + 1)).2.1 + 1 = p := hp
          omega)
       | (have hp2 : (recoverGatewayBranches tks (q3 + 1)).2.1 = p := hp
          omega)
       | (have hp2 : q3 = p := hp
          omega))
    | simp at h

theorem recoverProcessElement_some (tks : List Token) (sp : Nat)
    (e : ProcessElement) (p : Nat)
    (h : (recoverProcessElement tks sp).1 = some (e, p)) : sp + 1 ≤ p := by
  unfold recoverProcessElement at h
  split at h
  · simp at h
  · dsimp only at h
    split at h
    all_goals first
      | (simp only [Option.some.injEq, Prod.mk.injEq] at h
         obtain ⟨-, hp⟩ := h
         omega)
      | exact recoverTask_some tks sp e p h
      | exact recoverGateway_some tks sp e p h
      | simp at h

theorem recoverFlow_some (tks : List Token) (sp : Nat) (f : Flow) (p : Nat)
    (h : (recoverFlow tks sp).1 = some (f, p)) : sp + 1 ≤ p := by
  unfold recoverFlow at h
  dsimp only at h
  have c1 := condScan_ge (tks.drop (sp + 1 + 1 + 1 + 1)) (sp + 1 + 1 + 1 + 1) ""
  have c2 := condScan_ge (tks.drop (sp + 1 + 1 + 1)) (sp + 1 + 1 + 1) ""
  repeat' split at h
  all_goals first
    | ((try (dsimp only at h))
       simp only [Option.some.injEq, Prod.mk.injEq] at h
       obtain ⟨-, hp⟩ := h
       omega)
    | simp at h

theorem recBodyLoop_ge (tks : List Token) :
    ∀ fuel pos es fs errs, pos ≤ (recBodyLoop tks fuel pos es fs errs).2.2.2
  | 0, pos, es, fs, errs => le_refl pos
  | fuel + 1, pos, es, fs, errs => by
    unfold recBodyLoop
    (try dsimp only); split
    · (try dsimp only); split
      · rename_i e p heq
        have h1 := (parseProcessElementW_mono tks pos _ _ heq).1
        have h2 := skipWs_ge tks p
        have h3 := recBodyLoop_ge tks fuel (skipWs tks p) (es ++ [e]) fs errs
        omega
      · rename_i e1 p1 heq
        (try dsimp only); split
        · rename_i f p2 heq2
          have h1 := parseFlow_ok_strict tks pos f p2 heq2
          have h2 := skipWs_ge tks p2
          have h3 := recBodyLoop_ge tks fuel (skipWs tks p2) es (fs ++ [f]) errs
          omega
        · rename_i e2 p2 heq2
          (try dsimp only); split
          · rename_i e3 p3 errs1 heq3
            have h1 : pos + 1 ≤ p3 := by
              apply recoverProcessElement_some tks pos e3 p3
              rw [heq3]
            have h2 := skipWs_ge tks p3
            have h3 := recBodyLoop_ge tks fuel (skipWs tks p3) (es ++ [e3]) fs
              (errs ++ errs1)
            omega
          · rename_i errs1 heq3
            (try dsimp only); split
            · rename_i f4 p4 errs2 heq4
              have h1 : pos + 1 ≤ p4 := by
                apply recoverFlow_some tks pos f4 p4
                rw [heq4]
              have h2 := skipWs_ge tks p4
              have h3 := recBodyLoop_ge tks fuel (skipWs tks p4) es (fs ++ [f4])
                (errs ++ errs1 ++ errs2)
              omega
            · rename_i errs2 heq4
              have h1 := advancePos_ge tks pos
              have h2 := skipWs_ge tks (advancePos tks pos)
              have h3 := recBodyLoop_ge tks fuel (skipWs tks (advancePos tks pos))
                es fs (errs ++ errs1 ++ errs2 ++
                  [{ message := "Skipping unexpected token '"
                      ++ (currentToken tks pos).text ++ "'"
                     span := currentSpan tks pos, severity := .warning }])
              omega
    · exact le_refl pos

theorem not_atEnd_lt (tks : List Token) (pos : Nat)
    (h : ¬isAtEnd tks pos = true) : pos < tks.length := by
  unfold isAtEnd at h
  simp only [Bool.or_eq_true, decide_eq_true_eq, not_or] at h
  omega

theorem recBodyLoop_fuel (tks : List Token) :
    ∀ n pos f g es fs errs, tks.length - pos = n → n ≤ f → n ≤ g →
      recBodyLoop tks (f + 1) pos es fs errs
        = recBodyLoop tks (g + 1) pos es fs errs := by
  intro n
  induction n using Nat.strong_induction_on with
  | _ n ih =>
    intro pos f g es fs errs hn hf hg
    unfold recBodyLoop
    by_cases hC : ¬checkToken tks pos TokenKind.rightBrace = true
        ∧ ¬isAtEnd tks pos = true
    · rw [if_pos hC, if_pos hC]
      have hlt : pos < tks.length := not_atEnd_lt tks pos hC.2
      rcases hpe : parseProcessElementW tks pos with ⟨r, p⟩
      cases r with
      | ok e =>
        have hstrict := (parseProcessElementW_mono tks pos _ _ hpe).2 e rfl
        have hsk := skipWs_ge tks p
        dsimp only
        cases f with
        | zero => omega
        | succ f' =>
          cases g with
          | zero => omega
          | succ g' =>
            exact ih (tks.length - skipWs tks p) (by omega) (skipWs tks p)
              f' g' (es ++ [e]) fs errs rfl (by omega) (by omega)
      | error e1 =>
        dsimp only
        rcases hpf : parseFlow tks pos with ⟨r2, p2⟩
        cases r2 with
        | ok f2 =>
          have hstrict := parseFlow_ok_strict tks pos f2 p2 hpf
          have hsk := skipWs_ge tks p2
          dsimp only
          cases f with
          | zero => omega
          | succ f' =>
            cases g with
            | zero => omega
            | succ g' =>
              exact ih (tks.length - skipWs tks p2) (by omega) (skipWs tks p2)
                f' g' es (fs ++ [f2]) errs rfl (by omega) (by omega)
        | error e2 =>
          dsimp only
          rcases hpr : recoverProcessElement tks pos with ⟨ro, errs1⟩
          cases ro with
          | some ep =>
            obtain ⟨e3, p3⟩ := ep
            have hstrict : pos + 1 ≤ p3 := by
              apply recoverProcessElement_some tks pos e3 p3
              rw [hpr]
            have hsk := skipWs_ge tks p3
            dsimp only
            cases f with
            | zero => omega
            | succ f' =>
              cases g with
              | zero => omega
              | succ g' =>
                exact ih (tks.length - skipWs tks p3) (by omega) (skipWs tks p3)
                  f' g' (es ++ [e3]) fs (errs ++ errs1) rfl (by omega) (by omega)
          | none =>
            dsimp only
            rcases hrf : recoverFlow tks pos with ⟨fo, errs2⟩
            cases fo with
            | some fp =>
              obtain ⟨f4, p4⟩ := fp
              have hstrict : pos + 1 ≤ p4 := by
                apply recoverFlow_some tks pos f4 p4
                rw [hrf]
              have hsk := skipWs_ge tks p4
              dsimp only
              cases f with
              | zero => omega
              | succ f' =>
                cases g with
                | zero => omega
                | succ g' =>
                  exact ih (tks.length - skipWs tks p4) (by omega) (skipWs tks p4)
                    f' g' es (fs ++ [f4]) (errs ++ errs1 ++ errs2) rfl
                    (by omega) (by omega)
            | none =>
              have hadv : advancePos tks pos = pos + 1 := by
                apply advancePos_of_not_atEnd
                cases hb : isAtEnd tks pos
                · rfl
                · exact absurd hb hC.2
              have hsk := skipWs_ge tks (advancePos tks pos)
              dsimp only
              cases f with
              | zero => omega
              | succ f' =>
                cases g with
                | zero => omega
                | succ g' =>
                  exact ih (tks.length - skipWs tks (advancePos tks pos))
                    (by omega) (skipWs tks (advancePos tks pos)) f' g' es fs
                    (errs ++ errs1 ++ errs2 ++
                      [{ message := "Skipping unexpected token '"
                          ++ (currentToken tks pos).text ++ "'"
                         span := currentSpan tks pos, severity := .warning }])
                    rfl (by omega) (by omega)
    · rw [if_neg hC, if_neg hC]

theorem parseProcessWithRecovery_fuel (tks : List Token) (f g pos : Nat)
    (hf : tks.length ≤ f) (hg : tks.length ≤ g) :
    parseProcessWithRecovery tks (f + 1) pos
      = parseProcessWithRecovery tks (g + 1) pos := by
  unfold parseProcessWithRecovery
  rcases h1 : consumeTok tks pos TokenKind.process with ⟨r1, p1⟩
  cases r1 with
  | error e => rfl
  | ok u =>
    dsimp only
    rcases h2 : parseIdentifier tks p1 with ⟨r2, p2⟩
    cases r2 with
    | error e => rfl
    | ok name =>
      dsimp only
      rcases h3 : consumeTok tks (parseAttributes tks p2).2 TokenKind.leftBrace
        with ⟨r3, p3⟩
      cases r3 with
      | error e => rfl
      | ok u3 =>
        dsimp only
        rw [recBodyLoop_fuel tks (tks.length - skipWs tks p3) (skipWs tks p3)
          f g [] [] [] rfl (by omega) (by omega)]
  
theorem parseProcessWithRecovery_strict (tks : List Token) (bf pos : Nat)
    (hk : checkToken tks pos TokenKind.process = true) :
    pos + 1 ≤ (parseProcessWithRecovery tks bf pos).2.1 := by
  have hct : consumeTok tks pos TokenKind.process = (Except.ok (), pos + 1) := by
    unfold consumeTok
    rw [if_pos hk, advancePos_of_checkToken tks pos TokenKind.process hk (by simp)]
  unfold parseProcessWithRecovery
  rw [hct]
  dsimp only
  rcases h2 : parseIdentifier tks (pos + 1) with ⟨r2, p2⟩
  have h2ge : pos + 1 ≤ p2 := le_snd_eq (parseIdentifier_ge tks (pos + 1)) h2
  cases r2 with
  | error e =>
    dsimp only
    omega
  | ok name =>
    dsimp only
    have hatt : p2 ≤ (parseAttributes tks p2).2 := parseAttributes_ge tks p2
    rcases h3 : consumeTok tks (parseAttributes tks p2).2 TokenKind.leftBrace
      with ⟨r3, p3⟩
    have h3ge : (parseAttributes tks p2).2 ≤ p3 :=
      le_snd_eq (consumeTok_ge tks (parseAttributes tks p2).2 TokenKind.leftBrace) h3
    cases r3 with
    | error e =>
      dsimp only
      omega
    | ok u3 =>
      dsimp only
      have hsk := skipWs_ge tks p3
      have hrb : skipWs tks p3
          ≤ (recBodyLoop tks bf (skipWs tks p3) [] [] []).2.2.2 :=
        recBodyLoop_ge tks bf (skipWs tks p3) [] [] []
      by_cases hcb : checkToken tks
          (recBodyLoop tks bf (skipWs tks p3) [] [] []).2.2.2
          TokenKind.rightBrace = true
      · rw [if_pos hcb]
        exact le_trans (le_trans (by omega) hrb)
          (advancePos_ge tks ((recBodyLoop tks bf (skipWs tks p3) [] [] []).2.2.2))
      · rw [if_neg hcb]
        exact le_trans (by omega) hrb

theorem parseImport_strict (tks : List Token) (pos : Nat)
    (hk : checkToken tks pos TokenKind.«import» = true) :
    pos + 1 ≤ (parseImport tks pos).2 := by
  have hct : consumeTok tks pos TokenKind.«import» = (Except.ok (), pos + 1) := by
    unfold consumeTok
    rw [if_pos hk, advancePos_of_checkToken tks pos TokenKind.«import» hk (by simp)]
  unfold parseImport
  rw [hct]
  dsimp only
  by_cases hsl : checkToken tks (pos + 1) TokenKind.stringLiteral = true
  · rw [if_pos hsl]
    rcases h2 : parseStringLiteral tks (pos + 1) with ⟨r2, p2⟩
    have h2ge : pos + 1 ≤ p2 := le_snd_eq (parseStringLiteral_ge tks (pos + 1)) h2
    cases r2 with
    | error e => exact h2ge
    | ok path =>
      dsimp only
      by_cases has : checkToken tks p2 TokenKind.as = true
      · rw [if_pos has]
        have hadv := advancePos_ge tks p2
        rcases h3 : parseIdentifier tks (advancePos tks p2) with ⟨r3, p3⟩
        have h3ge : advancePos tks p2 ≤ p3 :=
          le_snd_eq (parseIdentifier_ge tks (advancePos tks p2)) h3
        cases r3 with
        | error e => dsimp only; omega
        | ok al => dsimp only; omega
      · rw [if_neg has]
        exact h2ge
  · rw [if_neg hsl]
    rcases h2 : importItemsLoop tks (tks.length + 1) (pos + 1) [] with ⟨r2, p2⟩
    have h2ge : pos + 1 ≤ p2 :=
      le_snd_eq (importItemsLoop_ge tks (tks.length + 1) (pos + 1) []) h2
    cases r2 with
    | error e => exact h2ge
    | ok items =>
      dsimp only
      rcases h3 : consumeTok tks p2 TokenKind.«from» with ⟨r3, p3⟩
      have h3ge : p2 ≤ p3 := le_snd_eq (consumeTok_ge tks p2 TokenKind.«from») h3
      cases r3 with
      | error e => dsimp only; omega
      | ok u =>
        dsimp only
        rcases h4 : parseStringLiteral tks p3 with ⟨r4, p4⟩
        have h4ge : p3 ≤ p4 := le_snd_eq (parseStringLiteral_ge tks p3) h4
        cases r4 with
        | error e => dsimp only; omega
        | ok path => dsimp only; omega

theorem importLoop_steps_le (tks : List Token) :
    ∀ fuel pos, (importLoop tks fuel pos).2.2.2 ≤ tks.length - pos
  | 0, pos => Nat.zero_le _
  | fuel + 1, pos => by
    unfold importLoop
    split
    · rename_i hk
      have hlt := checkToken_lt_length tks pos _ hk (by simp)
      split
      · rename_i imp p heqI
        have hp : pos + 1 ≤ p := le_snd_eq (parseImport_strict tks pos hk) heqI
        have hsk := skipWs_ge tks p
        rcases hrec : importLoop tks fuel (skipWs tks p) with ⟨is, errs, pf, steps⟩
        have hI := importLoop_steps_le tks fuel (skipWs tks p)
        rw [hrec] at hI
        have hI2 : steps ≤ tks.length - skipWs tks p := hI
        show steps ≤ tks.length - pos
        omega
      · rename_i e p heqI
        have hp : pos + 1 ≤ p := le_snd_eq (parseImport_strict tks pos hk) heqI
        have hfs := findSyncPoint_ge tks p
        have hsk := skipWs_ge tks (findSyncPoint tks p)
        rcases hrec : importLoop tks fuel (skipWs tks (findSyncPoint tks p))
          with ⟨is, errs, pf, steps⟩
        have hI := importLoop_steps_le tks fuel (skipWs tks (findSyncPoint tks p))
        rw [hrec] at hI
        have hI2 : steps ≤ tks.length - skipWs tks (findSyncPoint tks p) := hI
        show steps + 1 ≤ tks.length - pos
        omega
    · exact Nat.zero_le _

theorem importLoop_progress (tks : List Token) :
    ∀ fuel pos, pos + (importLoop tks fuel pos).2.2.2
      ≤ (importLoop tks fuel pos).2.2.1
  | 0, pos => by
    show pos + 0 ≤ pos
    omega
  | fuel + 1, pos => by
    unfold importLoop
    split
    · rename_i hk
      split
      · rename_i imp p heqI
        have hp : pos + 1 ≤ p := le_snd_eq (parseImport_strict tks pos hk) heqI
        have hsk := skipWs_ge tks p
        rcases hrec : importLoop tks fuel (skipWs tks p) with ⟨is, errs, pf, steps⟩
        have hI := importLoop_progress tks fuel (skipWs tks p)
        rw [hrec] at hI
        have hI2 : skipWs tks p + steps ≤ pf := hI
        show pos + steps ≤ pf
        omega
      · rename_i e p heqI
        have hp : pos + 1 ≤ p := le_snd_eq (parseImport_strict tks pos hk) heqI
        have hfs := findSyncPoint_ge tks p
        have hsk := skipWs_ge tks (findSyncPoint tks p)
        rcases hrec : importLoop tks fuel (skipWs tks (findSyncPoint tks p))
          with ⟨is, errs, pf, steps⟩
        have hI := importLoop_progress tks fuel (skipWs tks (findSyncPoint tks p))
        rw [hrec] at hI
        have hI2 : skipWs tks (findSyncPoint tks p) + steps ≤ pf := hI
        show pos + (steps + 1) ≤ pf
        omega
    · show pos + 0 ≤ pos
      omega

theorem importLoop_fuel (tks : List Token) :
    ∀ n pos f g, tks.length - pos = n → n ≤ f → n ≤ g →
      importLoop tks (f + 1) pos = importLoop tks (g + 1) pos := by
  intro n
  induction n using Nat.strong_induction_on with
  | _ n ih =>
    intro pos f g hn hf hg
    unfold importLoop
    by_cases hk : checkToken tks pos TokenKind.«import» = true
    · rw [if_pos hk, if_pos hk]
      have hlt := checkToken_lt_length tks pos _ hk (by simp)
      rcases hpi : parseImport tks pos with ⟨r, p⟩
      have hp : pos + 1 ≤ p := le_snd_eq (parseImport_strict tks pos hk) hpi
      cases r with
      | ok imp =>
        have hsk := skipWs_ge tks p
        dsimp only
        cases f with
        | zero => omega
        | succ f' =>
          cases g with
          | zero => omega
          | succ g' =>
            rw [ih (tks.length - skipWs tks p) (by omega) (skipWs tks p)
              f' g' rfl (by omega) (by omega)]
      | error e =>
        have hfs := findSyncPoint_ge tks p
        have hsk := skipWs_ge tks (findSyncPoint tks p)
        dsimp only
        cases f with
        | zero => omega
        | succ f' =>
          cases g with
          | zero => omega
          | succ g' =>
            rw [ih (tks.length - skipWs tks (findSyncPoint tks p)) (by omega)
              (skipWs tks (findSyncPoint tks p)) f' g' rfl (by omega) (by omega)]
    · rw [if_neg hk, if_neg hk]

theorem processLoop_steps_le (tks : List Token) (bf : Nat) :
    ∀ fuel pos, (processLoop tks bf fuel pos).2.2.2.2 ≤ tks.length - pos
  | 0, pos => Nat.zero_le _
  | fuel + 1, pos => by
    unfold processLoop
    split
    · rename_i hk
      have hlt := checkToken_lt_length tks pos _ hk (by simp)
      split
      · rename_i proc p recErrs heqP
        have hp : pos + 1 ≤ p := by
          have h := parseProcessWithRecovery_strict tks bf pos hk
          rw [heqP] at h
          exact h
        have hsk := skipWs_ge tks p
        rcases hrec : processLoop tks bf fuel (skipWs tks p)
          with ⟨ps, errs, recs, pf, steps⟩
        have hI := processLoop_steps_le tks bf fuel (skipWs tks p)
        rw [hrec] at hI
        have hI2 : steps ≤ tks.length - skipWs tks p := hI
        show steps ≤ tks.length - pos
        omega
      · rename_i e p recErrs heqP
        have hp : pos + 1 ≤ p := by
          have h := parseProcessWithRecovery_strict tks bf pos hk
          rw [heqP] at h
          exact h
        have hfs := findSyncPoint_ge tks p
        have hsk := skipWs_ge tks (findSyncPoint tks p)
        rcases hrec : processLoop tks bf fuel (skipWs tks (findSyncPoint tks p))
          with ⟨ps, errs, recs, pf, steps⟩
        have hI := processLoop_steps_le tks bf fuel
          (skipWs tks (findSyncPoint tks p))
        rw [hrec] at hI
        have hI2 : steps ≤ tks.length - skipWs tks (findSyncPoint tks p) := hI
        show steps + 1 ≤ tks.length - pos
        omega
    · exact Nat.zero_le _

theorem processLoop_fuel (tks : List Token) (bf bg : Nat)
    (hbf : tks.length ≤ bf) (hbg : tks.length ≤ bg) :
    ∀ n pos f g, tks.length - pos = n → n ≤ f → n ≤ g →
      processLoop tks (bf + 1) (f + 1) pos
        = processLoop tks (bg + 1) (g + 1) pos := by
  intro n
  induction n using Nat.strong_induction_on with
  | _ n ih =>
    intro pos f g hn hf hg
    unfold processLoop
    by_cases hk : checkToken tks pos TokenKind.process = true
    · rw [if_pos hk, if_pos hk]
      have hlt := checkToken_lt_length tks pos _ hk (by simp)
      rw [parseProcessWithRecovery_fuel tks bf bg pos hbf hbg]
      rcases hpp : parseProcessWithRecovery tks (bg + 1) pos with ⟨r, p, recErrs⟩
      have hp : pos + 1 ≤ p := by
        have h := parseProcessWithRecovery_strict tks (bg + 1) pos hk
        rw [hpp] at h
        exact h
      cases r with
      | ok proc =>
        have hsk := skipWs_ge tks p
        dsimp only
        cases f with
        | zero => omega
        | succ f' =>
          cases g with
          | zero => omega
          | succ g' =>
            rw [ih (tks.length - skipWs tks p) (by omega) (skipWs tks p)
              f' g' rfl (by omega) (by omega)]
      | error e =>
        have hfs := findSyncPoint_ge tks p
        have hsk := skipWs_ge tks (findSyncPoint tks p)
        dsimp only
        cases f with
        | zero => omega
        | succ f' =>
          cases g with
          | zero => omega
          | succ g' =>
            rw [ih (tks.length - skipWs tks (findSyncPoint tks p)) (by omega)
              (skipWs tks (findSyncPoint tks p)) f' g' rfl (by omega) (by omega)]
    · rw [if_neg hk, if_neg hk]

theorem parseWithRecoveryF_fuel (tks : List Token) (extra : Nat) :
    parseWithRecoveryF tks (tks.length + 1 + extra)
      = parseWithRecoveryF tks (tks.length + 1) := by
  unfold parseWithRecoveryF
  dsimp only
  rw [show tks.length + 1 + extra = (tks.length + extra) + 1 from by omega]
  rw [importLoop_fuel tks (tks.length - skipWs tks 0) (skipWs tks 0)
    (tks.length + extra) tks.length rfl (by omega) (by omega)]
  rw [show tks.length + extra + 1 = (tks.length + extra) + 1 from rfl]
  rw [show (tks.length + 1 : Nat) = tks.length + 1 from rfl]
  rw [processLoop_fuel tks (tks.length + extra) tks.length (by omega) (by omega)
    (tks.length
      - (importLoop tks (tks.length + 1) (skipWs tks 0)).2.2.1)
    ((importLoop tks (tks.length + 1) (skipWs tks 0)).2.2.1)
    (tks.length + extra) tks.length rfl (by omega) (by omega)]

theorem recoverySteps_le (tks : List Token) :
    recoverySteps tks ≤ tks.length := by
  have hI1 := importLoop_steps_le tks (tks.length + 1) (skipWs tks 0)
  have hI2 := importLoop_progress tks (tks.length + 1) (skipWs tks 0)
  have hP := processLoop_steps_le tks (tks.length + 1) (tks.length + 1)
    ((importLoop tks (tks.length + 1) (skipWs tks 0)).2.2.1)
  show (importLoop tks (tks.length + 1) (skipWs tks 0)).2.2.2
    + (processLoop tks (tks.length + 1) (tks.length + 1)
        ((importLoop tks (tks.length + 1) (skipWs tks 0)).2.2.1)).2.2.2.2
    ≤ tks.length
  omega

/-- C1: `parse_with_recovery` is total — the canonical fuel
`tokens.length + 1` saturates its three recovery loops (giving the same
document for every larger fuel, so the loops exit by their own guards,
never by fuel exhaustion), and the total number of top-level recovery
attempts (`find_sync_point` jumps after a failed import or process
parse) never exceeds the token count: the cursor strictly increases
across each recovery attempt. -/
theorem C1_parse_with_recovery_total :
    (∀ tks : List Token, recoverySteps tks ≤ tks.length)
    ∧ ∀ (tks : List Token) (extra : Nat),
        parseWithRecoveryF tks (tks.length + 1 + extra)
          = parseWithRecoveryF tks (tks.length + 1) :=
  ⟨recoverySteps_le, parseWithRecoveryF_fuel⟩

end BPMNCode
